import Mathlib

/-!
Shallow embedding of the three libraries of the repository and the theorems
about them: the button driver (`namespace Btn`), the timer and elapsed-time
classes (`namespace Tmr`) and the joystick driver (`namespace Joy`). All
definitions come first, the theorems follow under the heading "Theorems".
-/

/-! Button driver (libraries/buttonsDriver/button.cpp, button.h)

Shallow embedding of the `Button` class: the debounce filter, the interaction
state machine `fsm`, the polling entry point `tick(bool)`, `reset`, and the
read-and-clear accessors.

Conventions of the embedding
* `unsigned int` / `unsigned long` are 32-bit on the target (TM4C1294, ARM
  Cortex-M4): they are `Nat` values, and every arithmetic result is reduced
  modulo `WORD = 2^32`.
* `int` is a 32-bit two's-complement value, an `Int` wrapped by `toInt32`.
* A function pointer is `Option Nat` (`none` is `nullptr`), a `void*` context
  argument is a `Nat`.
* Callbacks run synchronously and may not re-enter the instance, so a call is
  recorded in an output trace instead of being executed: every firing site of
  the source contributes one `Firing`, which holds the event kind and the
  handler invocations the site performs.
* GPIO register access (`begin`, `readPhysical`, `applyPadConfig`) is outside
  the model; `tick(bool)` takes the level as its argument, and `tick()` and
  `readPhysical` take the pin level that `GPIOPinRead` delivered.
-/

namespace Btn

/-- Modulus of the 32-bit unsigned types. -/
def WORD : Nat := 4294967296

/-- Unsigned 32-bit subtraction `a - b`. -/
def subU (a b : Nat) : Nat := (a + (WORD - b % WORD)) % WORD

/-- Unsigned 32-bit addition `a + b`. -/
def addU (a b : Nat) : Nat := (a + b) % WORD

/-- Conversion of an integer to the 32-bit two's-complement `int`. -/
def toInt32 (x : Int) : Int := (x + 2147483648) % 4294967296 - 2147483648

/-- The cast `(unsigned long)` of an `int`. -/
def toU32 (x : Int) : Nat := (x % 4294967296).toNat

inductive ButtonPull where
  | PullUp
  | PullDown
  | None
deriving DecidableEq, Repr

inductive StateMachine where
  | OCS_INIT
  | OCS_DOWN
  | OCS_UP
  | OCS_COUNT
  | OCS_PRESS
  | OCS_PRESSEND
deriving DecidableEq, Repr

/-- The event kinds of the button, one per pair of handler slots. -/
inductive EventKind where
  | press
  | release
  | click
  | doubleClick
  | multiClick
  | longPressStart
  | longPressStop
  | duringLongPress
  | idle
deriving DecidableEq, Repr

/-- One handler invocation: `fn()` or `fn(arg)`. -/
inductive Call where
  | plain (fn : Nat)
  | param (fn : Nat) (arg : Nat)
deriving DecidableEq, Repr

/-- One execution of a firing site: the event and the handlers it invoked. -/
structure Firing where
  kind : EventKind
  calls : List Call
deriving DecidableEq, Repr

structure Button where
  _wasPressedFlag : Bool
  _wasReleasedFlag : Bool
  _currentPhysicalLevel : Bool
  _pin : Nat
  _portBase : Nat
  _bitMask : Nat
  _pullMode : ButtonPull
  _periph : Nat
  _initialized : Bool
  _debounceMs : Int
  _clickMs : Nat
  _pressMs : Nat
  _idleMs : Nat
  _longPressIntervalMs : Nat
  _tickIntervalMs : Nat
  _state : StateMachine
  _idleState : Bool
  _debouncedLevel : Bool
  _lastDebounceLevel : Bool
  _lastDebounceTime : Nat
  _now : Nat
  _startTime : Nat
  _lastDuringLongPressTime : Nat
  _nClicks : Int
  _maxClicks : Int
  _pressFunc : Option Nat
  _paramPressFunc : Option Nat
  _pressFuncParam : Nat
  _clickFunc : Option Nat
  _paramClickFunc : Option Nat
  _clickFuncParam : Nat
  _doubleClickFunc : Option Nat
  _paramDoubleClickFunc : Option Nat
  _doubleClickFuncParam : Nat
  _multiClickFunc : Option Nat
  _paramMultiClickFunc : Option Nat
  _multiClickFuncParam : Nat
  _longPressStartFunc : Option Nat
  _paramLongPressStartFunc : Option Nat
  _longPressStartFuncParam : Nat
  _longPressStopFunc : Option Nat
  _paramLongPressStopFunc : Option Nat
  _longPressStopFuncParam : Nat
  _duringLongPressFunc : Option Nat
  _paramDuringLongPressFunc : Option Nat
  _duringLongPressFuncParam : Nat
  _idleFunc : Option Nat
  _doubleClickedFlag : Bool
  _holdTimeMs : Nat
  _releaseFunc : Option Nat
deriving DecidableEq, Repr

/-- The statement `if (f) f();`. -/
def callPlain (f : Option Nat) : List Call :=
  match f with
  | some fn => [Call.plain fn]
  | none => []

/-- The statement `if (f) f(arg);`. -/
def callParam (f : Option Nat) (arg : Nat) : List Call :=
  match f with
  | some fn => [Call.param fn arg]
  | none => []

/-- The constructor `Button::Button`. The three table lookups of `pins.h`
(`port_to_base`, `digital_pin_to_bit_mask`, `sysctl_periph_for_port`) are
passed in as `portBase`, `bitMask` and `periph`. -/
def Button.ctor (pin debounceTicks longPressTicks doubleClickTicks : Nat)
    (pull : ButtonPull) (portBase bitMask periph : Nat) : Button :=
  { _wasPressedFlag := false
    _wasReleasedFlag := false
    _currentPhysicalLevel := false
    _pin := pin
    _portBase := portBase
    _bitMask := bitMask
    _pullMode := pull
    _periph := periph
    _initialized := false
    _debounceMs := toInt32 (((debounceTicks * 20) % WORD : Nat) : Int)
    _clickMs := (doubleClickTicks * 20) % WORD
    _pressMs := (longPressTicks * 20) % WORD
    _idleMs := 1000
    _longPressIntervalMs := 0
    _tickIntervalMs := 20
    _state := StateMachine.OCS_INIT
    _idleState := false
    _debouncedLevel := false
    _lastDebounceLevel := false
    _lastDebounceTime := 0
    _now := 0
    _startTime := 0
    _lastDuringLongPressTime := 0
    _nClicks := 0
    _maxClicks := 2
    _pressFunc := none
    _paramPressFunc := none
    _pressFuncParam := 0
    _clickFunc := none
    _paramClickFunc := none
    _clickFuncParam := 0
    _doubleClickFunc := none
    _paramDoubleClickFunc := none
    _doubleClickFuncParam := 0
    _multiClickFunc := none
    _paramMultiClickFunc := none
    _multiClickFuncParam := 0
    _longPressStartFunc := none
    _paramLongPressStartFunc := none
    _longPressStartFuncParam := 0
    _longPressStopFunc := none
    _paramLongPressStopFunc := none
    _longPressStopFuncParam := 0
    _duringLongPressFunc := none
    _paramDuringLongPressFunc := none
    _duringLongPressFuncParam := 0
    _idleFunc := none
    _doubleClickedFlag := false
    _holdTimeMs := 0
    _releaseFunc := none }

/-- The button with the default arguments of the header:
`Button(pin)` = `Button(pin, 3, 50, 25, ButtonPull::PullUp)`. -/
def Button.default (pin portBase bitMask periph : Nat) : Button :=
  Button.ctor pin 3 50 25 ButtonPull.PullUp portBase bitMask periph

/-- The method `Button::debounce`. -/
def Button.debounce (b : Button) (value : Bool) : Button × Bool :=
  let b1 := { b with _now := addU b._now b._tickIntervalMs }
  let b2 := if value && decide (b1._debounceMs < 0) then
      { b1 with _debouncedLevel := value } else b1
  let b3 := if b2._lastDebounceLevel == value then
      (if subU b2._now b2._lastDebounceTime ≥
            toU32 (if b2._debounceMs < 0 then - b2._debounceMs else b2._debounceMs) then
        { b2 with _debouncedLevel := value } else b2)
    else
      { b2 with _lastDebounceTime := b2._now, _lastDebounceLevel := value }
  (b3, b3._debouncedLevel)

/-- The method `Button::reset`. -/
def Button.reset (b : Button) : Button :=
  { b with
    _state := StateMachine.OCS_INIT
    _nClicks := 0
    _startTime := b._now
    _idleState := false
    _wasPressedFlag := false
    _wasReleasedFlag := false
    _doubleClickedFlag := false
    _holdTimeMs := 0 }

/-- The method `Button::newState`. -/
def Button.newState (b : Button) (next : StateMachine) : Button :=
  { b with _state := next }

/-- The firing site of an event kind: the guarded handler calls
`if (_xFunc) _xFunc(); if (_paramXFunc) _paramXFunc(_xFuncParam);` that the
source writes out at that site (`release` and `idle` have one slot only). -/
def Button.fire (b : Button) : EventKind → Firing
  | EventKind.press =>
    ⟨EventKind.press, callPlain b._pressFunc ++ callParam b._paramPressFunc b._pressFuncParam⟩
  | EventKind.release => ⟨EventKind.release, callPlain b._releaseFunc⟩
  | EventKind.click =>
    ⟨EventKind.click, callPlain b._clickFunc ++ callParam b._paramClickFunc b._clickFuncParam⟩
  | EventKind.doubleClick =>
    ⟨EventKind.doubleClick,
      callPlain b._doubleClickFunc ++ callParam b._paramDoubleClickFunc b._doubleClickFuncParam⟩
  | EventKind.multiClick =>
    ⟨EventKind.multiClick,
      callPlain b._multiClickFunc ++ callParam b._paramMultiClickFunc b._multiClickFuncParam⟩
  | EventKind.longPressStart =>
    ⟨EventKind.longPressStart,
      callPlain b._longPressStartFunc ++
        callParam b._paramLongPressStartFunc b._longPressStartFuncParam⟩
  | EventKind.longPressStop =>
    ⟨EventKind.longPressStop,
      callPlain b._longPressStopFunc ++
        callParam b._paramLongPressStopFunc b._longPressStopFuncParam⟩
  | EventKind.duringLongPress =>
    ⟨EventKind.duringLongPress,
      callPlain b._duringLongPressFunc ++
        callParam b._paramDuringLongPressFunc b._duringLongPressFuncParam⟩
  | EventKind.idle => ⟨EventKind.idle, callPlain b._idleFunc⟩

/-- The method `Button::fsm`: the new object state and the firing sites that
were executed, in order. -/
def Button.fsm (b : Button) (activeLevel : Bool) : Button × List Firing :=
  let waitTime := subU b._now b._startTime
  match b._state with
  | StateMachine.OCS_INIT =>
    let r1 : Button × List Firing :=
      if !b._idleState && decide (waitTime > b._idleMs) then
        ({ b with _idleState := true }, [b.fire EventKind.idle])
      else (b, [])
    if activeLevel then
      let b2 := r1.1.newState StateMachine.OCS_DOWN
      let b3 := { b2 with _startTime := b2._now, _nClicks := 0 }
      ({ b3 with _holdTimeMs := 0 }, r1.2 ++ [b.fire EventKind.press])
    else r1
  | StateMachine.OCS_DOWN =>
    if !activeLevel then
      let b1 := b.newState StateMachine.OCS_UP
      let b2 := { b1 with _startTime := b1._now }
      let b3 := { b2 with _holdTimeMs := subU b2._now (subU b2._startTime waitTime) }
      (b3, [b.fire EventKind.release])
    else if waitTime > b._pressMs then
      (b.newState StateMachine.OCS_PRESS, [b.fire EventKind.longPressStart])
    else (b, [])
  | StateMachine.OCS_UP =>
    let b1 := { b with _nClicks := toInt32 (b._nClicks + 1) }
    let b2 := if b1._nClicks = (2 : Int) then { b1 with _doubleClickedFlag := true } else b1
    (b2.newState StateMachine.OCS_COUNT, [])
  | StateMachine.OCS_COUNT =>
    if activeLevel then
      let b1 := b.newState StateMachine.OCS_DOWN
      ({ b1 with _startTime := b1._now }, [])
    else if waitTime ≥ b._clickMs ∨ b._nClicks = b._maxClicks then
      let f : Firing :=
        if b._nClicks = (1 : Int) then b.fire EventKind.click
        else if b._nClicks = (2 : Int) then b.fire EventKind.doubleClick
        else b.fire EventKind.multiClick
      (b.reset, [f])
    else (b, [])
  | StateMachine.OCS_PRESS =>
    if !activeLevel then
      (b.newState StateMachine.OCS_PRESSEND, [])
    else if subU b._now b._lastDuringLongPressTime ≥ b._longPressIntervalMs then
      ({ b with _lastDuringLongPressTime := b._now }, [b.fire EventKind.duringLongPress])
    else (b, [])
  | StateMachine.OCS_PRESSEND =>
    (b.reset, [b.fire EventKind.longPressStop])

/-- The setter `Button::setDebounceMs`. -/
def Button.setDebounceMs (b : Button) (ms : Int) : Button := { b with _debounceMs := ms }

/-- The setter `Button::setClickMs`. -/
def Button.setClickMs (b : Button) (ms : Nat) : Button := { b with _clickMs := ms }

/-- The setter `Button::setPressMs`. -/
def Button.setPressMs (b : Button) (ms : Nat) : Button := { b with _pressMs := ms }

/-- The setter `Button::setIdleMs`. -/
def Button.setIdleMs (b : Button) (ms : Nat) : Button := { b with _idleMs := ms }

/-- The setter `Button::setLongPressIntervalMs`. -/
def Button.setLongPressIntervalMs (b : Button) (ms : Nat) : Button :=
  { b with _longPressIntervalMs := ms }

/-- The setter `Button::setTickIntervalMs`. -/
def Button.setTickIntervalMs (b : Button) (ms : Nat) : Button := { b with _tickIntervalMs := ms }

/-- The method `Button::attachClick(callbackFunction)`. -/
def Button.attachClick (b : Button) (fn : Option Nat) : Button := { b with _clickFunc := fn }

/-- The method `Button::attachDoubleClick(callbackFunction)`. -/
def Button.attachDoubleClick (b : Button) (fn : Option Nat) : Button :=
  let b1 := { b with _doubleClickFunc := fn }
  if b1._maxClicks < 2 then { b1 with _maxClicks := 2 } else b1

/-- The method `Button::attachPress(callbackFunction)`. -/
def Button.attachPress (b : Button) (fn : Option Nat) : Button := { b with _pressFunc := fn }

/-- The method `Button::attachPress(parameterizedCallbackFunction, void*)`. -/
def Button.attachPressParam (b : Button) (fn : Option Nat) (param : Nat) : Button :=
  { b with _paramPressFunc := fn, _pressFuncParam := param }

/-- The method `Button::attachClick(parameterizedCallbackFunction, void*)`. -/
def Button.attachClickParam (b : Button) (fn : Option Nat) (param : Nat) : Button :=
  { b with _paramClickFunc := fn, _clickFuncParam := param }

/-- The method `Button::attachDoubleClick(parameterizedCallbackFunction, void*)`. -/
def Button.attachDoubleClickParam (b : Button) (fn : Option Nat) (param : Nat) : Button :=
  let b1 := { b with _paramDoubleClickFunc := fn, _doubleClickFuncParam := param }
  if b1._maxClicks < 2 then { b1 with _maxClicks := 2 } else b1

/-- The method `Button::attachMultiClick(callbackFunction)`. -/
def Button.attachMultiClick (b : Button) (fn : Option Nat) : Button :=
  let b1 := { b with _multiClickFunc := fn }
  if b1._maxClicks < 100 then { b1 with _maxClicks := 100 } else b1

/-- The method `Button::attachMultiClick(parameterizedCallbackFunction, void*)`. -/
def Button.attachMultiClickParam (b : Button) (fn : Option Nat) (param : Nat) : Button :=
  let b1 := { b with _paramMultiClickFunc := fn, _multiClickFuncParam := param }
  if b1._maxClicks < 100 then { b1 with _maxClicks := 100 } else b1

/-- The method `Button::attachLongPressStart(callbackFunction)`. -/
def Button.attachLongPressStart (b : Button) (fn : Option Nat) : Button :=
  { b with _longPressStartFunc := fn }

/-- The method `Button::attachLongPressStart(parameterizedCallbackFunction, void*)`. -/
def Button.attachLongPressStartParam (b : Button) (fn : Option Nat) (param : Nat) : Button :=
  { b with _paramLongPressStartFunc := fn, _longPressStartFuncParam := param }

/-- The method `Button::attachLongPressStop(callbackFunction)`. -/
def Button.attachLongPressStop (b : Button) (fn : Option Nat) : Button :=
  { b with _longPressStopFunc := fn }

/-- The method `Button::attachLongPressStop(parameterizedCallbackFunction, void*)`. -/
def Button.attachLongPressStopParam (b : Button) (fn : Option Nat) (param : Nat) : Button :=
  { b with _paramLongPressStopFunc := fn, _longPressStopFuncParam := param }

/-- The method `Button::attachDuringLongPress(callbackFunction)`. -/
def Button.attachDuringLongPress (b : Button) (fn : Option Nat) : Button :=
  { b with _duringLongPressFunc := fn }

/-- The method `Button::attachDuringLongPress(parameterizedCallbackFunction, void*)`. -/
def Button.attachDuringLongPressParam (b : Button) (fn : Option Nat) (param : Nat) : Button :=
  { b with _paramDuringLongPressFunc := fn, _duringLongPressFuncParam := param }

/-- The method `Button::attachIdle`. -/
def Button.attachIdle (b : Button) (fn : Option Nat) : Button := { b with _idleFunc := fn }

/-- The method `Button::attachRelease`. -/
def Button.attachRelease (b : Button) (fn : Option Nat) : Button := { b with _releaseFunc := fn }

/-- The method `Button::begin`, without its GPIO register writes. -/
def Button.begin (b : Button) : Button :=
  if b._initialized then b else { b with _initialized := true }

/-- The method `Button::tick(bool activeLevel)`. -/
def Button.tick (b : Button) (activeLevel : Bool) : Button × List Firing :=
  let b0 := if !b._initialized then b.begin else b
  let prevPhysical := b0._currentPhysicalLevel
  let b1 := { b0 with _currentPhysicalLevel := activeLevel }
  let b2 := if !prevPhysical && activeLevel then { b1 with _wasPressedFlag := true } else b1
  let b3 := if prevPhysical && !activeLevel then { b2 with _wasReleasedFlag := true } else b2
  let d := b3.debounce activeLevel
  d.1.fsm d.2

/-- The method `Button::wasPressed`. -/
def Button.wasPressed (b : Button) : Button × Bool :=
  ({ b with _wasPressedFlag := false }, b._wasPressedFlag)

/-- The method `Button::wasReleased`. -/
def Button.wasReleased (b : Button) : Button × Bool :=
  ({ b with _wasReleasedFlag := false }, b._wasReleasedFlag)

/-- The method `Button::isDoubleClicked`. -/
def Button.isDoubleClicked (b : Button) : Button × Bool :=
  ({ b with _doubleClickedFlag := false }, b._doubleClickedFlag)

/-- The method `Button::isPressed`. -/
def Button.isPressed (b : Button) : Bool := b._currentPhysicalLevel

/-- The method `Button::getHoldTime`. -/
def Button.getHoldTime (b : Button) : Nat := b._holdTimeMs

/-- The method `Button::getNumberClicks`. -/
def Button.getNumberClicks (b : Button) : Int := b._nClicks

/-- The method `Button::readPhysical`, after the pin read: `levelHigh` is
whether the masked `GPIOPinRead` word is non-zero. -/
def Button.readPhysical (b : Button) (levelHigh : Bool) : Bool :=
  match b._pullMode with
  | ButtonPull.PullUp => !levelHigh
  | ButtonPull.PullDown => levelHigh
  | ButtonPull.None => !levelHigh

/-- The method `Button::tick()`, the overload that reads the pin. -/
def Button.tickPhysical (b : Button) (levelHigh : Bool) : Button × List Firing :=
  let b0 := if !b._initialized then b.begin else b
  let physical := b0.readPhysical levelHigh
  let prevPhysical := b0._currentPhysicalLevel
  let b1 := { b0 with _currentPhysicalLevel := physical }
  let b2 := if !prevPhysical && physical then { b1 with _wasPressedFlag := true } else b1
  let b3 := if prevPhysical && !physical then { b2 with _wasReleasedFlag := true } else b2
  let d := b3.debounce physical
  d.1.fsm d.2

/-- Feeding a list of input levels through `tick(bool)`, one per call: the
final object state and all firings, in order. -/
def Button.run : Button → List Bool → Button × List Firing
  | b, [] => (b, [])
  | b, x :: xs =>
    let r := b.tick x
    let s := Button.run r.1 xs
    (s.1, r.2 ++ s.2)

/-- The debounced level at the end of each tick of a run. -/
def Button.levels : Button → List Bool → List Bool
  | _, [] => []
  | b, x :: xs => (b.tick x).1._debouncedLevel :: Button.levels (b.tick x).1 xs

/-! ## Definitions used by the proofs

None of the definitions below is part of the embedding of the source. `stage`
and `prep` split `tick(bool)` into its steps (`stage_eq`, `tick_eq`), and
`Core` with `Core.step`, `Core.run` is the projection of the object onto the
fields `fsm` works on, tied to `tick` and `run` by `tick_core` and `run_core`.
`longPressPaired` reads the pairing of the long-press events off a trace, and
`clickInv` is the invariant that bounds the click count. The remaining ones
name lists and concrete inputs that the statements use.
-/

/-- The debounced level that `debounce` returns. -/
def debLevel (b : Button) (v : Bool) : Bool := (b.debounce v).2

/-- The change timestamp that `debounce` leaves. -/
def debTime (b : Button) (v : Bool) : Nat :=
  if b._lastDebounceLevel = v then b._lastDebounceTime else addU b._now b._tickIntervalMs

/-- The first part of `tick(bool)`: `begin()` on first use and the raw-edge flags. -/
def stage (b : Button) (activeLevel : Bool) : Button :=
  let b0 := if !b._initialized then b.begin else b
  let prevPhysical := b0._currentPhysicalLevel
  let b1 := { b0 with _currentPhysicalLevel := activeLevel }
  let b2 := if !prevPhysical && activeLevel then { b1 with _wasPressedFlag := true } else b1
  if prevPhysical && !activeLevel then { b2 with _wasReleasedFlag := true } else b2

/-- The object state on entry to `fsm` inside `tick(bool)`, as one record update. -/
def prep (b : Button) (x : Bool) : Button :=
  { b with
    _initialized := true
    _currentPhysicalLevel := x
    _wasPressedFlag := b._wasPressedFlag || (!b._currentPhysicalLevel && x)
    _wasReleasedFlag := b._wasReleasedFlag || (b._currentPhysicalLevel && !x)
    _now := addU b._now b._tickIntervalMs
    _debouncedLevel := debLevel b x
    _lastDebounceTime := debTime b x
    _lastDebounceLevel := x }

/-- The magnitude `(unsigned long)((_debounceMs<0) ? -_debounceMs : _debounceMs)`. -/
def debAbs (b : Button) : Nat :=
  toU32 (if b._debounceMs < 0 then - b._debounceMs else b._debounceMs)

/-- The part of the object state that `fsm` reads and writes, with the timing
configuration it uses. -/
structure Core where
  state : StateMachine
  now : Nat
  startTime : Nat
  lastDuring : Nat
  nClicks : Int
  idleState : Bool
  maxClicks : Int
  clickMs : Nat
  pressMs : Nat
  idleMs : Nat
  longPressIntervalMs : Nat
  tickIntervalMs : Nat
deriving DecidableEq, Repr

/-- Projection of a button onto the state of its interaction machine. -/
def Button.core (b : Button) : Core :=
  { state := b._state
    now := b._now
    startTime := b._startTime
    lastDuring := b._lastDuringLongPressTime
    nClicks := b._nClicks
    idleState := b._idleState
    maxClicks := b._maxClicks
    clickMs := b._clickMs
    pressMs := b._pressMs
    idleMs := b._idleMs
    longPressIntervalMs := b._longPressIntervalMs
    tickIntervalMs := b._tickIntervalMs }

/-- One tick seen from the interaction machine: the clock advance of `debounce`
followed by `fsm` on the debounced level; the result lists the kinds fired. -/
def Core.step (c : Core) (level : Bool) : Core × List EventKind :=
  let now := addU c.now c.tickIntervalMs
  let waitTime := subU now c.startTime
  match c.state with
  | StateMachine.OCS_INIT =>
    let idle := !c.idleState && decide (waitTime > c.idleMs)
    let k1 := if idle then [EventKind.idle] else []
    if level then
      ({ c with now := now, idleState := c.idleState || idle, state := StateMachine.OCS_DOWN,
                startTime := now, nClicks := 0 }, k1 ++ [EventKind.press])
    else ({ c with now := now, idleState := c.idleState || idle }, k1)
  | StateMachine.OCS_DOWN =>
    if !level then
      ({ c with now := now, state := StateMachine.OCS_UP, startTime := now }, [EventKind.release])
    else if waitTime > c.pressMs then
      ({ c with now := now, state := StateMachine.OCS_PRESS }, [EventKind.longPressStart])
    else ({ c with now := now }, [])
  | StateMachine.OCS_UP =>
    ({ c with now := now, state := StateMachine.OCS_COUNT, nClicks := toInt32 (c.nClicks + 1) }, [])
  | StateMachine.OCS_COUNT =>
    if level then
      ({ c with now := now, state := StateMachine.OCS_DOWN, startTime := now }, [])
    else if waitTime ≥ c.clickMs ∨ c.nClicks = c.maxClicks then
      ({ c with now := now, state := StateMachine.OCS_INIT, nClicks := 0, startTime := now,
                idleState := false },
        [if c.nClicks = (1 : Int) then EventKind.click
         else if c.nClicks = (2 : Int) then EventKind.doubleClick else EventKind.multiClick])
    else ({ c with now := now }, [])
  | StateMachine.OCS_PRESS =>
    if !level then ({ c with now := now, state := StateMachine.OCS_PRESSEND }, [])
    else if subU now c.lastDuring ≥ c.longPressIntervalMs then
      ({ c with now := now, lastDuring := now }, [EventKind.duringLongPress])
    else ({ c with now := now }, [])
  | StateMachine.OCS_PRESSEND =>
    ({ c with now := now, state := StateMachine.OCS_INIT, nClicks := 0, startTime := now,
              idleState := false }, [EventKind.longPressStop])

/-- A run of the interaction machine over a list of debounced levels. -/
def Core.run : Core → List Bool → Core × List EventKind
  | c, [] => (c, [])
  | c, l :: ls =>
    let r := c.step l
    let s := Core.run r.1 ls
    (s.1, r.2 ++ s.2)

/-- The kinds of a trace other than `idle`. -/
def nonIdle (ks : List EventKind) : List EventKind :=
  ks.filter (fun k => decide (k ≠ EventKind.idle))

/-- The firings of a trace other than those of the `idle` event. -/
def nonIdleFirings (fs : List Firing) : List Firing :=
  fs.filter (fun f => decide (f.kind ≠ EventKind.idle))

/-- The kinds fired by a run of `tick(bool)` calls, in order. -/
def Button.kinds (b : Button) (xs : List Bool) : List EventKind :=
  (b.run xs).2.map Firing.kind

/-- The transitions of the specified table. -/
def allowedTransitions : List (StateMachine × StateMachine) :=
  [(StateMachine.OCS_INIT, StateMachine.OCS_INIT),
   (StateMachine.OCS_INIT, StateMachine.OCS_DOWN),
   (StateMachine.OCS_DOWN, StateMachine.OCS_DOWN),
   (StateMachine.OCS_DOWN, StateMachine.OCS_UP),
   (StateMachine.OCS_DOWN, StateMachine.OCS_PRESS),
   (StateMachine.OCS_UP, StateMachine.OCS_COUNT),
   (StateMachine.OCS_COUNT, StateMachine.OCS_COUNT),
   (StateMachine.OCS_COUNT, StateMachine.OCS_DOWN),
   (StateMachine.OCS_COUNT, StateMachine.OCS_INIT),
   (StateMachine.OCS_PRESS, StateMachine.OCS_PRESS),
   (StateMachine.OCS_PRESS, StateMachine.OCS_PRESSEND),
   (StateMachine.OCS_PRESSEND, StateMachine.OCS_INIT)]

/-- The event kinds that have a registration method for each handler shape. -/
def EventKind.twoShapes : EventKind → Bool
  | EventKind.release => false
  | EventKind.idle => false
  | _ => true

/-- Registration of a no-argument handler for an event kind, by the `attach`
method of that kind. -/
def Button.attachPlain (b : Button) : EventKind → Option Nat → Button
  | EventKind.press, fn => b.attachPress fn
  | EventKind.release, fn => b.attachRelease fn
  | EventKind.click, fn => b.attachClick fn
  | EventKind.doubleClick, fn => b.attachDoubleClick fn
  | EventKind.multiClick, fn => b.attachMultiClick fn
  | EventKind.longPressStart, fn => b.attachLongPressStart fn
  | EventKind.longPressStop, fn => b.attachLongPressStop fn
  | EventKind.duringLongPress, fn => b.attachDuringLongPress fn
  | EventKind.idle, fn => b.attachIdle fn

/-- Registration of a context-argument handler for an event kind, by the
two-argument `attach` method of that kind; `release` and `idle` have none. -/
def Button.attachParam (b : Button) : EventKind → Option Nat → Nat → Button
  | EventKind.press, fn, p => b.attachPressParam fn p
  | EventKind.release, _, _ => b
  | EventKind.click, fn, p => b.attachClickParam fn p
  | EventKind.doubleClick, fn, p => b.attachDoubleClickParam fn p
  | EventKind.multiClick, fn, p => b.attachMultiClickParam fn p
  | EventKind.longPressStart, fn, p => b.attachLongPressStartParam fn p
  | EventKind.longPressStop, fn, p => b.attachLongPressStopParam fn p
  | EventKind.duringLongPress, fn, p => b.attachDuringLongPressParam fn p
  | EventKind.idle, _, _ => b

/-- One handler registration call: an event kind with a no-argument handler, or
with a context-argument handler and its context. -/
inductive Registration where
  | plain (k : EventKind) (fn : Option Nat)
  | param (k : EventKind) (fn : Option Nat) (ctx : Nat)
deriving DecidableEq, Repr

/-- Whether the call is one of the two `attachMultiClick` overloads. -/
def Registration.isMultiClick : Registration → Bool
  | Registration.plain EventKind.multiClick _ => true
  | Registration.param EventKind.multiClick _ _ => true
  | _ => false

/-- The registration call made on a button. -/
def Button.register (b : Button) : Registration → Button
  | Registration.plain k fn => b.attachPlain k fn
  | Registration.param k fn ctx => b.attachParam k fn ctx

/-- A sequence of registration calls, in order. -/
def Button.registerAll (b : Button) (rs : List Registration) : Button :=
  rs.foldl Button.register b

/-- The button `Button(pin)` of the header defaults, on pin 0, used for the
concrete runs below: debounce 60 ms, click window 500 ms, long press 1000 ms,
tick 20 ms. -/
def sample : Button := Button.default 0 0 0 0

/-- The button `Button(pin, 3, 50, 1)`: click window 20 ms, one tick interval. -/
def sampleShortWindow : Button := Button.ctor 0 3 50 1 ButtonPull.PullUp 0 0 0

/-- Raw input of one short press: 5 ticks active, then `n` ticks inactive. -/
def onePress (n : Nat) : List Bool := List.replicate 5 true ++ List.replicate n false

/-- Raw input of two short presses: 5 ticks active, 5 inactive, 5 active, then
`n` ticks inactive. -/
def twoPresses (n : Nat) : List Bool :=
  List.replicate 5 true ++ List.replicate 5 false ++ List.replicate 5 true ++
    List.replicate n false

/-- The default button after 8 ticks pressed and 3 ticks released: the machine
is in Down since software time 80, and the release is not yet debounced. -/
def heldButton : Button := (sample.run (List.replicate 8 true ++ List.replicate 3 false)).1

/-- Whether the interaction machine is inside a long press. -/
def StateMachine.inLongPress : StateMachine → Bool
  | StateMachine.OCS_PRESS => true
  | StateMachine.OCS_PRESSEND => true
  | _ => false

/-- Pairing of the long-press events in a trace, read from left to right with
the flag "a long press is open": `longPressStart` needs the flag clear and
sets it, `longPressStop` needs it set and clears it, `duringLongPress` needs
it set; other events are skipped. -/
def longPressPaired : Bool → List EventKind → Bool
  | _, [] => true
  | open_, EventKind.longPressStart :: ks => !open_ && longPressPaired true ks
  | open_, EventKind.longPressStop :: ks => open_ && longPressPaired false ks
  | open_, EventKind.duringLongPress :: ks => open_ && longPressPaired open_ ks
  | open_, _ :: ks => longPressPaired open_ ks

/-- The invariant behind the click bound: the click count is between 0 and
`_maxClicks`; it is below `_maxClicks` in Down and Up; in Down the debounced
level is active, in Up the debounced and the raw level are inactive; in Count
the count is at least 1, and when it has reached `_maxClicks` the debounced
level is inactive and a raw active level was first seen on the current tick. -/
def Button.clickInv (b : Button) : Prop :=
  (0 ≤ b._nClicks ∧ b._nClicks ≤ b._maxClicks) ∧
  (b._state = StateMachine.OCS_DOWN → b._nClicks < b._maxClicks ∧ b._debouncedLevel = true) ∧
  (b._state = StateMachine.OCS_UP →
    b._nClicks < b._maxClicks ∧ b._debouncedLevel = false ∧ b._lastDebounceLevel = false) ∧
  (b._state = StateMachine.OCS_COUNT →
    1 ≤ b._nClicks ∧
    (b._nClicks = b._maxClicks →
      b._debouncedLevel = false ∧ (b._lastDebounceLevel = true → b._lastDebounceTime = b._now)))

/-- A button built with debounce time 0: `Button(0, 0, 50, 25)`. -/
def zeroDebounce : Button := Button.ctor 0 0 50 25 ButtonPull.PullUp 0 0 0

/-- Raw input of three presses of two ticks each, two ticks apart, and three
ticks released after the last one. -/
def threePresses : List Bool :=
  [true, true, false, false, true, true, false, false, true, true, false, false, false]

end Btn

/-!
## Timer and elapsed-time classes (libraries/timerLib, libraries/elapsedTime)

`Timer` wraps a free-running hardware down-counter. The counter is outside the
model: every method that reads it takes the value read as the argument `hw`.
An `elapsedMicros`, `elapsedMillis` or `elapsedSeconds` object holds a pointer
to its `Timer`; its methods take the `Timer` pointed to and the counter value
at the time of the call.
-/

namespace Tmr

/-- Modulus of `uint32_t`. -/
def W32 : Nat := 4294967296

/-- Modulus of `uint64_t`. -/
def W64 : Nat := 18446744073709551616

/-- Subtraction `a - b` of `uint32_t`. -/
def sub32 (a b : Nat) : Nat := (a % W32 + (W32 - b % W32)) % W32

/-- Subtraction `a - b` of `uint64_t`. -/
def sub64 (a b : Nat) : Nat := (a % W64 + (W64 - b % W64)) % W64

/-- Addition `a + b` of `uint64_t`. -/
def add64 (a b : Nat) : Nat := (a + b) % W64

/-- Multiplication `a * b` of `uint64_t`. -/
def mul64 (a b : Nat) : Nat := (a * b) % W64

/-- The state of a `Timer` object. -/
structure Timer where
  m_base : Nat
  m_isWide : Bool
  m_sysclkHz : Nat
  m_ticksPerUs : Nat
  m_start32 : Nat
  m_start64 : Nat
deriving DecidableEq, Repr

/-- The constructor `Timer::Timer()`. -/
def Timer.ctor : Timer :=
  { m_base := 0, m_isWide := false, m_sysclkHz := 0, m_ticksPerUs := 0, m_start32 := 0,
    m_start64 := 0 }

/-- The method `Timer::begin`. `wide` is the value of `isWideBase(timerBase)`,
`periphOk` that of `enablePeripheralForBase(timerBase)` (both depend on the
`TIMERx_BASE` constants of `hw_memmap.h` and on the hardware), and `hw` is the
counter value read back after the timer was loaded and enabled. -/
def Timer.begin (t : Timer) (sysclkHz timerBase : Nat) (wide periphOk : Bool) (hw : Nat) :
    Timer × Bool :=
  let t1 := { t with m_base := timerBase, m_isWide := wide, m_sysclkHz := sysclkHz }
  if !periphOk then (t1, false)
  else
    let t2 := { t1 with m_ticksPerUs := ((t1.m_sysclkHz + 500000) % W32) / 1000000 }
    let t3 := if t2.m_ticksPerUs = 0 then { t2 with m_ticksPerUs := 1 } else t2
    if t3.m_isWide then ({ t3 with m_start64 := hw % W64 }, true)
    else ({ t3 with m_start32 := hw % W32 }, true)

/-- The method `Timer::reset`; `hw` is the counter value it reads. -/
def Timer.reset (t : Timer) (hw : Nat) : Timer :=
  if t.m_base = 0 then t
  else if t.m_isWide then { t with m_start64 := hw % W64 }
  else { t with m_start32 := hw % W32 }

/-- The method `Timer::micros`; `hw` is the value of the free-running
down-counter that `TimerValueGet` / `TimerValueGet64` returns. -/
def Timer.micros (t : Timer) (hw : Nat) : Nat :=
  if t.m_base = 0 then 0
  else if t.m_isWide then
    let now := hw % W64
    let dticks := sub64 t.m_start64 now
    if t.m_ticksPerUs ≠ 0 then dticks / t.m_ticksPerUs else 0
  else
    let now := hw % W32
    let dticks := sub32 t.m_start32 now
    if t.m_ticksPerUs ≠ 0 then dticks / t.m_ticksPerUs else 0

/-- The method `Timer::millis`. -/
def Timer.millis (t : Timer) (hw : Nat) : Nat := t.micros hw / 1000

/-- The state of an `elapsedMicros` object. `m_timer` is the pointer to the
backend (`none` is the null pointer); the methods below take the `Timer` it
points to and the counter value at the time of the call. -/
structure elapsedMicros where
  m_timer : Option Nat
  m_usStart : Nat
deriving DecidableEq, Repr

/-- The constructor `elapsedMicros(Timer&)`, for the timer at address `p`. -/
def elapsedMicros.ctor (p : Nat) (timer : Timer) (hw : Nat) : elapsedMicros :=
  { m_timer := some p, m_usStart := timer.micros hw }

/-- The constructor `elapsedMicros(Timer&, uint64_t)`. -/
def elapsedMicros.ctorVal (p : Nat) (timer : Timer) (hw : Nat) (val : Nat) : elapsedMicros :=
  { m_timer := some p, m_usStart := sub64 (timer.micros hw) val }

/-- The conversion `elapsedMicros::operator uint64_t`. -/
def elapsedMicros.toU64 (e : elapsedMicros) (timer : Timer) (hw : Nat) : Nat :=
  if e.m_timer.isSome then sub64 (timer.micros hw) e.m_usStart else 0

/-- The assignment `elapsedMicros::operator=(uint64_t)`. -/
def elapsedMicros.assign (e : elapsedMicros) (timer : Timer) (hw : Nat) (val : Nat) :
    elapsedMicros :=
  if e.m_timer.isSome then { e with m_usStart := sub64 (timer.micros hw) val }
  else { e with m_usStart := 0 }

/-- The state of an `elapsedMillis` object. -/
structure elapsedMillis where
  m_timer : Option Nat
  m_msStart : Nat
deriving DecidableEq, Repr

/-- The constructor `elapsedMillis(Timer&)`. -/
def elapsedMillis.ctor (p : Nat) (timer : Timer) (hw : Nat) : elapsedMillis :=
  { m_timer := some p, m_msStart := timer.millis hw }

/-- The constructor `elapsedMillis(Timer&, uint64_t)`. -/
def elapsedMillis.ctorVal (p : Nat) (timer : Timer) (hw : Nat) (val : Nat) : elapsedMillis :=
  { m_timer := some p, m_msStart := sub64 (timer.millis hw) val }

/-- The conversion `elapsedMillis::operator uint64_t`. -/
def elapsedMillis.toU64 (e : elapsedMillis) (timer : Timer) (hw : Nat) : Nat :=
  if e.m_timer.isSome then sub64 (timer.millis hw) e.m_msStart else 0

/-- The assignment `elapsedMillis::operator=(uint64_t)`. -/
def elapsedMillis.assign (e : elapsedMillis) (timer : Timer) (hw : Nat) (val : Nat) :
    elapsedMillis :=
  if e.m_timer.isSome then { e with m_msStart := sub64 (timer.millis hw) val }
  else { e with m_msStart := 0 }

/-- The state of an `elapsedSeconds` object. -/
structure elapsedSeconds where
  m_timer : Option Nat
  m_msStart : Nat
deriving DecidableEq, Repr

/-- The constant `elapsedSeconds::kMsPerSec`. -/
def kMsPerSec : Nat := 1000

/-- The constructor `elapsedSeconds(Timer&)`. -/
def elapsedSeconds.ctor (p : Nat) (timer : Timer) (hw : Nat) : elapsedSeconds :=
  { m_timer := some p, m_msStart := timer.millis hw }

/-- The constructor `elapsedSeconds(Timer&, uint64_t)`. -/
def elapsedSeconds.ctorVal (p : Nat) (timer : Timer) (hw : Nat) (seconds : Nat) :
    elapsedSeconds :=
  { m_timer := some p, m_msStart := sub64 (timer.millis hw) (mul64 seconds kMsPerSec) }

/-- The conversion `elapsedSeconds::operator uint64_t`. -/
def elapsedSeconds.toU64 (e : elapsedSeconds) (timer : Timer) (hw : Nat) : Nat :=
  if e.m_timer.isSome then sub64 (timer.millis hw) e.m_msStart / kMsPerSec else 0

/-- The assignment `elapsedSeconds::operator=(uint64_t)`. -/
def elapsedSeconds.assign (e : elapsedSeconds) (timer : Timer) (hw : Nat) (seconds : Nat) :
    elapsedSeconds :=
  if e.m_timer.isSome then
    { e with m_msStart := sub64 (timer.millis hw) (mul64 seconds kMsPerSec) }
  else { e with m_msStart := 0 }

/-- A 32-bit timer as `main` sets it up: `begin(120000000, TIMER0_BASE)` with
the counter read back at its load value `0xFFFFFFFF`. -/
def sampleTimer32 : Timer := (Timer.ctor.begin 120000000 1073938432 false true 4294967295).1

end Tmr

/-!
## Joystick (libraries/joystickDriver/joystick.cpp, joystick.h)

`Joystick` derives from `Button`. The `float` members are rationals. `normAxis`
and `quantize8` round the result of every `float` operation to binary32 with
`f32`. The smoothing and the deadzone of `filterAndNormalize` and the
arithmetic of `computePolarAndEvents` are exact: the statements about them are
either read over real arithmetic or hold for every value of the magnitude and
the angle. The library functions
`sqrtf` and `atan2f` are parameters of the methods that call them. ADC register
access is outside the model; `readAdc2` takes the two words a conversion
delivered, and the `pins.h` tables are parameters of `begin`. As for the button,
an emit helper that runs is recorded in an output trace.
-/

namespace Joy
open Btn

/-- Modulus of `uint16_t`. -/
def W16 : Nat := 65536

/-- The enumeration `JoystickDir`. -/
inductive JoystickDir where
  | Center
  | N
  | NE
  | E
  | SE
  | S
  | SW
  | W
  | NW
deriving DecidableEq, Repr

/-- The struct `Joystick::Events`: one `void (*)(Joystick&)` slot per event
(`repeat_` is the member `repeat`). -/
structure Events where
  move : Option Nat
  tiltStart : Option Nat
  tiltStop : Option Nat
  directionChanged : Option Nat
  repeat_ : Option Nat
  center : Option Nat
deriving DecidableEq, Repr

/-- The state of a `Joystick` object: the `Button` base object and the members
of the class. The `float` members are rationals. -/
structure Joystick extends Button where
  _pinX : Nat
  _pinY : Nat
  _portX : Nat
  _portY : Nat
  _baseX : Nat
  _baseY : Nat
  _maskX : Nat
  _maskY : Nat
  _adcCtlX : Nat
  _adcCtlY : Nat
  _adcBase : Nat
  _adcSeq : Nat
  _adcInit : Bool
  _minX : Nat
  _centerX : Nat
  _maxX : Nat
  _minY : Nat
  _centerY : Nat
  _maxY : Nat
  _rawX : Nat
  _rawY : Nat
  _fx : ℚ
  _fy : ℚ
  _nx : ℚ
  _ny : ℚ
  _mag : ℚ
  _angle : ℚ
  _dir : JoystickDir
  _lastDir : JoystickDir
  _invertX : Bool
  _invertY : Bool
  _deadzone : ℚ
  _alpha : ℚ
  _moveEps : ℚ
  _dirMagMinUp : ℚ
  _dirMagMinDown : ℚ
  _repeatMs : Nat
  _tickMs : Nat
  _nowMs : Nat
  _lastRepeatMs : Nat
  _lastNx : ℚ
  _lastNy : ℚ
  _tiltActive : Bool
  _swapXY : Bool
  _onMove : Option Nat
  _onMoveP : Option Nat
  _onMoveParam : Nat
  _onTiltStart : Option Nat
  _onTiltStartP : Option Nat
  _onTiltStartParam : Nat
  _onTiltStop : Option Nat
  _onTiltStopP : Option Nat
  _onTiltStopParam : Nat
  _onDirChanged : Option Nat
  _onDirChangedP : Option Nat
  _onDirChangedParam : Nat
  _onRepeat : Option Nat
  _onRepeatP : Option Nat
  _onRepeatParam : Nat
  _onCenter : Option Nat
  _onCenterP : Option Nat
  _onCenterParam : Nat
  _events : Events

/-- The constructor `Joystick::Joystick`. `portBase`, `bitMask`, `periph` are
the `pins.h` lookups of the `Button` constructor; `notOnAdc` and `adc0Base`
are the constants `NOT_ON_ADC` and `ADC0_BASE`. -/
def Joystick.ctor (pinX pinY pinButton debounceTicks longPressTicks doubleClickTicks : Nat)
    (pull : ButtonPull) (portBase bitMask periph notOnAdc adc0Base : Nat) : Joystick :=
  { toButton := Button.ctor pinButton debounceTicks longPressTicks doubleClickTicks pull
      portBase bitMask periph
    _pinX := pinX
    _pinY := pinY
    _portX := 0
    _portY := 0
    _baseX := 0
    _baseY := 0
    _maskX := 0
    _maskY := 0
    _adcCtlX := notOnAdc
    _adcCtlY := notOnAdc
    _adcBase := adc0Base
    _adcSeq := 0
    _adcInit := false
    _minX := 0
    _centerX := 2048
    _maxX := 4095
    _minY := 0
    _centerY := 2048
    _maxY := 4095
    _rawX := 0
    _rawY := 0
    _fx := 0
    _fy := 0
    _nx := 0
    _ny := 0
    _mag := 0
    _angle := 0
    _dir := JoystickDir.Center
    _lastDir := JoystickDir.Center
    _invertX := false
    _invertY := false
    _deadzone := 10 / 100
    _alpha := 20 / 100
    _moveEps := 2 / 100
    _dirMagMinUp := 30 / 100
    _dirMagMinDown := 22 / 100
    _repeatMs := 150
    _tickMs := 10
    _nowMs := 0
    _lastRepeatMs := 0
    _lastNx := 0
    _lastNy := 0
    _tiltActive := false
    _swapXY := false
    _onMove := none
    _onMoveP := none
    _onMoveParam := 0
    _onTiltStart := none
    _onTiltStartP := none
    _onTiltStartParam := 0
    _onTiltStop := none
    _onTiltStopP := none
    _onTiltStopParam := 0
    _onDirChanged := none
    _onDirChangedP := none
    _onDirChangedParam := 0
    _onRepeat := none
    _onRepeatP := none
    _onRepeatParam := 0
    _onCenter := none
    _onCenterP := none
    _onCenterParam := 0
    _events := ⟨none, none, none, none, none, none⟩ }

/-- The method `Joystick::sanitizeRanges`. -/
def Joystick.sanitizeRanges (j : Joystick) : Joystick :=
  let j1 := if j._minX > j._maxX then { j with _minX := j._maxX, _maxX := j._minX } else j
  let j2 := if j1._minY > j1._maxY then { j1 with _minY := j1._maxY, _maxY := j1._minY } else j1
  let j3 := if ¬ (j2._minX ≤ j2._centerX ∧ j2._centerX ≤ j2._maxX) then
      { j2 with _centerX := ((j2._minX + j2._maxX) / 2) % W16 } else j2
  if ¬ (j3._minY ≤ j3._centerY ∧ j3._centerY ≤ j3._maxY) then
    { j3 with _centerY := ((j3._minY + j3._maxY) / 2) % W16 } else j3

/-- The method `Joystick::setRangeX`. -/
def Joystick.setRangeX (j : Joystick) (min center max : Nat) : Joystick :=
  Joystick.sanitizeRanges { j with _minX := min, _centerX := center, _maxX := max }

/-- The method `Joystick::setRangeY`. -/
def Joystick.setRangeY (j : Joystick) (min center max : Nat) : Joystick :=
  Joystick.sanitizeRanges { j with _minY := min, _centerY := center, _maxY := max }

/-- The method `Joystick::setSwapXY`. -/
def Joystick.setSwapXY (j : Joystick) (en : Bool) : Joystick := { j with _swapXY := en }

/-- The method `Joystick::readAdc2`, after the conversion: `tmp0` and `tmp1` are
the two words the sequencer delivered. The result is the pair `(x, y)`. -/
def Joystick.readAdc2 (j : Joystick) (tmp0 tmp1 : Nat) : Nat × Nat :=
  let a0 := (tmp0 % 4096) % W16
  let a1 := (tmp1 % 4096) % W16
  if j._swapXY then (a1, a0) else (a0, a1)

/-- The accumulation loop of `Joystick::calibrateCenter`: iterations `i`,
`i+1`, ... , `n` more of them, on the 32-bit accumulators `acc`. `adc i` is
the pair of words the sequencer delivers on the read of iteration `i`. -/
def Joystick.calibrateLoop (j : Joystick) (adc : Nat → Nat × Nat) :
    Nat → Nat → Nat × Nat → Nat × Nat
  | 0, _, acc => acc
  | n + 1, i, acc =>
    let r := j.readAdc2 (adc i).1 (adc i).2
    Joystick.calibrateLoop j adc n (i + 1) (addU acc.1 r.1, addU acc.2 r.2)

/-- The method `Joystick::calibrateCenter`. The division by `samples = 0` has
no defined result: `none`. -/
def Joystick.calibrateCenter (j : Joystick) (samples : Nat) (adc : Nat → Nat × Nat) :
    Option Joystick :=
  let acc := j.calibrateLoop adc samples 0 (0, 0)
  if samples = 0 then none
  else some { j with _centerX := (acc.1 / samples) % W16, _centerY := (acc.2 / samples) % W16 }

/-! ### Binary32 rounding

`f32` rounds a rational to the nearest number with a 24-bit significand, ties
to even. It is the rounding of a `float` operation whose exact result is 0 or
lies in the normal range of binary32; overflow, underflow and NaN are not
modelled. The results of `normAxis` are 0 or lie between `2^-16` and `2^16`
in magnitude, and the sums and quotients of `quantize8` that the statements
below evaluate are 0 or lie between `2^-22` and 8. -/

/-- Position of the leading bit of `n`, by halving at most `fuel` times. -/
def log2Aux : Nat → Nat → Nat
  | 0, _ => 0
  | fuel + 1, n => if n < 2 then 0 else log2Aux fuel (n / 2) + 1

/-- Position of the leading bit of `n ≥ 1`: `2 ^ ilog2 n ≤ n < 2 ^ (ilog2 n + 1)`. -/
def ilog2 (n : Nat) : Nat := log2Aux n n

/-- The binary exponent of a rational `q ≠ 0`: `2 ^ expo q ≤ |q| < 2 ^ (expo q + 1)`. -/
def expo (q : ℚ) : Int :=
  let e0 : Int := (ilog2 q.num.natAbs : Int) - (ilog2 q.den : Int)
  if (2 : ℚ) ^ e0 ≤ |q| then e0 else e0 - 1

/-- Rounding to the nearest integer, ties to the even one. -/
def roundEven (m : ℚ) : Int :=
  let f := Int.floor m
  let d := m - f
  if d < 1 / 2 then f else if 1 / 2 < d then f + 1 else if f % 2 = 0 then f else f + 1

/-- Rounding of a rational to the nearest number with a 24-bit significand, ties
to even: the rounding of every `float` (binary32) operation in the default
mode, for results in the normal range. -/
def f32 (q : ℚ) : ℚ :=
  if q = 0 then 0
  else
    let u : ℚ := 2 ^ (expo q - 23)
    (roundEven (q / u) : ℚ) * u

/-- The lambda `normAxis` of `Joystick::filterAndNormalize`. The conversions
`(float)` of the two integers, both below `2^16`, are exact; the quotient is
rounded to binary32. -/
def normAxis (raw minV centerV maxV : Nat) : ℚ :=
  if raw ≥ centerV then
    let span : Nat := if maxV > centerV then (maxV - centerV) % W16 else 1
    let v : ℚ := f32 (((raw - centerV : Nat) : ℚ) / (span : ℚ))
    v
  else
    let span : Nat := if centerV > minV then (centerV - minV) % W16 else 1
    let v : ℚ := f32 (((centerV - raw : Nat) : ℚ) / (span : ℚ))
    (-v)

/-- One handler invocation of the joystick: `fn(*this)` for a slot of `Events`,
`fn()` or `fn(arg)` for the legacy slots. -/
inductive JCall where
  | events (fn : Nat)
  | plain (fn : Nat)
  | param (fn : Nat) (arg : Nat)
deriving DecidableEq, Repr

/-- The six events of the joystick, one per emit helper (`repeat_` is the event
`repeat`). -/
inductive JEvent where
  | move
  | tiltStart
  | tiltStop
  | directionChanged
  | repeat_
  | center
deriving DecidableEq, Repr

/-- One executed emit helper: the event and the handler calls it made. -/
structure JFiring where
  kind : JEvent
  calls : List JCall
deriving DecidableEq, Repr

/-- The channels programmed into steps 0 and 1 of the ADC sample sequence (the
flags `ADC_CTL_IE | ADC_CTL_END` of step 1 aside). -/
structure AdcSequence where
  step0 : Nat
  step1 : Nat
deriving DecidableEq, Repr

/-- The statement `if (f) f();` on a legacy slot. -/
def jcallPlain (f : Option Nat) : List JCall :=
  match f with
  | some fn => [JCall.plain fn]
  | none => []

/-- The statement `if (f) f(arg);` on a legacy slot. -/
def jcallParam (f : Option Nat) (arg : Nat) : List JCall :=
  match f with
  | some fn => [JCall.param fn arg]
  | none => []

/-- The method `Joystick::emitMove`: the handler calls it makes, in order. -/
def Joystick.emitMove (j : Joystick) : List JCall :=
  match j._events.move with
  | some fn => [JCall.events fn]
  | none => jcallPlain j._onMove ++ jcallParam j._onMoveP j._onMoveParam

/-- The method `Joystick::emitTiltStart`. -/
def Joystick.emitTiltStart (j : Joystick) : List JCall :=
  match j._events.tiltStart with
  | some fn => [JCall.events fn]
  | none => jcallPlain j._onTiltStart ++ jcallParam j._onTiltStartP j._onTiltStartParam

/-- The method `Joystick::emitTiltStop`. -/
def Joystick.emitTiltStop (j : Joystick) : List JCall :=
  match j._events.tiltStop with
  | some fn => [JCall.events fn]
  | none => jcallPlain j._onTiltStop ++ jcallParam j._onTiltStopP j._onTiltStopParam

/-- The method `Joystick::emitDirChanged`. -/
def Joystick.emitDirChanged (j : Joystick) : List JCall :=
  match j._events.directionChanged with
  | some fn => [JCall.events fn]
  | none => jcallPlain j._onDirChanged ++ jcallParam j._onDirChangedP j._onDirChangedParam

/-- The method `Joystick::emitRepeat`. -/
def Joystick.emitRepeat (j : Joystick) : List JCall :=
  match j._events.repeat_ with
  | some fn => [JCall.events fn]
  | none => jcallPlain j._onRepeat ++ jcallParam j._onRepeatP j._onRepeatParam

/-- The method `Joystick::emitCenter`. -/
def Joystick.emitCenter (j : Joystick) : List JCall :=
  match j._events.center with
  | some fn => [JCall.events fn]
  | none => jcallPlain j._onCenter ++ jcallParam j._onCenterP j._onCenterParam

/-- The method `Joystick::setEvents`. -/
def Joystick.setEvents (j : Joystick) (e : Events) : Joystick := { j with _events := e }

/-- The method `Joystick::onMove`. -/
def Joystick.onMove (j : Joystick) (fn : Option Nat) : Joystick :=
  { j with _events := { j._events with move := fn } }

/-- The method `Joystick::attachMove(callbackFunction)`. -/
def Joystick.attachMove (j : Joystick) (fn : Option Nat) : Joystick := { j with _onMove := fn }

/-- The method `Joystick::attachMove(parameterizedCallbackFunction, void*)`. -/
def Joystick.attachMoveParam (j : Joystick) (fn : Option Nat) (p : Nat) : Joystick :=
  { j with _onMoveP := fn, _onMoveParam := p }

/-- The static helper `clamp01`. -/
def clamp01 (v : ℚ) : ℚ := if v < 0 then 0 else (if v > 1 then 1 else v)

/-- The static helper `fabsf_fast`. -/
def fabsf_fast (v : ℚ) : ℚ := if v ≥ 0 then v else -v

/-- The method `Joystick::setDeadzone`. -/
def Joystick.setDeadzone (j : Joystick) (dz : ℚ) : Joystick := { j with _deadzone := clamp01 dz }

/-- The method `Joystick::setSmoothingAlpha`. -/
def Joystick.setSmoothingAlpha (j : Joystick) (a : ℚ) : Joystick := { j with _alpha := clamp01 a }

/-- The method `Joystick::setDirectionThreshold`. -/
def Joystick.setDirectionThreshold (j : Joystick) (magMin : ℚ) : Joystick :=
  let j1 := { j with _dirMagMinUp := clamp01 magMin }
  if j1._dirMagMinDown > j1._dirMagMinUp then { j1 with _dirMagMinDown := j1._dirMagMinUp } else j1

/-- The method `Joystick::setDirectionHysteresis`; its second argument is unused. -/
def Joystick.setDirectionHysteresis (j : Joystick) (magBack : ℚ) (_degBack : ℚ) : Joystick :=
  { j with _dirMagMinDown := clamp01 magBack }

/-- The method `Joystick::setRepeatIntervalMs`. -/
def Joystick.setRepeatIntervalMs (j : Joystick) (ms : Nat) : Joystick := { j with _repeatMs := ms }

/-- The method `Joystick::configureAdcSequencer`: the step configuration it
writes to the sequencer. -/
def Joystick.configureAdcSequencer (j : Joystick) : AdcSequence :=
  let step0 := if j._swapXY then j._adcCtlY else j._adcCtlX
  let step1 := if j._swapXY then j._adcCtlX else j._adcCtlY
  { step0 := step0, step1 := step1 }

/-- The method `Joystick::begin`, with the `pins.h` tables as parameters. The
result is the object and the sequencer configuration written. -/
def Joystick.begin (j : Joystick)
    (digital_pin_to_port port_to_base digital_pin_to_bit_mask digital_pin_to_analog_in : Nat → Nat) :
    Joystick × AdcSequence :=
  let j1 := { j with
    _portX := digital_pin_to_port j._pinX
    _baseX := port_to_base (digital_pin_to_port j._pinX)
    _maskX := digital_pin_to_bit_mask j._pinX }
  let j2 := { j1 with
    _portY := digital_pin_to_port j1._pinY
    _baseY := port_to_base (digital_pin_to_port j1._pinY)
    _maskY := digital_pin_to_bit_mask j1._pinY }
  let j3 := { j2 with
    _adcCtlX := digital_pin_to_analog_in j2._pinX
    _adcCtlY := digital_pin_to_analog_in j2._pinY }
  let seq := j3.configureAdcSequencer
  let j4 := { j3 with _adcInit := true }
  ({ j4 with toButton := j4.toButton.begin }, seq)

/-- The method `Joystick::filterAndNormalize`. The per-axis values come from
`normAxis`; the smoothing and the deadzone block are in exact arithmetic.
`sqrtf` is the library function. For `_deadzone = 1` the quotient by
`1 - _deadzone` is infinite or NaN in `float` and 0 here; no statement below
uses that case. -/
def Joystick.filterAndNormalize (j : Joystick) (sqrtf : ℚ → ℚ) : Joystick :=
  let tx := normAxis j._rawX j._minX j._centerX j._maxX
  let ty := normAxis j._rawY j._minY j._centerY j._maxY
  let tx := if j._invertX then -tx else tx
  let ty := if j._invertY then -ty else ty
  let fx := j._alpha * tx + (1 - j._alpha) * j._fx
  let fy := j._alpha * ty + (1 - j._alpha) * j._fy
  let r := sqrtf (fx * fx + fy * fy)
  let n : ℚ × ℚ :=
    if r ≤ j._deadzone then (0, 0)
    else
      let k := (r - j._deadzone) / (1 - j._deadzone)
      let k := if k < 0 then 0 else (if k > 1 then 1 else k)
      let scale := if r > 0 then k / r else 0
      (fx * scale, fy * scale)
  { j with _fx := fx, _fy := fy, _nx := n.1, _ny := n.2 }

/-- The method `Joystick::quantize8` in binary32 arithmetic: the constant, the
two divisions by a power of two, the sum and the quotient are each rounded by
`f32`. `floorf` is exact, and `idx & 7` on the two's-complement `int` is the
residue of `idx` modulo 8. -/
def quantize8 (ang : ℚ) : JoystickDir :=
  let PI : ℚ := f32 3.14159265358979323846
  let step : ℚ := f32 (PI / 4)
  let idx : Int := Int.floor (f32 (f32 (ang + f32 (step / 2)) / step))
  let s : Int := idx % 8
  if s = 0 then JoystickDir.E
  else if s = 1 then JoystickDir.NE
  else if s = 2 then JoystickDir.N
  else if s = 3 then JoystickDir.NW
  else if s = 4 then JoystickDir.W
  else if s = 5 then JoystickDir.SW
  else if s = 6 then JoystickDir.S
  else if s = 7 then JoystickDir.SE
  else JoystickDir.Center

/-- The method `Joystick::computePolarAndEvents`: the new object state and the
emit helpers executed, in order. `sqrtf` and `atan2f` are the library
functions. -/
def Joystick.computePolarAndEvents (j : Joystick) (sqrtf : ℚ → ℚ) (atan2f : ℚ → ℚ → ℚ) :
    Joystick × List JFiring :=
  let j1 := { j with _mag := sqrtf (j._nx * j._nx + j._ny * j._ny), _angle := atan2f j._ny j._nx }
  let newDir : JoystickDir :=
    if j1._mag ≥ j1._dirMagMinUp then quantize8 j1._angle
    else if j1._mag ≤ j1._dirMagMinDown then JoystickDir.Center
    else j1._dir
  let tiltNow : Bool := decide (j1._mag ≥ j1._dirMagMinUp)
  let r2 : Joystick × List JFiring :=
    if tiltNow && !j1._tiltActive then
      ({ j1 with _tiltActive := true }, [⟨JEvent.tiltStart, j1.emitTiltStart⟩])
    else if !tiltNow && j1._tiltActive then
      ({ j1 with _tiltActive := false },
        [⟨JEvent.tiltStop, j1.emitTiltStop⟩, ⟨JEvent.center, j1.emitCenter⟩])
    else (j1, [])
  let j2 := r2.1
  let r3 : Joystick × List JFiring :=
    if newDir ≠ j2._dir then
      ({ j2 with _lastDir := j2._dir, _dir := newDir, _lastRepeatMs := j2._nowMs },
        [⟨JEvent.directionChanged, j2.emitDirChanged⟩])
    else (j2, [])
  let j3 := r3.1
  let r4 : Joystick × List JFiring :=
    if fabsf_fast (j3._nx - j3._lastNx) ≥ j3._moveEps ∨
        fabsf_fast (j3._ny - j3._lastNy) ≥ j3._moveEps then
      ({ j3 with _lastNx := j3._nx, _lastNy := j3._ny }, [⟨JEvent.move, j3.emitMove⟩])
    else (j3, [])
  let j4 := r4.1
  let r5 : Joystick × List JFiring :=
    if j4._dir ≠ JoystickDir.Center ∧ subU j4._nowMs j4._lastRepeatMs ≥ j4._repeatMs then
      ({ j4 with _lastRepeatMs := j4._nowMs }, [⟨JEvent.repeat_, j4.emitRepeat⟩])
    else (j4, [])
  (r5.1, r2.2 ++ r3.2 ++ r4.2 ++ r5.2)

/-- The method `Joystick::tick`. `tmp0`, `tmp1` are the words the sequencer
delivers to `readAdc2` and `levelHigh` is the pin level `Button::tick()` reads.
The result is the object, the joystick emits and the button firings. -/
def Joystick.tick (j : Joystick) (tmp0 tmp1 : Nat) (levelHigh : Bool)
    (sqrtf : ℚ → ℚ) (atan2f : ℚ → ℚ → ℚ) : Joystick × List JFiring × List Firing :=
  let j1 := { j with _nowMs := addU j._nowMs j._tickMs }
  let r : Joystick × List JFiring :=
    if j1._adcInit then
      let xy := j1.readAdc2 tmp0 tmp1
      let j2 := { j1 with _rawX := xy.1, _rawY := xy.2 }
      let j3 := j2.filterAndNormalize sqrtf
      j3.computePolarAndEvents sqrtf atan2f
    else (j1, [])
  let b := r.1.toButton.tickPhysical levelHigh
  ({ r.1 with toButton := b.1 }, r.2, b.2)

/-- The accessor `Joystick::direction8`. -/
def Joystick.direction8 (j : Joystick) : JoystickDir := j._dir

/-- The accessor `Joystick::rawX`. -/
def Joystick.rawX (j : Joystick) : Nat := j._rawX

/-- The accessor `Joystick::rawY`. -/
def Joystick.rawY (j : Joystick) : Nat := j._rawY

/-! ### Definitions used by the proofs

`orderX` to `recenterY` are the four statements of `sanitizeRanges`
(`sanitizeRanges_eq`); `emit`, `structured`, `legacyPlain`, `legacyParam`
index the six emit helpers and their slots by event kind; `normAxisSpec`
follows the words of the specification and `normAxisExact` is the quotient of
`normAxis` before rounding. `radialDeadzone` is the deadzone block of
`filterAndNormalize` over any ordered field (`filterAndNormalize_deadzone`),
`PI_F` and `octantOf` are the rounded constant and the `switch` of `quantize8`
(`quantize8_eq`). `polar` to `repeatStep` are
the statements of `computePolarAndEvents` (`computePolarAndEvents_eq`).
`AdcSequence.dataGet` is the sequencer read-out that feeds `tick`, and
`TickInput`, `tickKinds`, `run` describe a sequence of `tick` calls. The
remaining ones name concrete inputs. -/

/-- First statement of `sanitizeRanges`: order `_minX`, `_maxX`. -/
def Joystick.orderX (j : Joystick) : Joystick :=
  if j._minX > j._maxX then { j with _minX := j._maxX, _maxX := j._minX } else j

/-- Second statement of `sanitizeRanges`: order `_minY`, `_maxY`. -/
def Joystick.orderY (j : Joystick) : Joystick :=
  if j._minY > j._maxY then { j with _minY := j._maxY, _maxY := j._minY } else j

/-- Third statement of `sanitizeRanges`: recentre `_centerX`. -/
def Joystick.recenterX (j : Joystick) : Joystick :=
  if ¬ (j._minX ≤ j._centerX ∧ j._centerX ≤ j._maxX) then
    { j with _centerX := ((j._minX + j._maxX) / 2) % W16 } else j

/-- Fourth statement of `sanitizeRanges`: recentre `_centerY`. -/
def Joystick.recenterY (j : Joystick) : Joystick :=
  if ¬ (j._minY ≤ j._centerY ∧ j._centerY ≤ j._maxY) then
    { j with _centerY := ((j._minY + j._maxY) / 2) % W16 } else j

/-- The emit helper of an event kind. -/
def Joystick.emit (j : Joystick) : JEvent → List JCall
  | JEvent.move => j.emitMove
  | JEvent.tiltStart => j.emitTiltStart
  | JEvent.tiltStop => j.emitTiltStop
  | JEvent.directionChanged => j.emitDirChanged
  | JEvent.repeat_ => j.emitRepeat
  | JEvent.center => j.emitCenter

/-- The slot of `_events` for an event kind. -/
def Joystick.structured (j : Joystick) : JEvent → Option Nat
  | JEvent.move => j._events.move
  | JEvent.tiltStart => j._events.tiltStart
  | JEvent.tiltStop => j._events.tiltStop
  | JEvent.directionChanged => j._events.directionChanged
  | JEvent.repeat_ => j._events.repeat_
  | JEvent.center => j._events.center

/-- The legacy no-argument slot of an event kind. -/
def Joystick.legacyPlain (j : Joystick) : JEvent → Option Nat
  | JEvent.move => j._onMove
  | JEvent.tiltStart => j._onTiltStart
  | JEvent.tiltStop => j._onTiltStop
  | JEvent.directionChanged => j._onDirChanged
  | JEvent.repeat_ => j._onRepeat
  | JEvent.center => j._onCenter

/-- The legacy context-argument slot of an event kind, with its argument. -/
def Joystick.legacyParam (j : Joystick) : JEvent → Option Nat × Nat
  | JEvent.move => (j._onMoveP, j._onMoveParam)
  | JEvent.tiltStart => (j._onTiltStartP, j._onTiltStartParam)
  | JEvent.tiltStop => (j._onTiltStopP, j._onTiltStopParam)
  | JEvent.directionChanged => (j._onDirChangedP, j._onDirChangedParam)
  | JEvent.repeat_ => (j._onRepeatP, j._onRepeatParam)
  | JEvent.center => (j._onCenterP, j._onCenterParam)

/-- Whether a call goes to a legacy handler. -/
def JCall.isLegacy : JCall → Bool
  | JCall.events _ => false
  | _ => true

/-- The calibration invariant of both axes. -/
def Joystick.calibrated (j : Joystick) : Prop :=
  (j._minX ≤ j._centerX ∧ j._centerX ≤ j._maxX) ∧ (j._minY ≤ j._centerY ∧ j._centerY ≤ j._maxY)

instance (j : Joystick) : Decidable j.calibrated := by
  unfold Joystick.calibrated
  infer_instance

/-- Modelled on the spec's words, for comparison with `normAxis`: scale by
`(raw-center)/(max-center)` if `raw ≥ center`, else by
`-(center-raw)/(center-min)`, a span that is not positive being replaced by 1. -/
def normAxisSpec (raw minV centerV maxV : ℚ) : ℚ :=
  if raw ≥ centerV then (raw - centerV) / (if maxV - centerV > 0 then maxV - centerV else 1)
  else -((centerV - raw) / (if centerV - minV > 0 then centerV - minV else 1))

/-- The radial deadzone block of `filterAndNormalize` over an ordered field:
`r` is the value `sqrtf` returned for the filtered vector `(fx, fy)`. -/
def radialDeadzone {α : Type*} [LinearOrderedField α] (fx fy deadzone r : α) : α × α :=
  if r ≤ deadzone then (0, 0)
  else
    let k := (r - deadzone) / (1 - deadzone)
    let k := if k < 0 then 0 else (if k > 1 then 1 else k)
    let scale := if r > 0 then k / r else 0
    (fx * scale, fy * scale)

/-- The `switch` of `quantize8` on the wrapped index. -/
def octantOf (s : Int) : JoystickDir :=
  if s = 0 then JoystickDir.E
  else if s = 1 then JoystickDir.NE
  else if s = 2 then JoystickDir.N
  else if s = 3 then JoystickDir.NW
  else if s = 4 then JoystickDir.W
  else if s = 5 then JoystickDir.SW
  else if s = 6 then JoystickDir.S
  else if s = 7 then JoystickDir.SE
  else JoystickDir.Center

/-- The constant `PI` of `quantize8` as a `float`: the binary32 number nearest
to the literal, `13176795 / 2^22`. -/
def PI_F : ℚ := 13176795 / 4194304

/-- The eight directions counter-clockwise from east. -/
def octants : List JoystickDir :=
  [JoystickDir.E, JoystickDir.NE, JoystickDir.N, JoystickDir.NW, JoystickDir.W, JoystickDir.SW,
   JoystickDir.S, JoystickDir.SE]

/-- First statements of `computePolarAndEvents`: the polar values. -/
def Joystick.polar (j : Joystick) (sqrtf : ℚ → ℚ) (atan2f : ℚ → ℚ → ℚ) : Joystick :=
  { j with _mag := sqrtf (j._nx * j._nx + j._ny * j._ny), _angle := atan2f j._ny j._nx }

/-- The local `newDir` of `computePolarAndEvents`, from the state with the polar values. -/
def Joystick.newDir (j : Joystick) : JoystickDir :=
  if j._mag ≥ j._dirMagMinUp then quantize8 j._angle
  else if j._mag ≤ j._dirMagMinDown then JoystickDir.Center
  else j._dir

/-- The local `tiltNow` of `computePolarAndEvents`. -/
def Joystick.tiltNow (j : Joystick) : Bool := decide (j._mag ≥ j._dirMagMinUp)

/-- The tilt start/stop statement of `computePolarAndEvents`. -/
def Joystick.tiltStep (j : Joystick) : Joystick × List JFiring :=
  if j.tiltNow && !j._tiltActive then
    ({ j with _tiltActive := true }, [⟨JEvent.tiltStart, j.emitTiltStart⟩])
  else if !j.tiltNow && j._tiltActive then
    ({ j with _tiltActive := false },
      [⟨JEvent.tiltStop, j.emitTiltStop⟩, ⟨JEvent.center, j.emitCenter⟩])
  else (j, [])

/-- The direction-change statement of `computePolarAndEvents`. -/
def Joystick.dirStep (j : Joystick) (newDir : JoystickDir) : Joystick × List JFiring :=
  if newDir ≠ j._dir then
    ({ j with _lastDir := j._dir, _dir := newDir, _lastRepeatMs := j._nowMs },
      [⟨JEvent.directionChanged, j.emitDirChanged⟩])
  else (j, [])

/-- The move statement of `computePolarAndEvents`. -/
def Joystick.moveStep (j : Joystick) : Joystick × List JFiring :=
  if fabsf_fast (j._nx - j._lastNx) ≥ j._moveEps ∨
      fabsf_fast (j._ny - j._lastNy) ≥ j._moveEps then
    ({ j with _lastNx := j._nx, _lastNy := j._ny }, [⟨JEvent.move, j.emitMove⟩])
  else (j, [])

/-- The repeat statement of `computePolarAndEvents`. -/
def Joystick.repeatStep (j : Joystick) : Joystick × List JFiring :=
  if j._dir ≠ JoystickDir.Center ∧ subU j._nowMs j._lastRepeatMs ≥ j._repeatMs then
    ({ j with _lastRepeatMs := j._nowMs }, [⟨JEvent.repeat_, j.emitRepeat⟩])
  else (j, [])

/-- The kinds of the emits of one `computePolarAndEvents` call, in order. -/
def Joystick.eventKinds (j : Joystick) (sqrtf : ℚ → ℚ) (atan2f : ℚ → ℚ → ℚ) : List JEvent :=
  (j.computePolarAndEvents sqrtf atan2f).2.map JFiring.kind

/-- The object on entry to `computePolarAndEvents` inside `tick`, for a joystick
whose ADC is initialised: time advanced, raw pair read, filter applied. -/
def Joystick.sampled (j : Joystick) (tmp0 tmp1 : Nat) (sqrtf : ℚ → ℚ) : Joystick :=
  Joystick.filterAndNormalize
    { j with
      _nowMs := addU j._nowMs j._tickMs
      _rawX := ({ j with _nowMs := addU j._nowMs j._tickMs }.readAdc2 tmp0 tmp1).1
      _rawY := ({ j with _nowMs := addU j._nowMs j._tickMs }.readAdc2 tmp0 tmp1).2 } sqrtf

/-- The x sample that iteration `i` of the calibration loop gets from `readAdc2`. -/
def Joystick.sampleX (j : Joystick) (adc : Nat → Nat × Nat) (i : Nat) : Nat :=
  (j.readAdc2 (adc i).1 (adc i).2).1

/-- The y sample that iteration `i` of the calibration loop gets from `readAdc2`. -/
def Joystick.sampleY (j : Joystick) (adc : Nat → Nat × Nat) (i : Nat) : Nat :=
  (j.readAdc2 (adc i).1 (adc i).2).2

/-- A joystick as constructed with the header defaults. -/
def sampleStick : Joystick := Joystick.ctor 1 2 3 3 50 25 ButtonPull.PullUp 0 0 0 0 0

/-- Values of `sqrtf` at 0, 1/16 and 1. -/
def sqrtfTable (s : ℚ) : ℚ := if s = 1 then 1 else if s = 1 / 16 then 1 / 4 else 0

/-- Values of `atan2f` on the non-negative x axis: `atan2f(0, x) = 0`. -/
def atan2fTable (_y _x : ℚ) : ℚ := 0

/-- The default joystick after `setRangeX(0, 2000, 4000)`, `setSmoothingAlpha(1)`,
`setDeadzone(0)` and `begin()`: the normalized x value is `(raw - 2000) / 2000`
without smoothing or deadzone. -/
def directStick : Joystick :=
  ((((sampleStick.setRangeX 0 2000 4000).setSmoothingAlpha 1).setDeadzone 0).begin
    (fun _ => 0) (fun _ => 0) (fun _ => 0) (fun _ => 0)).1

/-- The joystick `directStick` after one tick with the stick fully east (raw pair
4000, 2048). -/
def tiltedEast : Joystick := (directStick.tick 4000 2048 true sqrtfTable atan2fTable).1

/-- The peripheral behind `ADCSequenceDataGet`: the sequencer converts the
channel of each step in step order and delivers the results in that order.
`sample ch` is the conversion result of channel `ch`. -/
def AdcSequence.dataGet (seq : AdcSequence) (sample : Nat → Nat) : Nat × Nat :=
  (sample seq.step0, sample seq.step1)

/-- The words and the pin level that one `Joystick::tick` call receives. -/
structure TickInput where
  tmp0 : Nat
  tmp1 : Nat
  levelHigh : Bool
deriving DecidableEq, Repr

/-- The kinds of the joystick emits of one `tick` call, in order. -/
def Joystick.tickKinds (j : Joystick) (sqrtf : ℚ → ℚ) (atan2f : ℚ → ℚ → ℚ) (i : TickInput) :
    List JEvent :=
  (j.tick i.tmp0 i.tmp1 i.levelHigh sqrtf atan2f).2.1.map JFiring.kind

/-- A sequence of `tick` calls: the final object and the kinds of all joystick
emits, in order. -/
def Joystick.run (j : Joystick) (sqrtf : ℚ → ℚ) (atan2f : ℚ → ℚ → ℚ) :
    List TickInput → Joystick × List JEvent
  | [] => (j, [])
  | i :: is =>
    let r := j.tick i.tmp0 i.tmp1 i.levelHigh sqrtf atan2f
    let s := Joystick.run r.1 sqrtf atan2f is
    (s.1, j.tickKinds sqrtf atan2f i ++ s.2)

/-- The software time since the repeat timer was last restarted. -/
def Joystick.repeatAge (j : Joystick) : Nat := subU j._nowMs j._lastRepeatMs

/-- The joystick `tiltedEast` with `setRepeatIntervalMs(20)`, after one more tick
with the stick fully east: direction E, 10 ms after the last restart of the
repeat timer, tick interval 10 ms. -/
def heldEast : Joystick :=
  ((tiltedEast.setRepeatIntervalMs 20).tick 4000 2048 true sqrtfTable atan2fTable).1

/-- The tick input of a stick held fully east, button released. -/
def eastInput : TickInput := ⟨4000, 2048, true⟩

/-- The quotient that `normAxis` computes, before it is rounded to binary32. -/
def normAxisExact (raw minV centerV maxV : Nat) : ℚ :=
  if raw ≥ centerV then
    let span : Nat := if maxV > centerV then (maxV - centerV) % W16 else 1
    ((raw - centerV : Nat) : ℚ) / (span : ℚ)
  else
    let span : Nat := if centerV > minV then (centerV - minV) % W16 else 1
    (-(((centerV - raw : Nat) : ℚ) / (span : ℚ)))

/-- Values of `sqrtf` at 121/400 and 1/100. -/
def sqrtfScenario (s : ℚ) : ℚ := if s = 121 / 400 then 11 / 20 else if s = 1 / 100 then 1 / 10 else 0

/-- A joystick with deadzone 0.1 and smoothing factor 0 whose filtered vector is
`(0.33, 0.44)`, of magnitude 0.55. -/
def scenarioStick : Joystick :=
  { (sampleStick.setDeadzone (1 / 10)).setSmoothingAlpha 0 with _fx := 33 / 100, _fy := 11 / 25 }

/-- The joystick `scenarioStick` with the filtered vector `(0.06, 0.08)`, of
magnitude 0.1. -/
def scenarioStickRim : Joystick := { scenarioStick with _fx := 3 / 50, _fy := 2 / 25 }

end Joy

/-! ## Theorems -/

set_option maxRecDepth 100000

namespace Btn

/-! ### Structure of one tick -/

theorem debounce_eq (b : Button) (v : Bool) :
    b.debounce v =
      ({ b with
         _now := addU b._now b._tickIntervalMs
         _debouncedLevel := debLevel b v
         _lastDebounceTime := debTime b v
         _lastDebounceLevel := v }, debLevel b v) := by
  cases b
  simp only [debLevel, debTime, Button.debounce]
  split_ifs <;> simp_all

theorem debLevel_congr (b c : Button) (v : Bool)
    (h1 : c._now = b._now) (h2 : c._tickIntervalMs = b._tickIntervalMs)
    (h3 : c._debounceMs = b._debounceMs) (h4 : c._debouncedLevel = b._debouncedLevel)
    (h5 : c._lastDebounceLevel = b._lastDebounceLevel)
    (h6 : c._lastDebounceTime = b._lastDebounceTime) : debLevel c v = debLevel b v := by
  cases b; cases c
  simp only at h1 h2 h3 h4 h5 h6
  subst h1 h2 h3 h4 h5 h6
  simp only [debLevel, Button.debounce]
  split_ifs <;> simp_all

theorem stage_eq (b : Button) (x : Bool) :
    stage b x =
      { b with
        _initialized := true
        _currentPhysicalLevel := x
        _wasPressedFlag := b._wasPressedFlag || (!b._currentPhysicalLevel && x)
        _wasReleasedFlag := b._wasReleasedFlag || (b._currentPhysicalLevel && !x) } := by
  cases b
  rename_i wp wr cp _ _ _ _ _ ini _ _ _ _ _ _ _ _ _ _ _ _ _ _ _ _ _ _ _ _ _ _ _ _ _ _ _ _ _ _ _ _ _ _ _ _ _ _ _ _ _
  cases ini <;> cases cp <;> cases x <;> cases wp <;> cases wr <;> rfl

theorem tick_eq (b : Button) (x : Bool) : b.tick x = (prep b x).fsm (debLevel b x) := by
  have h : b.tick x = ((stage b x).debounce x).1.fsm ((stage b x).debounce x).2 := rfl
  have h2 : debLevel (stage b x) x = debLevel b x := by
    apply debLevel_congr <;> rw [stage_eq]
  rw [h, debounce_eq, h2, stage_eq]
  cases b
  rfl

/-- What `debounce` does to the debounced level: it keeps it, or sets it to the
input, the latter only on the undebounced active edge of a negative setting or
after the input was stable for the debounce time. -/
theorem debLevel_cases (b : Button) (v : Bool) :
    debLevel b v = b._debouncedLevel ∨
    (debLevel b v = v ∧
      ((v = true ∧ b._debounceMs < 0) ∨
       (b._lastDebounceLevel = v ∧
         debAbs b ≤ subU (addU b._now b._tickIntervalMs) b._lastDebounceTime))) := by
  simp only [debLevel, debAbs, Button.debounce]
  split_ifs <;> simp_all

theorem debLevel_active_neg (b : Button) (h : b._debounceMs < 0) : debLevel b true = true := by
  simp only [debLevel, Button.debounce]
  split_ifs <;> simp_all

/-- The fields `fsm` never writes. -/
theorem fsm_frame (b : Button) (a : Bool) :
    (b.fsm a).1._now = b._now ∧ (b.fsm a).1._debounceMs = b._debounceMs ∧
    (b.fsm a).1._tickIntervalMs = b._tickIntervalMs ∧
    (b.fsm a).1._debouncedLevel = b._debouncedLevel ∧
    (b.fsm a).1._lastDebounceLevel = b._lastDebounceLevel ∧
    (b.fsm a).1._lastDebounceTime = b._lastDebounceTime := by
  unfold Button.fsm
  cases b._state <;> simp only [Button.newState, Button.reset] <;> (repeat' split) <;> simp

theorem tick_now (b : Button) (x : Bool) :
    (b.tick x).1._now = addU b._now b._tickIntervalMs := by
  rw [tick_eq, (fsm_frame _ _).1]; rfl

theorem tick_debounceMs (b : Button) (x : Bool) : (b.tick x).1._debounceMs = b._debounceMs := by
  rw [tick_eq, (fsm_frame _ _).2.1]; rfl

theorem tick_tickIntervalMs (b : Button) (x : Bool) :
    (b.tick x).1._tickIntervalMs = b._tickIntervalMs := by
  rw [tick_eq, (fsm_frame _ _).2.2.1]; rfl

theorem tick_debouncedLevel (b : Button) (x : Bool) :
    (b.tick x).1._debouncedLevel = debLevel b x := by
  rw [tick_eq, (fsm_frame _ _).2.2.2.1]; rfl

theorem tick_lastDebounceLevel (b : Button) (x : Bool) :
    (b.tick x).1._lastDebounceLevel = x := by
  rw [tick_eq, (fsm_frame _ _).2.2.2.2.1]; rfl

theorem tick_lastDebounceTime (b : Button) (x : Bool) :
    (b.tick x).1._lastDebounceTime = debTime b x := by
  rw [tick_eq, (fsm_frame _ _).2.2.2.2.2]; rfl

theorem run_nil (b : Button) : b.run [] = (b, []) := rfl

theorem run_cons (b : Button) (x : Bool) (xs : List Bool) :
    b.run (x :: xs) = (((b.tick x).1.run xs).1, (b.tick x).2 ++ ((b.tick x).1.run xs).2) := rfl

theorem run_append (b : Button) (xs ys : List Bool) :
    b.run (xs ++ ys) = (((b.run xs).1.run ys).1, (b.run xs).2 ++ ((b.run xs).1.run ys).2) := by
  induction xs generalizing b with
  | nil => simp [run_nil]
  | cons x xs ih => simp [run_cons, ih, List.append_assoc]

theorem run_snoc_fst (b : Button) (xs : List Bool) (x : Bool) :
    (b.run (xs ++ [x])).1 = ((b.run xs).1.tick x).1 := by
  rw [run_append]; rfl

theorem run_debounceMs (b : Button) (xs : List Bool) : (b.run xs).1._debounceMs = b._debounceMs := by
  induction xs generalizing b with
  | nil => rfl
  | cons x xs ih => rw [run_cons]; simp only; rw [ih, tick_debounceMs]

theorem run_tickIntervalMs (b : Button) (xs : List Bool) :
    (b.run xs).1._tickIntervalMs = b._tickIntervalMs := by
  induction xs generalizing b with
  | nil => rfl
  | cons x xs ih => rw [run_cons]; simp only; rw [ih, tick_tickIntervalMs]

theorem levels_cons (b : Button) (x : Bool) (xs : List Bool) :
    b.levels (x :: xs) = debLevel b x :: (b.tick x).1.levels xs := by
  simp only [Button.levels, tick_debouncedLevel]

theorem levels_length (b : Button) (xs : List Bool) : (b.levels xs).length = xs.length := by
  induction xs generalizing b with
  | nil => rfl
  | cons x xs ih => simp [Button.levels, ih]

theorem levels_append (b : Button) (xs ys : List Bool) :
    b.levels (xs ++ ys) = b.levels xs ++ (b.run xs).1.levels ys := by
  induction xs generalizing b with
  | nil => rfl
  | cons x xs ih => simp [Button.levels, run_cons, ih]

/-! ### The debounce filter (C1, C2) -/

/-- Invariant of the debounce filter along a run from its constructed state:
either every input so far was inactive and the level is still inactive, or the
inputs end in a run of `k+1` copies of the last raw level and the timer shows
`k` tick intervals. -/
theorem debounce_invariant (b0 : Button) (pre : List Bool)
    (hlev : b0._debouncedLevel = false) (hlast : b0._lastDebounceLevel = false) :
    ((b0.run pre).1._debouncedLevel = false ∧ (b0.run pre).1._lastDebounceLevel = false ∧
        pre = List.replicate pre.length false) ∨
    (∃ front k, pre = front ++ List.replicate (k + 1) (b0.run pre).1._lastDebounceLevel ∧
        subU (b0.run pre).1._now (b0.run pre).1._lastDebounceTime
          = (k * b0._tickIntervalMs) % WORD) := by
  induction pre using List.reverseRecOn with
  | nil => left; exact ⟨hlev, hlast, rfl⟩
  | append_singleton pre x ih =>
    rw [run_snoc_fst]
    generalize hb : (b0.run pre).1 = b at ih
    have ht : b._tickIntervalMs = b0._tickIntervalMs := by rw [← hb, run_tickIntervalMs]
    rw [tick_lastDebounceLevel, tick_debouncedLevel, tick_now, tick_lastDebounceTime]
    by_cases hx : b._lastDebounceLevel = x
    · rcases ih with ⟨h1, h2, h3⟩ | ⟨front, k, h3, h4⟩
      · left
        have hxf : x = false := by rw [← hx, h2]
        subst hxf
        refine ⟨?_, rfl, ?_⟩
        · rcases debLevel_cases b false with h | ⟨h, _⟩
          · rw [h, h1]
          · exact h
        · rw [List.length_append, List.length_singleton, List.replicate_succ', ← h3]
      · right
        refine ⟨front, k + 1, ?_, ?_⟩
        · rw [hx] at h3
          rw [List.replicate_succ' (k+1), ← List.append_assoc, ← h3]
        · simp only [debTime, hx, if_true]
          rw [ht]
          simp only [subU, addU, WORD] at h4 ⊢
          have : (k + 1) * b0._tickIntervalMs = k * b0._tickIntervalMs + b0._tickIntervalMs := by ring
          rw [this]
          omega
    · right
      refine ⟨pre, 0, by simp, ?_⟩
      simp only [debTime, hx, if_false]
      simp only [subU, addU, WORD]
      omega

/-- A change of the debounced level through the stable branch needs a long enough stable input. -/
theorem stable_span (b0 : Button) (pre : List Bool) (x : Bool)
    (hlev : b0._debouncedLevel = false) (hlast : b0._lastDebounceLevel = false)
    (h1 : (b0.run pre).1._lastDebounceLevel = x)
    (h2 : (b0.run pre).1._debouncedLevel ≠ x)
    (h3 : debAbs b0 ≤ subU (addU (b0.run pre).1._now b0._tickIntervalMs)
        (b0.run pre).1._lastDebounceTime) :
    ∃ front k, pre = front ++ List.replicate k x ∧ debAbs b0 ≤ k * b0._tickIntervalMs := by
  rcases debounce_invariant b0 pre hlev hlast with ⟨h4, h5, _⟩ | ⟨front, k, h4, h5⟩
  · exfalso; apply h2; rw [h4, ← h1, h5]
  · rw [h1] at h4
    refine ⟨front, k + 1, h4, ?_⟩
    have : (k + 1) * b0._tickIntervalMs = k * b0._tickIntervalMs + b0._tickIntervalMs := by ring
    rw [this]
    simp only [subU, addU, WORD] at h3 h5
    omega

theorem debAbs_run (b0 : Button) (pre : List Bool) : debAbs (b0.run pre).1 = debAbs b0 := by
  simp only [debAbs, run_debounceMs]

/-- Claim C1. Debounce with a non-negative `_debounceMs` (an `int`), along any
run of `tick(bool)` calls from the debounce state the constructor leaves
(debounced level and last raw level inactive). If the debounced level changes
on a tick with input `x`, then it changes to `x`, and the inputs before that
tick end in `k` copies of `x` where the `k` tick increments add up to at least
`_debounceMs`: the raw input was `x` on every tick of a span of software time
of at least the debounce time ending at the tick. The debounced level does not
change on a tick whose input differs from the previous tick's input. -/
theorem debounce_nonneg_requires_stable_input (b0 : Button) (pre : List Bool) (x : Bool)
    (hlev : b0._debouncedLevel = false) (hlast : b0._lastDebounceLevel = false)
    (hd0 : 0 ≤ b0._debounceMs) (hd1 : b0._debounceMs < 2147483648) :
    (((b0.run pre).1.tick x).1._debouncedLevel ≠ (b0.run pre).1._debouncedLevel →
      ((b0.run pre).1.tick x).1._debouncedLevel = x ∧
      ∃ front k, pre = front ++ List.replicate k x ∧
        b0._debounceMs ≤ ((k * b0._tickIntervalMs : Nat) : Int)) ∧
    (∀ front y, pre = front ++ [y] → y ≠ x →
      ((b0.run pre).1.tick x).1._debouncedLevel = (b0.run pre).1._debouncedLevel) := by
  have hdb : (b0.run pre).1._debounceMs = b0._debounceMs := run_debounceMs b0 pre
  have hti : (b0.run pre).1._tickIntervalMs = b0._tickIntervalMs := run_tickIntervalMs b0 pre
  have habs : ((debAbs b0 : Nat) : Int) = b0._debounceMs := by
    simp only [debAbs, toU32]
    rw [if_neg (by omega)]
    omega
  rw [tick_debouncedLevel]
  constructor
  · intro hch
    rcases debLevel_cases (b0.run pre).1 x with h | ⟨h, ⟨_, hneg⟩ | ⟨hl, hs⟩⟩
    · exact absurd h hch
    · rw [hdb] at hneg; omega
    · refine ⟨h, ?_⟩
      rw [debAbs_run, hti] at hs
      obtain ⟨front, k, hk1, hk2⟩ := stable_span b0 pre x hlev hlast hl (by rw [← h]; exact Ne.symm hch) hs
      exact ⟨front, k, hk1, by rw [← habs]; exact_mod_cast hk2⟩
  · intro front y hpre hyx
    rcases debLevel_cases (b0.run pre).1 x with h | ⟨_, ⟨_, hneg⟩ | ⟨hl, _⟩⟩
    · exact h
    · rw [hdb] at hneg; omega
    · exfalso
      rw [hpre, run_snoc_fst, tick_lastDebounceLevel] at hl
      exact hyx hl

/-- Claim C1, at a concrete run: the default button, raw input active on four
ticks. The debounced level changes on the fourth, after three tick intervals
(60 ms) of stable input. -/
theorem debounce_nonneg_requires_stable_input_witness :
    (sample._debouncedLevel = false ∧ sample._lastDebounceLevel = false ∧
      0 ≤ sample._debounceMs ∧ sample._debounceMs < 2147483648) ∧
    ((sample.run [true, true, true]).1.tick true).1._debouncedLevel ≠
      (sample.run [true, true, true]).1._debouncedLevel ∧
    (((sample.run [true, true, true]).1.tick true).1._debouncedLevel = true ∧
      ∃ front k, [true, true, true] = front ++ List.replicate k true ∧
        sample._debounceMs ≤ ((k * sample._tickIntervalMs : Nat) : Int)) :=
  ⟨by decide, by decide,
    (debounce_nonneg_requires_stable_input sample [true, true, true] true
      (by decide) (by decide) (by decide) (by decide)).1 (by decide)⟩

/-- Claim C2. Debounce with a negative `_debounceMs` (an `int`), along any run
of `tick(bool)` calls from the constructor's debounce state. On every tick
whose input is active the debounced level is active at the end of that tick.
If the debounced level goes from active to inactive on a tick, the input of
that tick is inactive and the inputs before it end in `k` inactive ticks whose
`k` tick increments add up to at least `-_debounceMs`. -/
theorem debounce_negative_asymmetry (b0 : Button) (pre : List Bool) (x : Bool)
    (hlev : b0._debouncedLevel = false) (hlast : b0._lastDebounceLevel = false)
    (hd0 : b0._debounceMs < 0) (hd1 : -2147483648 ≤ b0._debounceMs) :
    (x = true → ((b0.run pre).1.tick x).1._debouncedLevel = true) ∧
    ((b0.run pre).1._debouncedLevel = true →
      ((b0.run pre).1.tick x).1._debouncedLevel = false →
      x = false ∧ ∃ front k, pre = front ++ List.replicate k false ∧
        - b0._debounceMs ≤ ((k * b0._tickIntervalMs : Nat) : Int)) := by
  have hdb : (b0.run pre).1._debounceMs = b0._debounceMs := run_debounceMs b0 pre
  have hti : (b0.run pre).1._tickIntervalMs = b0._tickIntervalMs := run_tickIntervalMs b0 pre
  have habs : ((debAbs b0 : Nat) : Int) = - b0._debounceMs := by
    simp only [debAbs, toU32]
    rw [if_pos hd0]
    omega
  rw [tick_debouncedLevel]
  constructor
  · intro hx; subst hx
    exact debLevel_active_neg _ (by rw [hdb]; exact hd0)
  · intro hold hnew
    rcases debLevel_cases (b0.run pre).1 x with h | ⟨h, ⟨hx, _⟩ | ⟨hl, hs⟩⟩
    · rw [hnew, hold] at h; exact absurd h (by decide)
    · rw [hnew, hx] at h; exact absurd h (by decide)
    · have hx : x = false := by rw [← h, hnew]
      subst hx
      refine ⟨rfl, ?_⟩
      rw [debAbs_run, hti] at hs
      obtain ⟨front, k, hk1, hk2⟩ := stable_span b0 pre false hlev hlast hl (by rw [hold]; decide) hs
      exact ⟨front, k, hk1, by rw [← habs]; exact_mod_cast hk2⟩

/-- Claim C2, at a concrete run: the default button with `setDebounceMs(-60)`,
one active tick and four inactive ones. The level is active right after the
first tick and goes inactive on the fifth, after 60 ms of inactive input. -/
theorem debounce_negative_asymmetry_witness :
    ((sample.setDebounceMs (-60))._debounceMs < 0 ∧
      -2147483648 ≤ (sample.setDebounceMs (-60))._debounceMs) ∧
    ((sample.setDebounceMs (-60)).tick true).1._debouncedLevel = true ∧
    ((sample.setDebounceMs (-60)).run [true, false, false, false]).1._debouncedLevel = true ∧
    (((sample.setDebounceMs (-60)).run [true, false, false, false]).1.tick false).1._debouncedLevel
      = false ∧
    (false = false ∧ ∃ front k, [true, false, false, false] = front ++ List.replicate k false ∧
      - (sample.setDebounceMs (-60))._debounceMs
        ≤ ((k * (sample.setDebounceMs (-60))._tickIntervalMs : Nat) : Int)) :=
  ⟨by decide, by decide, by decide, by decide,
    (debounce_negative_asymmetry (sample.setDebounceMs (-60)) [true, false, false, false] false
      (by decide) (by decide) (by decide) (by decide)).2 (by decide) (by decide)⟩

/-! ### The interaction machine as a projection -/

theorem prep_fire (b : Button) (x : Bool) : (prep b x).fire = b.fire := by
  funext k; cases k <;> rfl

/-- One `tick(bool)` acts on the projection as `Core.step` on the debounced
level, and its firings are the sites of the kinds that `Core.step` lists. -/
theorem tick_core (b : Button) (x : Bool) :
    (b.tick x).1.core = (b.core.step (debLevel b x)).1 ∧
    (b.tick x).2 = (b.core.step (debLevel b x)).2.map b.fire := by
  rw [tick_eq]
  generalize debLevel b x = l
  have hst : (prep b x)._state = b._state := rfl
  cases hs : b._state <;> rw [hs] at hst <;> cases l <;>
    simp only [Button.fsm, hst, prep_fire, Core.step, Button.core, hs, Button.newState,
      Button.reset] <;>
    simp only [prep] <;>
    (try split_ifs) <;> simp_all

theorem fsm_fire (b : Button) (a : Bool) : (b.fsm a).1.fire = b.fire := by
  funext k
  unfold Button.fsm
  cases b._state <;> simp only [Button.newState, Button.reset] <;> (repeat' split) <;>
    cases k <;> rfl

theorem tick_fire (b : Button) (x : Bool) : (b.tick x).1.fire = b.fire := by
  rw [tick_eq, fsm_fire, prep_fire]

theorem core_run_nil (c : Core) : c.run [] = (c, []) := rfl

theorem core_run_cons (c : Core) (l : Bool) (ls : List Bool) :
    c.run (l :: ls) = (((c.step l).1.run ls).1, (c.step l).2 ++ ((c.step l).1.run ls).2) := rfl

theorem core_run_append (c : Core) (xs ys : List Bool) :
    c.run (xs ++ ys) = (((c.run xs).1.run ys).1, (c.run xs).2 ++ ((c.run xs).1.run ys).2) := by
  induction xs generalizing c with
  | nil => simp [core_run_nil]
  | cons x xs ih => simp [core_run_cons, ih, List.append_assoc]

/-- A run of `tick(bool)` calls acts on the projection as `Core.run` on the
debounced levels of the run. -/
theorem run_core (b : Button) (xs : List Bool) :
    (b.run xs).1.core = (b.core.run (b.levels xs)).1 ∧
    (b.run xs).2 = (b.core.run (b.levels xs)).2.map b.fire := by
  induction xs generalizing b with
  | nil => exact ⟨rfl, rfl⟩
  | cons x xs ih =>
    obtain ⟨h1, h2⟩ := tick_core b x
    obtain ⟨h3, h4⟩ := ih (b.tick x).1
    rw [levels_cons, run_cons, core_run_cons]
    simp only
    rw [← h1]
    refine ⟨h3, ?_⟩
    rw [h2, h4, tick_fire, List.map_append]

theorem run_kinds (b : Button) (xs : List Bool) :
    (b.run xs).2.map Firing.kind = (b.core.run (b.levels xs)).2 := by
  rw [(run_core b xs).2, List.map_map]
  have : Firing.kind ∘ b.fire = id := by
    funext k; cases k <;> rfl
  rw [this, List.map_id]

theorem fire_kind (b : Button) (k : EventKind) : (b.fire k).kind = k := by
  cases k <;> rfl

theorem nonIdle_append (xs ys : List EventKind) : nonIdle (xs ++ ys) = nonIdle xs ++ nonIdle ys := by
  simp [nonIdle]

theorem nonIdleFirings_map (b : Button) (ks : List EventKind) :
    nonIdleFirings (ks.map b.fire) = (nonIdle ks).map b.fire := by
  induction ks with
  | nil => rfl
  | cons k ks ih =>
    simp only [nonIdleFirings, nonIdle, List.map_cons, List.filter_cons, fire_kind] at ih ⊢
    split_ifs <;> simp only [ih, List.map_cons]

theorem kinds_eq (b : Button) (xs : List Bool) : b.kinds xs = (b.core.run (b.levels xs)).2 :=
  run_kinds b xs

theorem tick_kinds (b : Button) (x : Bool) :
    (b.tick x).2.map Firing.kind = (b.core.step (debLevel b x)).2 := by
  rw [(tick_core b x).2, List.map_map]
  have : Firing.kind ∘ b.fire = id := by
    funext k; cases k <;> rfl
  rw [this, List.map_id]

theorem step_cfg (c : Core) (l : Bool) :
    (c.step l).1.now = addU c.now c.tickIntervalMs ∧
    (c.step l).1.tickIntervalMs = c.tickIntervalMs ∧
    (c.step l).1.pressMs = c.pressMs ∧ (c.step l).1.clickMs = c.clickMs ∧
    (c.step l).1.maxClicks = c.maxClicks ∧
    (c.step l).1.longPressIntervalMs = c.longPressIntervalMs := by
  unfold Core.step
  cases c.state <;> simp only <;> (repeat' split) <;> simp

theorem core_run_cfg (c : Core) (ls : List Bool) :
    (c.run ls).1.now % WORD = (c.now + ls.length * c.tickIntervalMs) % WORD ∧
    (c.run ls).1.tickIntervalMs = c.tickIntervalMs ∧
    (c.run ls).1.pressMs = c.pressMs ∧ (c.run ls).1.clickMs = c.clickMs ∧
    (c.run ls).1.maxClicks = c.maxClicks ∧
    (c.run ls).1.longPressIntervalMs = c.longPressIntervalMs := by
  induction ls generalizing c with
  | nil => simp [core_run_nil]
  | cons l ls ih =>
    obtain ⟨h1, h2, h3, h4, h5, h6⟩ := step_cfg c l
    obtain ⟨i1, i2, i3, i4, i5, i6⟩ := ih (c.step l).1
    rw [core_run_cons]
    simp only
    refine ⟨?_, by rw [i2, h2], by rw [i3, h3], by rw [i4, h4], by rw [i5, h5], by rw [i6, h6]⟩
    rw [i1, h1, h2, List.length_cons]
    have : (ls.length + 1) * c.tickIntervalMs = ls.length * c.tickIntervalMs + c.tickIntervalMs := by
      ring
    rw [this]
    simp only [addU, WORD]
    omega

/-! ### Phases of the interaction machine -/

/-- In Init with the level inactive the machine stays in Init, firing at most `idle`. -/
theorem core_idle_phase (n : Nat) (c : Core) (hs : c.state = StateMachine.OCS_INIT) :
    (c.run (List.replicate n false)).1.state = StateMachine.OCS_INIT ∧
    nonIdle (c.run (List.replicate n false)).2 = [] := by
  induction n generalizing c with
  | zero => exact ⟨hs, rfl⟩
  | succ n ih =>
    have h1 : (c.step false).1.state = StateMachine.OCS_INIT := by
      simp [Core.step, hs]
    have h2 : nonIdle (c.step false).2 = [] := by
      simp only [Core.step, hs, nonIdle, Bool.false_eq_true, ↓reduceIte]
      split_ifs <;> simp
    obtain ⟨i1, i2⟩ := ih (c.step false).1 h1
    rw [List.replicate_succ, core_run_cons]
    exact ⟨i1, by rw [nonIdle_append, h2, i2]; rfl⟩

/-- Init with the level active: the press. -/
theorem core_press (c : Core) (hs : c.state = StateMachine.OCS_INIT) :
    (c.step true).1.state = StateMachine.OCS_DOWN ∧
    subU (c.step true).1.now (c.step true).1.startTime = (0 * c.tickIntervalMs) % WORD ∧
    (c.step true).1.nClicks = 0 ∧ nonIdle (c.step true).2 = [EventKind.press] := by
  simp only [Core.step, hs, nonIdle, ↓reduceIte]
  refine ⟨trivial, ?_, trivial, by split_ifs <;> simp⟩
  simp only [subU, addU, WORD]
  omega

/-- Down with the level active and the hold within `pressMs`: nothing happens. -/
theorem core_hold_phase (r : Nat) (c : Core) (j : Nat) (hs : c.state = StateMachine.OCS_DOWN)
    (ht : subU c.now c.startTime = (j * c.tickIntervalMs) % WORD)
    (hp : (j + r) * c.tickIntervalMs ≤ c.pressMs) :
    (c.run (List.replicate r true)).1.state = StateMachine.OCS_DOWN ∧
    (c.run (List.replicate r true)).1.nClicks = c.nClicks ∧
    (c.run (List.replicate r true)).2 = [] := by
  induction r generalizing c j with
  | zero => exact ⟨hs, rfl, rfl⟩
  | succ r ih =>
    have hw : subU (addU c.now c.tickIntervalMs) c.startTime = ((j + 1) * c.tickIntervalMs) % WORD := by
      have : (j + 1) * c.tickIntervalMs = j * c.tickIntervalMs + c.tickIntervalMs := by ring
      rw [this]
      simp only [subU, addU, WORD] at ht ⊢
      omega
    have hle : ((j + 1) * c.tickIntervalMs) % WORD ≤ c.pressMs := by
      have h1 : (j + 1) * c.tickIntervalMs ≤ (j + (r + 1)) * c.tickIntervalMs :=
        Nat.mul_le_mul_right _ (by omega)
      have h2 := Nat.mod_le ((j + 1) * c.tickIntervalMs) WORD
      omega
    have hstep : c.step true = ({ c with now := addU c.now c.tickIntervalMs }, []) := by
      simp only [Core.step, hs, hw]
      rw [if_neg (by simp), if_neg (by omega)]
    obtain ⟨i1, i2, i3⟩ := ih { c with now := addU c.now c.tickIntervalMs } (j + 1) hs hw
      (by simp only; rw [show j + 1 + r = j + (r + 1) by omega]; exact hp)
    rw [List.replicate_succ, core_run_cons, hstep]
    exact ⟨i1, i2, by simp only [i3, List.append_nil]⟩

/-- Down with the level inactive: the release. -/
theorem core_release (c : Core) (hs : c.state = StateMachine.OCS_DOWN) :
    (c.step false).1.state = StateMachine.OCS_UP ∧
    (c.step false).1.startTime = (c.step false).1.now ∧
    (c.step false).1.nClicks = c.nClicks ∧ (c.step false).2 = [EventKind.release] := by
  simp [Core.step, hs]

/-- Up: one tick to Count, whatever the level. -/
theorem core_up (c : Core) (l : Bool) (hs : c.state = StateMachine.OCS_UP) :
    (c.step l).1.state = StateMachine.OCS_COUNT ∧
    (c.step l).1.startTime = c.startTime ∧
    (c.step l).1.nClicks = toInt32 (c.nClicks + 1) ∧ (c.step l).2 = [] := by
  simp [Core.step, hs]

/-- Count after one click, level inactive, until the click window closes. -/
theorem core_count_click (r : Nat) (c : Core) (j : Nat) (hs : c.state = StateMachine.OCS_COUNT)
    (hn : c.nClicks = 1)
    (ht : subU c.now c.startTime = (j * c.tickIntervalMs) % WORD)
    (hq : ∃ q, j < q ∧ q ≤ j + r ∧ c.clickMs ≤ (q * c.tickIntervalMs) % WORD) :
    (c.run (List.replicate r false)).1.state = StateMachine.OCS_INIT ∧
    nonIdle (c.run (List.replicate r false)).2 = [EventKind.click] := by
  induction r generalizing c j with
  | zero => obtain ⟨q, h1, h2, _⟩ := hq; omega
  | succ r ih =>
    have hw : subU (addU c.now c.tickIntervalMs) c.startTime = ((j + 1) * c.tickIntervalMs) % WORD := by
      have : (j + 1) * c.tickIntervalMs = j * c.tickIntervalMs + c.tickIntervalMs := by ring
      rw [this]
      simp only [subU, addU, WORD] at ht ⊢
      omega
    rw [List.replicate_succ, core_run_cons]
    by_cases hfire : c.clickMs ≤ ((j + 1) * c.tickIntervalMs) % WORD ∨ c.nClicks = c.maxClicks
    · have h1 : (c.step false).1.state = StateMachine.OCS_INIT := by
        simp only [Core.step, hs, hw]
        rw [if_neg (by simp), if_pos hfire]
      have h2 : (c.step false).2 = [EventKind.click] := by
        simp only [Core.step, hs, hw]
        rw [if_neg (by simp), if_pos hfire]
        simp [hn]
      obtain ⟨i1, i2⟩ := core_idle_phase r (c.step false).1 h1
      exact ⟨i1, by rw [nonIdle_append, h2, i2]; rfl⟩
    · have hstep : c.step false = ({ c with now := addU c.now c.tickIntervalMs }, []) := by
        simp only [Core.step, hs, hw]
        rw [if_neg (by simp), if_neg hfire]
      rw [hstep]
      obtain ⟨q, q1, q2, q3⟩ := hq
      have hq' : q ≠ j + 1 := by
        intro h; subst h; exact hfire (Or.inl q3)
      obtain ⟨i1, i2⟩ := ih { c with now := addU c.now c.tickIntervalMs } (j + 1) hs hn hw
        ⟨q, by omega, by omega, q3⟩
      exact ⟨i1, by simpa using i2⟩

/-- Press and short hold: from Init, `m+1` active ticks with the hold within
`pressMs` leave the machine in Down with click count 0, having fired `press`. -/
theorem core_press_hold (m : Nat) (c : Core) (hs : c.state = StateMachine.OCS_INIT)
    (hp : m * c.tickIntervalMs ≤ c.pressMs) :
    (c.run (List.replicate (m + 1) true)).1.state = StateMachine.OCS_DOWN ∧
    (c.run (List.replicate (m + 1) true)).1.nClicks = 0 ∧
    nonIdle (c.run (List.replicate (m + 1) true)).2 = [EventKind.press] := by
  obtain ⟨a1, a2, a3, a4⟩ := core_press c hs
  obtain ⟨c1, c2, _⟩ := step_cfg c true
  obtain ⟨b1, b2, b3⟩ := core_hold_phase m (c.step true).1 0 a1 (by rw [a2, c2])
    (by rw [c2, (step_cfg c true).2.2.1]; simpa using hp)
  rw [List.replicate_succ, core_run_cons]
  exact ⟨b1, by rw [b2, a3], by rw [nonIdle_append, a4, b3]; rfl⟩

/-- Release and count: from Down, two inactive ticks lead through Up to Count
with the click counted, one tick interval after the release. -/
theorem core_release_count (c : Core) (hs : c.state = StateMachine.OCS_DOWN) :
    (c.run [false, false]).1.state = StateMachine.OCS_COUNT ∧
    (c.run [false, false]).1.nClicks = toInt32 (c.nClicks + 1) ∧
    subU (c.run [false, false]).1.now (c.run [false, false]).1.startTime
      = (1 * c.tickIntervalMs) % WORD ∧
    (c.run [false, false]).2 = [EventKind.release] := by
  obtain ⟨a1, a2, a3, a4⟩ := core_release c hs
  obtain ⟨b1, b2, b3, b4⟩ := core_up (c.step false).1 false a1
  obtain ⟨c1, c2, _⟩ := step_cfg (c.step false).1 false
  obtain ⟨d1, d2, _⟩ := step_cfg c false
  simp only [core_run_cons, core_run_nil, List.append_nil]
  refine ⟨b1, by rw [b3, a3], ?_, by rw [a4, b4]; rfl⟩
  rw [b2, a2, c1, d2]
  simp only [subU, addU, WORD]
  omega

/-- Count with the level inactive: if the machine is still in Count after `r`
ticks, nothing was fired and the click count is unchanged. -/
theorem core_count_wait (r : Nat) (c : Core) (hs : c.state = StateMachine.OCS_COUNT)
    (hend : (c.run (List.replicate r false)).1.state = StateMachine.OCS_COUNT) :
    (c.run (List.replicate r false)).1.nClicks = c.nClicks ∧
    (c.run (List.replicate r false)).2 = [] := by
  induction r generalizing c with
  | zero => exact ⟨rfl, rfl⟩
  | succ r ih =>
    rw [List.replicate_succ, core_run_cons] at hend ⊢
    by_cases hfire : c.clickMs ≤ subU (addU c.now c.tickIntervalMs) c.startTime ∨
        c.nClicks = c.maxClicks
    · exfalso
      have h1 : (c.step false).1.state = StateMachine.OCS_INIT := by
        simp only [Core.step, hs]
        rw [if_neg (by simp), if_pos hfire]
      have := (core_idle_phase r (c.step false).1 h1).1
      simp only at hend
      rw [this] at hend
      exact absurd hend (by decide)
    · have hstep : c.step false = ({ c with now := addU c.now c.tickIntervalMs }, []) := by
        simp only [Core.step, hs]
        rw [if_neg (by simp), if_neg hfire]
      rw [hstep] at hend ⊢
      obtain ⟨i1, i2⟩ := ih { c with now := addU c.now c.tickIntervalMs } hs hend
      exact ⟨i1, by simpa using i2⟩

/-- Count with the level active: the next press, without a `press` event. -/
theorem core_count_press (c : Core) (hs : c.state = StateMachine.OCS_COUNT) :
    (c.step true).1.state = StateMachine.OCS_DOWN ∧
    subU (c.step true).1.now (c.step true).1.startTime = (0 * c.tickIntervalMs) % WORD ∧
    (c.step true).1.nClicks = c.nClicks ∧ (c.step true).2 = [] := by
  simp only [Core.step, hs, ↓reduceIte]
  refine ⟨trivial, ?_, trivial, trivial⟩
  simp only [subU, addU, WORD]
  omega

/-- Count with the click count at `maxClicks` = 2 and the level inactive: the double click. -/
theorem core_count_double (c : Core) (hs : c.state = StateMachine.OCS_COUNT)
    (hn : c.nClicks = 2) (hmax : c.maxClicks = 2) :
    (c.step false).1.state = StateMachine.OCS_INIT ∧
    (c.step false).2 = [EventKind.doubleClick] := by
  simp only [Core.step, hs, hn, hmax]
  simp

/-- Second press and short hold, from Count. -/
theorem core_count_press_hold (m : Nat) (c : Core) (hs : c.state = StateMachine.OCS_COUNT)
    (hp : m * c.tickIntervalMs ≤ c.pressMs) :
    (c.run (List.replicate (m + 1) true)).1.state = StateMachine.OCS_DOWN ∧
    (c.run (List.replicate (m + 1) true)).1.nClicks = c.nClicks ∧
    (c.run (List.replicate (m + 1) true)).2 = [] := by
  obtain ⟨a1, a2, a3, a4⟩ := core_count_press c hs
  obtain ⟨c1, c2, _⟩ := step_cfg c true
  obtain ⟨b1, b2, b3⟩ := core_hold_phase m (c.step true).1 0 a1 (by rw [a2, c2])
    (by rw [c2, (step_cfg c true).2.2.1]; simpa using hp)
  rw [List.replicate_succ, core_run_cons]
  exact ⟨b1, by rw [b2, a3], by rw [a4, b3]; rfl⟩

/-! ### Single click (C3) -/

/-- The single click on the interaction machine. -/
theorem core_single_click (c : Core) (n0 m p q : Nat) (hs : c.state = StateMachine.OCS_INIT)
    (hm : 1 ≤ m) (hhold : (m - 1) * c.tickIntervalMs ≤ c.pressMs)
    (hq2 : 2 ≤ q) (hqp : q < p) (hq : c.clickMs ≤ (q * c.tickIntervalMs) % WORD) :
    (c.run (List.replicate n0 false ++ List.replicate m true ++ List.replicate p false)).1.state
      = StateMachine.OCS_INIT ∧
    nonIdle (c.run (List.replicate n0 false ++ List.replicate m true ++ List.replicate p false)).2
      = [EventKind.press, EventKind.release, EventKind.click] := by
  obtain ⟨m', rfl⟩ : ∃ m', m = m' + 1 := ⟨m - 1, by omega⟩
  obtain ⟨p', rfl⟩ : ∃ p', p = 2 + p' := ⟨p - 2, by omega⟩
  simp only [Nat.add_sub_cancel] at hhold
  rw [List.replicate_add 2 p' false, show List.replicate 2 false = [false, false] from rfl]
  simp only [core_run_append, nonIdle_append, List.append_assoc]
  obtain ⟨a1, a2⟩ := core_idle_phase n0 c hs
  obtain ⟨k1, k2, k3, k4, _⟩ := core_run_cfg c (List.replicate n0 false)
  generalize c.run (List.replicate n0 false) = r0 at a1 a2 k1 k2 k3 k4 ⊢
  obtain ⟨b1, b2, b3⟩ := core_press_hold m' r0.1 a1 (by rw [k2, k3]; exact hhold)
  obtain ⟨l1, l2, l3, l4, _⟩ := core_run_cfg r0.1 (List.replicate (m' + 1) true)
  generalize r0.1.run (List.replicate (m' + 1) true) = r1 at b1 b2 b3 l1 l2 l3 l4 ⊢
  obtain ⟨d1, d2, d3, d4⟩ := core_release_count r1.1 b1
  obtain ⟨e1, e2, e3, e4, _⟩ := core_run_cfg r1.1 [false, false]
  generalize r1.1.run [false, false] = r2 at d1 d2 d3 d4 e1 e2 e3 e4 ⊢
  obtain ⟨f1, f2⟩ := core_count_click p' r2.1 1 d1 (by rw [d2, b2]; rfl) (by rw [d3, e2])
    ⟨q, by omega, by omega, by rw [e4, l4, k4, e2, l2, k2]; exact hq⟩
  exact ⟨f1, by rw [a2, b3, d4, f2]; rfl⟩

/-- Claim C3 as stated fails for a click window shorter than two tick intervals.
The button `Button(pin, 3, 50, 1)` has `_clickMs = 20`. Raw input 5 ticks active,
5 inactive: the debounced level is active on ticks 4 to 8 (80 ms, within
`_pressMs = 1000`) and inactive on ticks 9 and 10, a span of 20 ms, which is
at least `_clickMs`. The machine is then in Count, not Init, and no `click` has
fired: Down to Up takes tick 9, Up to Count takes tick 10. -/
theorem single_click_counterexample :
    sampleShortWindow._state = StateMachine.OCS_INIT ∧ sampleShortWindow._maxClicks = 2 ∧
    sampleShortWindow.levels (onePress 5) =
      List.replicate 3 false ++ List.replicate 5 true ++ List.replicate 2 false ∧
    (5 - 1) * sampleShortWindow._tickIntervalMs ≤ sampleShortWindow._pressMs ∧
    sampleShortWindow._clickMs ≤ (2 - 1) * sampleShortWindow._tickIntervalMs ∧
    (sampleShortWindow.run (onePress 5)).1._state = StateMachine.OCS_COUNT ∧
    sampleShortWindow.kinds (onePress 5) = [EventKind.press, EventKind.release] := by
  decide

/-- Claim C3, amended. Single click, from any button in Init (whatever
`_maxClicks`). The debounced levels of the run are `n0` inactive ticks, then
`m ≥ 1` active ticks spanning `(m-1)` tick intervals `≤ _pressMs`, then `p`
inactive ticks, among which a tick `q` intervals after the release tick, with
`2 ≤ q < p`, has 32-bit software time `q * tick mod 2^32 ≥ _clickMs`. Then the
machine ends in Init and, `idle` aside, the firings are exactly one `press`,
one `release` and one `click`: no double click, multi click or long press. -/
theorem single_click_fires_click_once (b : Button) (xs : List Bool) (n0 m p q : Nat)
    (hs : b._state = StateMachine.OCS_INIT)
    (hlev : b.levels xs =
      List.replicate n0 false ++ List.replicate m true ++ List.replicate p false)
    (hm : 1 ≤ m) (hhold : (m - 1) * b._tickIntervalMs ≤ b._pressMs)
    (hq2 : 2 ≤ q) (hqp : q < p) (hq : b._clickMs ≤ (q * b._tickIntervalMs) % WORD) :
    (b.run xs).1._state = StateMachine.OCS_INIT ∧
    nonIdleFirings (b.run xs).2 =
      [b.fire EventKind.press, b.fire EventKind.release, b.fire EventKind.click] := by
  obtain ⟨h1, h2⟩ := run_core b xs
  obtain ⟨c1, c2⟩ := core_single_click b.core n0 m p q hs hm hhold hq2 hqp hq
  rw [hlev] at h1 h2
  constructor
  · have : (b.run xs).1._state = (b.run xs).1.core.state := rfl
    rw [this, h1, c1]
  · rw [h2, nonIdleFirings_map, c2]; rfl

/-- Claim C3, amended, at a concrete run: the default button with a click
handler attached, raw input 5 ticks active and 29 inactive. The click fires on
tick 34, 25 tick intervals (500 ms) after the release tick. -/
theorem single_click_fires_click_once_witness :
    ((sample.attachClick (some 7))._state = StateMachine.OCS_INIT ∧
      (sample.attachClick (some 7)).levels (onePress 29) =
        List.replicate 3 false ++ List.replicate 5 true ++ List.replicate 26 false ∧
      (5 - 1) * (sample.attachClick (some 7))._tickIntervalMs ≤
        (sample.attachClick (some 7))._pressMs ∧
      (sample.attachClick (some 7))._clickMs ≤
        (25 * (sample.attachClick (some 7))._tickIntervalMs) % WORD) ∧
    (((sample.attachClick (some 7)).run (onePress 29)).1._state = StateMachine.OCS_INIT ∧
      nonIdleFirings ((sample.attachClick (some 7)).run (onePress 29)).2 =
        [(sample.attachClick (some 7)).fire EventKind.press,
         (sample.attachClick (some 7)).fire EventKind.release,
         (sample.attachClick (some 7)).fire EventKind.click]) :=
  ⟨by decide,
    single_click_fires_click_once (sample.attachClick (some 7)) (onePress 29) 3 5 26 25
      (by decide) (by decide) (by decide) (by decide) (by decide) (by decide) (by decide)⟩

/-! ### Double click (C4) -/

/-- The double click on the interaction machine. -/
theorem core_double_click (c : Core) (n0 m1 g m2 p : Nat) (hs : c.state = StateMachine.OCS_INIT)
    (hmax : c.maxClicks = 2)
    (hcount : (c.run (List.replicate n0 false ++ List.replicate m1 true ++
      List.replicate g false)).1.state = StateMachine.OCS_COUNT)
    (hm1 : 1 ≤ m1) (hm2 : 1 ≤ m2)
    (hh1 : (m1 - 1) * c.tickIntervalMs ≤ c.pressMs)
    (hh2 : (m2 - 1) * c.tickIntervalMs ≤ c.pressMs) (hp : 3 ≤ p) :
    (c.run ((List.replicate n0 false ++ List.replicate m1 true ++ List.replicate g false) ++
      (List.replicate m2 true ++ List.replicate p false))).1.state = StateMachine.OCS_INIT ∧
    nonIdle (c.run ((List.replicate n0 false ++ List.replicate m1 true ++
      List.replicate g false) ++ (List.replicate m2 true ++ List.replicate p false))).2
      = [EventKind.press, EventKind.release, EventKind.release, EventKind.doubleClick] := by
  obtain ⟨m1', rfl⟩ : ∃ m', m1 = m' + 1 := ⟨m1 - 1, by omega⟩
  obtain ⟨m2', rfl⟩ : ∃ m', m2 = m' + 1 := ⟨m2 - 1, by omega⟩
  obtain ⟨p', rfl⟩ : ∃ p', p = 2 + (1 + p') := ⟨p - 3, by omega⟩
  simp only [Nat.add_sub_cancel] at hh1 hh2
  rw [List.replicate_add 2 (1 + p') false, List.replicate_add 1 p' false,
    show List.replicate 2 false = [false, false] from rfl,
    show List.replicate 1 false = [false] from rfl]
  simp only [core_run_append, nonIdle_append, List.append_assoc] at hcount ⊢
  obtain ⟨a1, a2⟩ := core_idle_phase n0 c hs
  obtain ⟨_, k2, k3, _, k5, _⟩ := core_run_cfg c (List.replicate n0 false)
  generalize c.run (List.replicate n0 false) = r0 at a1 a2 k2 k3 k5 hcount ⊢
  obtain ⟨b1, b2, b3⟩ := core_press_hold m1' r0.1 a1 (by rw [k2, k3]; exact hh1)
  obtain ⟨_, l2, l3, _, l5, _⟩ := core_run_cfg r0.1 (List.replicate (m1' + 1) true)
  generalize r0.1.run (List.replicate (m1' + 1) true) = r1 at b1 b2 b3 l2 l3 l5 hcount ⊢
  -- the gap has at least two ticks, since it ends in Count
  have hg : ∃ g', g = 2 + g' := by
    rcases g with _ | _ | g'
    · rw [show List.replicate 0 false = [] from rfl, core_run_nil, b1] at hcount
      exact absurd hcount (by decide)
    · rw [show List.replicate 1 false = [false] from rfl, core_run_cons, core_run_nil] at hcount
      simp only at hcount
      rw [(core_release r1.1 b1).1] at hcount
      exact absurd hcount (by decide)
    · exact ⟨g', by omega⟩
  obtain ⟨g', rfl⟩ := hg
  rw [List.replicate_add 2 g' false, show List.replicate 2 false = [false, false] from rfl,
    core_run_append] at hcount
  simp only at hcount
  rw [List.replicate_add 2 g' false, show List.replicate 2 false = [false, false] from rfl]
  simp only [core_run_append, nonIdle_append, List.append_assoc]
  obtain ⟨d1, d2, _, d4⟩ := core_release_count r1.1 b1
  obtain ⟨_, e2, e3, _, e5, _⟩ := core_run_cfg r1.1 [false, false]
  generalize r1.1.run [false, false] = r2 at d1 d2 d4 e2 e3 e5 hcount ⊢
  obtain ⟨f1, f2⟩ := core_count_wait g' r2.1 d1 hcount
  obtain ⟨_, u2, u3, _, u5, _⟩ := core_run_cfg r2.1 (List.replicate g' false)
  generalize r2.1.run (List.replicate g' false) = r3 at f1 f2 u2 u3 u5 hcount ⊢
  obtain ⟨v1, v2, v3⟩ := core_count_press_hold m2' r3.1 hcount
    (by rw [u2, u3, e2, e3, l2, l3, k2, k3]; exact hh2)
  obtain ⟨_, _, _, _, w5, _⟩ := core_run_cfg r3.1 (List.replicate (m2' + 1) true)
  generalize r3.1.run (List.replicate (m2' + 1) true) = r4 at v1 v2 v3 w5 ⊢
  obtain ⟨x1, x2, _, x4⟩ := core_release_count r4.1 v1
  obtain ⟨_, _, _, _, y5, _⟩ := core_run_cfg r4.1 [false, false]
  generalize r4.1.run [false, false] = r5 at x1 x2 x4 y5 ⊢
  have hn2 : r5.1.nClicks = 2 := by rw [x2, v2, f1, d2, b2]; rfl
  obtain ⟨z1, z2⟩ := core_count_double r5.1 x1 hn2 (by rw [y5, w5, u5, e5, l5, k5, hmax])
  obtain ⟨t1, t2⟩ := core_idle_phase p' (r5.1.step false).1 z1
  simp only [core_run_cons, core_run_nil, List.append_nil]
  refine ⟨t1, ?_⟩
  rw [a2, b3, d4, f2, v3, x4, z2, t2]; rfl

theorem count_nonIdle (ks : List EventKind) (k : EventKind) (hk : k ≠ EventKind.idle) :
    (nonIdle ks).count k = ks.count k := by
  unfold nonIdle
  exact List.count_filter (by simpa using hk)

/-- Whatever the length of the release that ends the second cycle, `click` has
not fired and `doubleClick` has fired at most once. -/
theorem core_double_click_counts (c : Core) (n0 m1 g m2 p : Nat)
    (hs : c.state = StateMachine.OCS_INIT) (hmax : c.maxClicks = 2)
    (hcount : (c.run (List.replicate n0 false ++ List.replicate m1 true ++
      List.replicate g false)).1.state = StateMachine.OCS_COUNT)
    (hm1 : 1 ≤ m1) (hm2 : 1 ≤ m2)
    (hh1 : (m1 - 1) * c.tickIntervalMs ≤ c.pressMs)
    (hh2 : (m2 - 1) * c.tickIntervalMs ≤ c.pressMs) :
    (c.run ((List.replicate n0 false ++ List.replicate m1 true ++ List.replicate g false) ++
      (List.replicate m2 true ++ List.replicate p false))).2.count EventKind.click = 0 ∧
    (c.run ((List.replicate n0 false ++ List.replicate m1 true ++ List.replicate g false) ++
      (List.replicate m2 true ++ List.replicate p false))).2.count EventKind.doubleClick ≤ 1 := by
  obtain ⟨_, h⟩ := core_double_click c n0 m1 g m2 (p + 3) hs hmax hcount hm1 hm2 hh1 hh2
    (by omega)
  have e : (List.replicate n0 false ++ List.replicate m1 true ++ List.replicate g false) ++
      (List.replicate m2 true ++ List.replicate (p + 3) false) =
      ((List.replicate n0 false ++ List.replicate m1 true ++ List.replicate g false) ++
      (List.replicate m2 true ++ List.replicate p false)) ++ List.replicate 3 false := by
    rw [List.replicate_add]
    simp only [List.append_assoc]
  rw [e, core_run_append] at h
  simp only [nonIdle_append] at h
  generalize (c.run ((List.replicate n0 false ++ List.replicate m1 true ++
    List.replicate g false) ++ (List.replicate m2 true ++ List.replicate p false))) = r at h ⊢
  have h1 := congrArg (List.count EventKind.click) h
  have h2 := congrArg (List.count EventKind.doubleClick) h
  rw [List.count_append, count_nonIdle _ _ (by decide)] at h1 h2
  have v1 : List.count EventKind.click
      [EventKind.press, EventKind.release, EventKind.release, EventKind.doubleClick] = 0 := by
    decide
  have v2 : List.count EventKind.doubleClick
      [EventKind.press, EventKind.release, EventKind.release, EventKind.doubleClick] = 1 := by
    decide
  rw [v1] at h1
  rw [v2] at h2
  omega

/-- Claim C4. Double click, from any button in Init with `_maxClicks = 2`, as
the constructor leaves it. The run `xs1` has debounced levels `n0` inactive,
`m1 ≥ 1` active, `g` inactive and leaves the machine in Count; the run `xs2`
that follows has debounced levels `m2 ≥ 1` active and then `p` inactive, and
each hold spans at most `_pressMs`. At every length `p` of the final release
`click` has not fired and `doubleClick` has fired at most once. From the third
tick of that release on (`p ≥ 3`) the machine is back in Init and, `idle`
aside, the firings are `press`, `release`, `release`, `doubleClick`: the
double click has fired exactly once and `click` never. -/
theorem double_click_fires_doubleClick_once (b : Button) (xs1 xs2 : List Bool)
    (n0 m1 g m2 p : Nat)
    (pin debounceTicks longPressTicks doubleClickTicks : Nat) (pull : ButtonPull)
    (portBase bitMask periph : Nat)
    (hs : b._state = StateMachine.OCS_INIT) (hmax : b._maxClicks = 2)
    (hl1 : b.levels xs1 =
      List.replicate n0 false ++ List.replicate m1 true ++ List.replicate g false)
    (hcount : (b.run xs1).1._state = StateMachine.OCS_COUNT)
    (hl2 : (b.run xs1).1.levels xs2 = List.replicate m2 true ++ List.replicate p false)
    (hm1 : 1 ≤ m1) (hm2 : 1 ≤ m2)
    (hh1 : (m1 - 1) * b._tickIntervalMs ≤ b._pressMs)
    (hh2 : (m2 - 1) * b._tickIntervalMs ≤ b._pressMs) :
    ((b.kinds (xs1 ++ xs2)).count EventKind.click = 0 ∧
      (b.kinds (xs1 ++ xs2)).count EventKind.doubleClick ≤ 1) ∧
    (3 ≤ p →
      (b.run (xs1 ++ xs2)).1._state = StateMachine.OCS_INIT ∧
      nonIdleFirings (b.run (xs1 ++ xs2)).2 =
        [b.fire EventKind.press, b.fire EventKind.release, b.fire EventKind.release,
          b.fire EventKind.doubleClick] ∧
      (b.kinds (xs1 ++ xs2)).count EventKind.doubleClick = 1 ∧
      (b.kinds (xs1 ++ xs2)).count EventKind.click = 0) ∧
    ((Button.ctor pin debounceTicks longPressTicks doubleClickTicks pull portBase bitMask
        periph)._state = StateMachine.OCS_INIT ∧
      (Button.ctor pin debounceTicks longPressTicks doubleClickTicks pull portBase bitMask
        periph)._maxClicks = 2) := by
  obtain ⟨h1, h2⟩ := run_core b (xs1 ++ xs2)
  have hc : (b.core.run (b.levels xs1)).1.state = StateMachine.OCS_COUNT := by
    rw [← (run_core b xs1).1]; exact hcount
  rw [hl1] at hc
  have hk := kinds_eq b (xs1 ++ xs2)
  rw [levels_append, hl1, hl2] at h1 h2 hk
  obtain ⟨k1, k2⟩ := core_double_click_counts b.core n0 m1 g m2 p hs hmax hc hm1 hm2 hh1 hh2
  refine ⟨?_, ?_, rfl, rfl⟩
  · rw [hk]
    exact ⟨k1, k2⟩
  · intro hp
    obtain ⟨c1, c2⟩ := core_double_click b.core n0 m1 g m2 p hs hmax hc hm1 hm2 hh1 hh2 hp
    refine ⟨?_, ?_, ?_, ?_⟩
    · have : (b.run (xs1 ++ xs2)).1._state = (b.run (xs1 ++ xs2)).1.core.state := rfl
      rw [this, h1, c1]
    · rw [h2, nonIdleFirings_map, c2]; rfl
    · rw [hk, ← count_nonIdle _ _ (by decide), c2]
      decide
    · rw [hk]
      exact k1

/-- Claim C4, at a concrete run: the default button with a double-click handler
attached, raw input 5 active, 5 inactive, 5 active, 6 inactive. The second
press reaches the machine on tick 14, in Count, and the double click fires on
tick 21, the third tick of the final release. -/
theorem double_click_fires_doubleClick_once_witness :
    ((sample.attachDoubleClick (some 9))._state = StateMachine.OCS_INIT ∧
      (sample.attachDoubleClick (some 9))._maxClicks = 2 ∧
      (sample.attachDoubleClick (some 9)).levels ((twoPresses 6).take 13) =
        List.replicate 3 false ++ List.replicate 5 true ++ List.replicate 5 false ∧
      ((sample.attachDoubleClick (some 9)).run ((twoPresses 6).take 13)).1._state =
        StateMachine.OCS_COUNT ∧
      ((sample.attachDoubleClick (some 9)).run ((twoPresses 6).take 13)).1.levels
          ((twoPresses 6).drop 13) = List.replicate 5 true ++ List.replicate 3 false ∧
      (5 - 1) * (sample.attachDoubleClick (some 9))._tickIntervalMs ≤
        (sample.attachDoubleClick (some 9))._pressMs) ∧
    (((sample.attachDoubleClick (some 9)).run
        ((twoPresses 6).take 13 ++ (twoPresses 6).drop 13)).1._state = StateMachine.OCS_INIT ∧
      nonIdleFirings ((sample.attachDoubleClick (some 9)).run
        ((twoPresses 6).take 13 ++ (twoPresses 6).drop 13)).2 =
        [(sample.attachDoubleClick (some 9)).fire EventKind.press,
         (sample.attachDoubleClick (some 9)).fire EventKind.release,
         (sample.attachDoubleClick (some 9)).fire EventKind.release,
         (sample.attachDoubleClick (some 9)).fire EventKind.doubleClick] ∧
      ((sample.attachDoubleClick (some 9)).kinds
        ((twoPresses 6).take 13 ++ (twoPresses 6).drop 13)).count EventKind.doubleClick = 1 ∧
      ((sample.attachDoubleClick (some 9)).kinds
        ((twoPresses 6).take 13 ++ (twoPresses 6).drop 13)).count EventKind.click = 0) :=
  ⟨by decide,
    (double_click_fires_doubleClick_once (sample.attachDoubleClick (some 9))
      ((twoPresses 6).take 13) ((twoPresses 6).drop 13) 3 5 5 5 3
      0 3 50 25 ButtonPull.PullUp 0 0 0
      (by decide) (by decide) (by decide) (by decide) (by decide) (by decide) (by decide)
      (by decide) (by decide)).2.1 (by decide)⟩

/-! ### Long press start (C5) -/

/-- The long-press-start site is the transition Down to Press. -/
theorem step_lps (c : Core) (l : Bool) :
    (c.step l).2.count EventKind.longPressStart ≤ 1 ∧
    ((c.step l).2.count EventKind.longPressStart = 1 ↔
      (c.state = StateMachine.OCS_DOWN ∧ l = true ∧
        c.pressMs < subU (addU c.now c.tickIntervalMs) c.startTime)) ∧
    (l = true → (c.step l).2.count EventKind.longPressStart = 1 →
      (c.step l).1.state = StateMachine.OCS_PRESS) ∧
    (l = true → c.state = StateMachine.OCS_PRESS → (c.step l).1.state = StateMachine.OCS_PRESS) := by
  unfold Core.step
  cases hs : c.state <;> cases l <;> simp only <;> (try split_ifs) <;> simp_all

theorem core_lps_at_most_once (ls : List Bool) (hall : ∀ l ∈ ls, l = true) (c : Core) :
    (c.run ls).2.count EventKind.longPressStart ≤ 1 ∧
    (c.state = StateMachine.OCS_PRESS → (c.run ls).2.count EventKind.longPressStart = 0) := by
  induction ls generalizing c with
  | nil => simp [core_run_nil]
  | cons l ls ih =>
    have hl : l = true := hall l (List.mem_cons_self _ _)
    obtain ⟨i1, i2⟩ := ih (fun l h => hall l (List.mem_cons_of_mem _ h)) (c.step l).1
    obtain ⟨s1, _, s3, s4⟩ := step_lps c l
    rw [core_run_cons]
    simp only [List.count_append]
    constructor
    · by_cases h : (c.step l).2.count EventKind.longPressStart = 1
      · have := i2 (s3 hl h); omega
      · omega
    · intro hp
      have h0 : (c.step l).2.count EventKind.longPressStart = 0 := by
        by_contra hne
        have h1 : (c.step l).2.count EventKind.longPressStart = 1 := by omega
        have := ((step_lps c l).2.1.mp h1).1
        rw [hp] at this; exact absurd this (by decide)
      have := i2 (s4 hl hp); omega

/-- Down with the level active: once the 32-bit time in Down exceeds `pressMs`
within the run, the long press has started. -/
theorem core_down_fires (ls : List Bool) (hall : ∀ l ∈ ls, l = true) (c : Core) (j k : Nat)
    (hs : c.state = StateMachine.OCS_DOWN)
    (ht : subU c.now c.startTime = (j * c.tickIntervalMs) % WORD)
    (hk1 : 1 ≤ k) (hk2 : k ≤ ls.length)
    (hgt : c.pressMs < ((j + k) * c.tickIntervalMs) % WORD) :
    1 ≤ (c.run ls).2.count EventKind.longPressStart := by
  induction ls generalizing c j k with
  | nil => simp at hk2; omega
  | cons l ls ih =>
    have hl : l = true := hall l (List.mem_cons_self _ _)
    subst hl
    have hw : subU (addU c.now c.tickIntervalMs) c.startTime = ((j + 1) * c.tickIntervalMs) % WORD := by
      have : (j + 1) * c.tickIntervalMs = j * c.tickIntervalMs + c.tickIntervalMs := by ring
      rw [this]
      simp only [subU, addU, WORD] at ht ⊢
      omega
    rw [core_run_cons, List.count_append]
    by_cases hfire : c.pressMs < ((j + 1) * c.tickIntervalMs) % WORD
    · have : (c.step true).2.count EventKind.longPressStart = 1 :=
        (step_lps c true).2.1.mpr ⟨hs, rfl, by rw [hw]; exact hfire⟩
      omega
    · have hstep : c.step true = ({ c with now := addU c.now c.tickIntervalMs }, []) := by
        simp only [Core.step, hs, hw]
        rw [if_neg (by simp), if_neg hfire]
      have hk : 2 ≤ k := by
        by_contra hlt
        have : k = 1 := by omega
        subst this
        exact hfire hgt
      have := ih (fun l h => hall l (List.mem_cons_of_mem _ h))
        { c with now := addU c.now c.tickIntervalMs } (j + 1) (k - 1) hs hw (by omega)
        (by simp only [List.length_cons] at hk2; omega)
        (by simp only; rw [show j + 1 + (k - 1) = j + k by omega]; exact hgt)
      rw [hstep]
      simp only at this ⊢
      omega

/-- Claim C5. Long press start, from any button state. In a run of ticks on
which the debounced level is active throughout, the long-press-start site fires
at most once. It fires exactly once when some tick of the run finds the machine
in Down with the elapsed software time `_now - _startTime` (after the clock
advance of that tick, 32-bit unsigned) strictly above `_pressMs`; in
particular when Down was entered on a tick of the run (`_startTime = _now`
after it) and the run goes on for `k` more ticks whose `k` tick increments,
modulo `2^32`, exceed `_pressMs`. -/
theorem longPressStart_once_per_hold (b : Button) (xs : List Bool)
    (hact : ∀ l ∈ b.levels xs, l = true) :
    (b.kinds xs).count EventKind.longPressStart ≤ 1 ∧
    (∀ ys x zs, xs = ys ++ x :: zs → (b.run ys).1._state = StateMachine.OCS_DOWN →
      b._pressMs < subU (addU (b.run ys).1._now b._tickIntervalMs) (b.run ys).1._startTime →
      (b.kinds xs).count EventKind.longPressStart = 1) ∧
    (∀ ys zs k, xs = ys ++ zs → (b.run ys).1._state = StateMachine.OCS_DOWN →
      (b.run ys).1._startTime = (b.run ys).1._now → 1 ≤ k → k ≤ zs.length →
      b._pressMs < (k * b._tickIntervalMs) % WORD →
      (b.kinds xs).count EventKind.longPressStart = 1) := by
  have hle := (core_lps_at_most_once (b.levels xs) hact b.core).1
  rw [← kinds_eq] at hle
  refine ⟨hle, ?_, ?_⟩
  · intro ys x zs hxs hdown hwait
    have hlx : debLevel (b.run ys).1 x = true := by
      apply hact
      rw [hxs, levels_append, levels_cons]
      simp
    obtain ⟨_, k2, k3, _⟩ := core_run_cfg b.core (b.levels ys)
    have hc : (b.run ys).1.core = (b.core.run (b.levels ys)).1 := (run_core b ys).1
    have hfire : (((b.run ys).1.tick x).2.map Firing.kind).count EventKind.longPressStart = 1 := by
      rw [tick_kinds, hlx]
      apply (step_lps _ true).2.1.mpr
      refine ⟨hdown, rfl, ?_⟩
      have e1 : (b.run ys).1.core.pressMs = b._pressMs := by rw [hc, k3]; rfl
      have e2 : (b.run ys).1.core.tickIntervalMs = b._tickIntervalMs := by rw [hc, k2]; rfl
      rw [e1, e2]
      exact hwait
    have hsplit : b.kinds xs = b.kinds ys ++ (((b.run ys).1.tick x).2.map Firing.kind ++
        (((b.run ys).1.tick x).1.run zs).2.map Firing.kind) := by
      simp only [Button.kinds, hxs, run_append, run_cons, List.map_append]
    rw [hsplit, List.count_append, List.count_append] at hle ⊢
    omega
  · intro ys zs k hxs hdown hstart hk1 hk2 hgt
    obtain ⟨_, k2, k3, _⟩ := core_run_cfg b.core (b.levels ys)
    have hc : (b.run ys).1.core = (b.core.run (b.levels ys)).1 := (run_core b ys).1
    have e1 : (b.run ys).1.core.pressMs = b._pressMs := by rw [hc, k3]; rfl
    have e2 : (b.run ys).1.core.tickIntervalMs = b._tickIntervalMs := by rw [hc, k2]; rfl
    have hall : ∀ l ∈ (b.run ys).1.levels zs, l = true := by
      intro l hl
      apply hact
      rw [hxs, levels_append]
      exact List.mem_append_right _ hl
    have h0 : subU (b.run ys).1.core.now (b.run ys).1.core.startTime
        = (0 * (b.run ys).1.core.tickIntervalMs) % WORD := by
      have : (b.run ys).1.core.startTime = (b.run ys).1.core.now := hstart
      rw [this]
      simp only [subU, WORD]
      omega
    have hge := core_down_fires _ hall (b.run ys).1.core 0 k hdown h0 hk1
      (by rw [levels_length]; exact hk2) (by rw [e1, e2, Nat.zero_add]; exact hgt)
    rw [← kinds_eq] at hge
    have hsplit : b.kinds xs = b.kinds ys ++ (b.run ys).1.kinds zs := by
      simp only [Button.kinds, hxs, run_append, List.map_append]
    rw [hsplit, List.count_append] at hle ⊢
    omega

/-- Claim C5, at a concrete run: the default button after three active raw
ticks, then 52 more. The debounced level is active throughout, the machine
enters Down on the first of them and the long press starts on the last one,
51 tick intervals (1020 ms) later. -/
theorem longPressStart_once_per_hold_witness :
    (∀ l ∈ (sample.run [true, true, true]).1.levels (List.replicate 52 true), l = true) ∧
    ((sample.run [true, true, true]).1.run [true]).1._state = StateMachine.OCS_DOWN ∧
    ((sample.run [true, true, true]).1.run (List.replicate 51 true)).1._state =
      StateMachine.OCS_DOWN ∧
    ((sample.run [true, true, true]).1.kinds (List.replicate 52 true)).count
      EventKind.longPressStart = 1 :=
  ⟨by decide, by decide, by decide,
    (longPressStart_once_per_hold (sample.run [true, true, true]).1 (List.replicate 52 true)
      (by decide)).2.2 [true] (List.replicate 51 true) 51 (by decide) (by decide) (by decide)
      (by decide) (by decide) (by decide)⟩

/-! ### During long press (C6) -/

/-- The during-long-press site: where it fires and what it does to the repeat timer. -/
theorem step_during (c : Core) (l : Bool) :
    (EventKind.duringLongPress ∈ (c.step l).2 →
      c.state = StateMachine.OCS_PRESS ∧ l = true ∧
      c.longPressIntervalMs ≤ subU (addU c.now c.tickIntervalMs) c.lastDuring ∧
      (c.step l).1.lastDuring = addU c.now c.tickIntervalMs) ∧
    (EventKind.duringLongPress ∉ (c.step l).2 → (c.step l).1.lastDuring = c.lastDuring) := by
  unfold Core.step
  cases hs : c.state <;> cases l <;> simp only <;> (try split_ifs) <;> simp_all

theorem core_run_no_during (c : Core) (ls : List Bool)
    (h : EventKind.duringLongPress ∉ (c.run ls).2) : (c.run ls).1.lastDuring = c.lastDuring := by
  induction ls generalizing c with
  | nil => rfl
  | cons l ls ih =>
    rw [core_run_cons] at h ⊢
    simp only [List.mem_append, not_or] at h ⊢
    rw [ih _ h.2, (step_during c l).2 h.1]

theorem core_during_rate (c : Core) (x y : Bool) (mid : List Bool)
    (h1 : EventKind.duringLongPress ∈ (c.step x).2)
    (h2 : EventKind.duringLongPress ∉ ((c.step x).1.run mid).2)
    (h3 : EventKind.duringLongPress ∈ (((c.step x).1.run mid).1.step y).2) :
    c.longPressIntervalMs ≤ (mid.length + 1) * c.tickIntervalMs := by
  obtain ⟨_, _, _, a4⟩ := (step_during c x).1 h1
  have a5 := core_run_no_during _ _ h2
  obtain ⟨_, _, b3, _⟩ := (step_during _ y).1 h3
  obtain ⟨r1, r2, _, _, _, r6⟩ := core_run_cfg (c.step x).1 mid
  obtain ⟨s1, s2, _, _, _, s6⟩ := step_cfg c x
  rw [a5, a4, r6, s6, r2, s2] at b3
  rw [s1, s2] at r1
  have : (mid.length + 1) * c.tickIntervalMs = mid.length * c.tickIntervalMs + c.tickIntervalMs := by
    ring
  rw [this]
  simp only [subU, addU, WORD] at b3 r1
  omega

/-- Claim C6. During-long-press rate limit, from any button state. A tick fires
`duringLongPress` only if the machine is in Press at that tick and the
debounced level of the tick is active. Two consecutive firings, `mid.length`
ticks without firing in between, are `mid.length + 1` tick increments apart,
and that software time is at least `_longPressIntervalMs`. -/
theorem duringLongPress_rate_limit (b : Button) (x y : Bool) (mid : List Bool) :
    (EventKind.duringLongPress ∈ (b.tick x).2.map Firing.kind →
      b._state = StateMachine.OCS_PRESS ∧ (b.tick x).1._debouncedLevel = true) ∧
    (EventKind.duringLongPress ∈ (b.tick x).2.map Firing.kind →
      EventKind.duringLongPress ∉ (b.tick x).1.kinds mid →
      EventKind.duringLongPress ∈ (((b.tick x).1.run mid).1.tick y).2.map Firing.kind →
      b._longPressIntervalMs ≤ (mid.length + 1) * b._tickIntervalMs) := by
  constructor
  · intro h
    rw [tick_kinds] at h
    obtain ⟨h1, h2, _⟩ := (step_during _ _).1 h
    exact ⟨h1, by rw [tick_debouncedLevel]; exact h2⟩
  · intro h1 h2 h3
    rw [tick_kinds] at h1 h3
    rw [kinds_eq] at h2
    rw [(run_core _ _).1] at h3
    rw [(tick_core b x).1] at h2 h3
    have := core_during_rate b.core _ _ _ h1 h2 h3
    rw [levels_length] at this
    exact this

/-- Claim C6, at a concrete run: the default button with
`setLongPressIntervalMs(40)`, held for 55 ticks so that it is in Press. The
next tick fires, the one after does not, the third fires again: two tick
intervals, 40 ms, apart. -/
theorem duringLongPress_rate_limit_witness :
    EventKind.duringLongPress ∈
      ((((sample.setLongPressIntervalMs 40).run (List.replicate 55 true)).1.tick true).2.map
        Firing.kind) ∧
    EventKind.duringLongPress ∉
      (((sample.setLongPressIntervalMs 40).run (List.replicate 55 true)).1.tick true).1.kinds
        [true] ∧
    EventKind.duringLongPress ∈
      ((((((sample.setLongPressIntervalMs 40).run (List.replicate 55 true)).1.tick true).1.run
        [true]).1.tick true).2.map Firing.kind) ∧
    ((sample.setLongPressIntervalMs 40).run (List.replicate 55 true)).1._longPressIntervalMs ≤
      ([true].length + 1) *
        ((sample.setLongPressIntervalMs 40).run (List.replicate 55 true)).1._tickIntervalMs :=
  ⟨by decide, by decide, by decide,
    (duringLongPress_rate_limit ((sample.setLongPressIntervalMs 40).run
      (List.replicate 55 true)).1 true true [true]).2 (by decide) (by decide) (by decide)⟩

/-! ### Transition table (C7) -/

/-- Claim C7. One call of `fsm` only takes a transition of the specified table,
for every object state and input level; from Up the next state is Count and
from PressEnd it is Init, whatever the level. -/
theorem fsm_transition_table (b : Button) (activeLevel : Bool) :
    (b._state, (b.fsm activeLevel).1._state) ∈ allowedTransitions ∧
    (b._state = StateMachine.OCS_UP →
      (b.fsm activeLevel).1._state = StateMachine.OCS_COUNT) ∧
    (b._state = StateMachine.OCS_PRESSEND →
      (b.fsm activeLevel).1._state = StateMachine.OCS_INIT) := by
  unfold Button.fsm
  cases hs : b._state <;> simp only [allowedTransitions, Button.newState, Button.reset] <;>
    (repeat' split) <;> simp_all

/-- Claim C7, at concrete states: a button put in Up goes to Count, and one in
PressEnd goes to Init, with the level active. -/
theorem fsm_transition_table_witness :
    ((sample.newState StateMachine.OCS_UP).fsm true).1._state = StateMachine.OCS_COUNT ∧
    ((sample.newState StateMachine.OCS_PRESSEND).fsm true).1._state = StateMachine.OCS_INIT :=
  ⟨(fsm_transition_table (sample.newState StateMachine.OCS_UP) true).2.1 (by decide),
   (fsm_transition_table (sample.newState StateMachine.OCS_PRESSEND) true).2.2 (by decide)⟩

/-! ### Latched flags and read-and-clear accessors (C8, C9, C10) -/

/-- The firing sites of `click`, `doubleClick`, `multiClick` and `longPressStop`
are followed by `reset()` in the same `fsm` call, so a call on which one of
them fires ends with the three latched flags cleared. -/
theorem fsm_reset_clears_flags (b : Button) (a : Bool) (k : EventKind)
    (hk : k = EventKind.click ∨ k = EventKind.doubleClick ∨ k = EventKind.multiClick ∨
      k = EventKind.longPressStop)
    (h : k ∈ (b.fsm a).2.map Firing.kind) :
    (b.fsm a).1._wasPressedFlag = false ∧ (b.fsm a).1._wasReleasedFlag = false ∧
    (b.fsm a).1._doubleClickedFlag = false := by
  unfold Button.fsm at h ⊢
  cases hs : b._state <;> simp only [hs, Button.newState, Button.reset] at h ⊢ <;>
    (repeat' split) <;> (try split at h) <;>
    (simp_all [fire_kind]; try (rcases hk with rfl | rfl | rfl | rfl <;> simp_all))

/-- A tick on which `click`, `doubleClick`, `multiClick` or `longPressStop`
fires leaves `_wasPressedFlag`, `_wasReleasedFlag` and `_doubleClickedFlag`
cleared, whatever they held and whatever raw edge the tick itself saw. -/
theorem tick_reset_clears_flags (b : Button) (x : Bool) (k : EventKind)
    (hk : k = EventKind.click ∨ k = EventKind.doubleClick ∨ k = EventKind.multiClick ∨
      k = EventKind.longPressStop)
    (h : k ∈ (b.tick x).2.map Firing.kind) :
    (b.tick x).1._wasPressedFlag = false ∧ (b.tick x).1._wasReleasedFlag = false ∧
    (b.tick x).1._doubleClickedFlag = false := by
  rw [tick_eq] at h ⊢
  exact fsm_reset_clears_flags _ _ k hk h

/-- Claim C8, evaluated on the code. The default button, raw input 5 ticks
active and 29 inactive, no accessor call and no user `reset()`. The raw rising
edge of tick 1 sets `_wasPressedFlag` and the raw falling edge of tick 6 sets
`_wasReleasedFlag`; both are still set after tick 33. On tick 34 `fsm` fires
`click` and calls `reset()`, which clears both flags, so `wasPressed()` and
`wasReleased()` then return false. -/
theorem raw_edge_flags_lost_on_internal_reset :
    sample._currentPhysicalLevel = false ∧
    (sample.tick true).1._wasPressedFlag = true ∧
    (sample.run (onePress 28)).1._wasPressedFlag = true ∧
    (sample.run (onePress 28)).1._wasReleasedFlag = true ∧
    sample.kinds (onePress 29) = [EventKind.press, EventKind.release, EventKind.click] ∧
    (sample.run (onePress 29)).1.wasPressed.2 = false ∧
    (sample.run (onePress 29)).1.wasReleased.2 = false := by
  decide

/-- Claim C9. For every object state, each of `wasPressed()`, `wasReleased()`
and `isDoubleClicked()` returns its latched flag, a second call right after
returns false, and putting the flag back restores the object state: no other
field was written. -/
theorem accessors_read_and_clear (b : Button) :
    (b.wasPressed.2 = b._wasPressedFlag ∧ b.wasPressed.1.wasPressed.2 = false ∧
      { b.wasPressed.1 with _wasPressedFlag := b._wasPressedFlag } = b) ∧
    (b.wasReleased.2 = b._wasReleasedFlag ∧ b.wasReleased.1.wasReleased.2 = false ∧
      { b.wasReleased.1 with _wasReleasedFlag := b._wasReleasedFlag } = b) ∧
    (b.isDoubleClicked.2 = b._doubleClickedFlag ∧
      b.isDoubleClicked.1.isDoubleClicked.2 = false ∧
      { b.isDoubleClicked.1 with _doubleClickedFlag := b._doubleClickedFlag } = b) := by
  simp [Button.wasPressed, Button.wasReleased, Button.isDoubleClicked]

/-- Claim C10, evaluated on the code. The default button, raw input 5 active,
5 inactive, 5 active, 6 inactive, no `isDoubleClicked()` call. After tick 20
(Up to Count, click count 2) `_doubleClickedFlag` is set. Tick 21 fires
`doubleClick` and calls `reset()`, which clears the flag, so the
`isDoubleClicked()` call that follows the firing returns false. -/
theorem isDoubleClicked_false_after_doubleClick :
    (sample.run (twoPresses 5)).1._doubleClickedFlag = true ∧
    sample.kinds (twoPresses 5) = [EventKind.press, EventKind.release, EventKind.release] ∧
    sample.kinds (twoPresses 6) =
      [EventKind.press, EventKind.release, EventKind.release, EventKind.doubleClick] ∧
    (sample.run (twoPresses 6)).1.isDoubleClicked.2 = false := by
  decide

/-! ### Reset and handler registration (C11, C12) -/

/-- Claim C11. `reset()` puts the machine in Init with click count 0, idle-fired
flag false and hold time 0. It leaves `_debounceMs`, `_clickMs`, `_pressMs`,
`_idleMs`, `_longPressIntervalMs`, `_tickIntervalMs`, `_maxClicks` and the pull
mode unchanged, as well as every handler slot (the firing site of every kind
is the same). Putting back the eight members it assigns restores the object:
nothing else is written. -/
theorem reset_frame (b : Button) :
    (b.reset._state = StateMachine.OCS_INIT ∧ b.reset._nClicks = 0 ∧
      b.reset._idleState = false ∧ b.reset._holdTimeMs = 0) ∧
    (b.reset._debounceMs = b._debounceMs ∧ b.reset._clickMs = b._clickMs ∧
      b.reset._pressMs = b._pressMs ∧ b.reset._idleMs = b._idleMs ∧
      b.reset._longPressIntervalMs = b._longPressIntervalMs ∧
      b.reset._tickIntervalMs = b._tickIntervalMs ∧ b.reset._maxClicks = b._maxClicks ∧
      b.reset._pullMode = b._pullMode) ∧
    b.reset.fire = b.fire ∧
    { b.reset with
      _state := b._state
      _nClicks := b._nClicks
      _startTime := b._startTime
      _idleState := b._idleState
      _wasPressedFlag := b._wasPressedFlag
      _wasReleasedFlag := b._wasReleasedFlag
      _doubleClickedFlag := b._doubleClickedFlag
      _holdTimeMs := b._holdTimeMs } = b := by
  refine ⟨⟨rfl, rfl, rfl, rfl⟩, ⟨rfl, rfl, rfl, rfl, rfl, rfl, rfl, rfl⟩, ?_, rfl⟩
  funext k; cases k <;> rfl

/-- Claim C12 as stated fails: the two handler shapes have separate slots. On
the default button `attachClick(f7)` is followed by `attachClick(f8, 1)`; the
later registration does not replace the earlier one, and the one click of the
run invokes both handlers, `f7()` and then `f8(1)`. -/
theorem both_shapes_invoked_counterexample :
    nonIdleFirings
      (((sample.attachClick (some 7)).attachClickParam (some 8) 1).run (onePress 29)).2 =
      [⟨EventKind.press, []⟩, ⟨EventKind.release, []⟩,
       ⟨EventKind.click, [Call.plain 7, Call.param 8 1]⟩] := by
  decide

/-- Claim C12, amended. For each event kind with both handler shapes there is
one slot per shape. A later registration replaces an earlier one of the same
shape. A registration of one shape leaves the slot of the other shape alone:
with both registered, in either order, each occurrence of the event invokes
the no-argument handler and then the context-argument handler. An occurrence
never invokes more than these two. -/
theorem handler_slots_per_shape (b : Button) (k : EventKind) (f g p q : Nat)
    (fo go : Option Nat)
    (hk : k.twoShapes = true) :
    ((b.attachPlain k fo).attachPlain k go).fire k = (b.attachPlain k go).fire k ∧
    ((b.attachParam k fo p).attachParam k go q).fire k = (b.attachParam k go q).fire k ∧
    ((b.attachPlain k (some f)).attachParam k (some g) p).fire k =
      ⟨k, [Call.plain f, Call.param g p]⟩ ∧
    ((b.attachParam k (some g) p).attachPlain k (some f)).fire k =
      ⟨k, [Call.plain f, Call.param g p]⟩ ∧
    (b.fire k).calls.length ≤ 2 := by
  cases k <;>
    first
    | exact absurd hk (by decide)
    | (simp only [Button.attachPlain, Button.attachParam, Button.fire, Button.attachPress,
        Button.attachPressParam, Button.attachClick, Button.attachClickParam,
        Button.attachDoubleClick, Button.attachDoubleClickParam, Button.attachMultiClick,
        Button.attachMultiClickParam, Button.attachLongPressStart,
        Button.attachLongPressStartParam, Button.attachLongPressStop,
        Button.attachLongPressStopParam, Button.attachDuringLongPress,
        Button.attachDuringLongPressParam]
       refine ⟨?_, ?_, ?_, ?_, ?_⟩ <;> (try split_ifs) <;>
         simp only [callPlain, callParam] <;> (repeat' split) <;> simp_all)

/-- Claim C12, amended, at a concrete registration: a second `attachClick(fn)`
replaces the first, and `attachClick(fn, ctx)` after `attachClick(fn)` keeps
both. -/
theorem handler_slots_per_shape_witness :
    EventKind.click.twoShapes = true ∧
    (((sample.attachPlain EventKind.click (some 5)).attachPlain EventKind.click
        (some 6)).fire EventKind.click =
      (sample.attachPlain EventKind.click (some 6)).fire EventKind.click ∧
     ((sample.attachParam EventKind.click (some 5) 1).attachParam EventKind.click
        (some 6) 2).fire EventKind.click =
      (sample.attachParam EventKind.click (some 6) 2).fire EventKind.click ∧
     ((sample.attachPlain EventKind.click (some 7)).attachParam EventKind.click
        (some 8) 1).fire EventKind.click =
      ⟨EventKind.click, [Call.plain 7, Call.param 8 1]⟩ ∧
     ((sample.attachParam EventKind.click (some 8) 1).attachPlain EventKind.click
        (some 7)).fire EventKind.click =
      ⟨EventKind.click, [Call.plain 7, Call.param 8 1]⟩ ∧
     (sample.fire EventKind.click).calls.length ≤ 2) :=
  ⟨by decide,
    handler_slots_per_shape sample EventKind.click 7 8 1 2 (some 5) (some 6) (by decide)⟩

/-! ### Click limit and hold time (C29, C30) -/

theorem register_maxClicks_le (b : Button) (r : Registration) :
    b._maxClicks ≤ (b.register r)._maxClicks ∧
    (r.isMultiClick = true → 100 ≤ (b.register r)._maxClicks) := by
  cases r with
  | plain k fn =>
    cases k <;>
      simp only [Button.register, Button.attachPlain, Button.attachPress, Button.attachRelease,
        Button.attachClick, Button.attachDoubleClick, Button.attachMultiClick,
        Button.attachLongPressStart, Button.attachLongPressStop, Button.attachDuringLongPress,
        Button.attachIdle, Registration.isMultiClick] <;>
      (try split_ifs) <;> simp_all <;> omega
  | param k fn ctx =>
    cases k <;>
      simp only [Button.register, Button.attachParam, Button.attachPressParam,
        Button.attachClickParam, Button.attachDoubleClickParam, Button.attachMultiClickParam,
        Button.attachLongPressStartParam, Button.attachLongPressStopParam,
        Button.attachDuringLongPressParam, Registration.isMultiClick] <;>
      (try split_ifs) <;> simp_all <;> omega

theorem registerAll_maxClicks_le (rs : List Registration) (b : Button) :
    b._maxClicks ≤ (b.registerAll rs)._maxClicks := by
  induction rs generalizing b with
  | nil => exact le_refl _
  | cons r rs ih =>
    exact le_trans (register_maxClicks_le b r).1 (ih (b.register r))

theorem registerAll_multiClick (rs : List Registration) (b : Button)
    (h : ∃ r ∈ rs, r.isMultiClick = true) : 100 ≤ (b.registerAll rs)._maxClicks := by
  induction rs generalizing b with
  | nil => simp at h
  | cons r rs ih =>
    by_cases hr : r.isMultiClick = true
    · exact le_trans ((register_maxClicks_le b r).2 hr) (registerAll_maxClicks_le rs (b.register r))
    · obtain ⟨r', hm, hr'⟩ := h
      rcases List.mem_cons.mp hm with e | e
      · subst e; exact absurd hr' hr
      · exact ih (b.register r) ⟨r', e, hr'⟩

/-- Claim C29. The constructor sets `_maxClicks` to 2. No handler registration
lowers it, neither a single call of any `attach` method nor a sequence of
them. After `attachMultiClick`, in either shape, it is at least 100.
`attachDoubleClick`, in either shape, sets it to 2 when it is below 2 and
leaves it alone otherwise. After any sequence of registrations that contains
an `attachMultiClick` call, whatever comes before or after that call, it is at
least 100. -/
theorem maxClicks_never_decreased (b : Button) (r : Registration) (rs : List Registration)
    (fn : Option Nat) (ctx : Nat) (pin debounceTicks longPressTicks doubleClickTicks : Nat)
    (pull : ButtonPull) (portBase bitMask periph : Nat) :
    (Button.ctor pin debounceTicks longPressTicks doubleClickTicks pull portBase bitMask
      periph)._maxClicks = 2 ∧
    b._maxClicks ≤ (b.register r)._maxClicks ∧
    b._maxClicks ≤ (b.registerAll rs)._maxClicks ∧
    (100 ≤ (b.attachMultiClick fn)._maxClicks ∧
      100 ≤ (b.attachMultiClickParam fn ctx)._maxClicks) ∧
    ((b.attachDoubleClick fn)._maxClicks = (if b._maxClicks < 2 then 2 else b._maxClicks) ∧
      (b.attachDoubleClickParam fn ctx)._maxClicks =
        (if b._maxClicks < 2 then 2 else b._maxClicks)) ∧
    ((∃ r ∈ rs, r.isMultiClick = true) → 100 ≤ (b.registerAll rs)._maxClicks) := by
  refine ⟨rfl, (register_maxClicks_le b r).1, registerAll_maxClicks_le rs b, ⟨?_, ?_⟩, ⟨?_, ?_⟩,
    registerAll_multiClick rs b⟩
  · exact (register_maxClicks_le b (Registration.plain EventKind.multiClick fn)).2 rfl
  · exact (register_maxClicks_le b (Registration.param EventKind.multiClick fn ctx)).2 rfl
  · simp only [Button.attachDoubleClick]
    split_ifs <;> rfl
  · simp only [Button.attachDoubleClickParam]
    split_ifs <;> rfl

/-- Claim C29, at the default button and the calls `attachDoubleClick(f1)`,
`attachMultiClick(f2, 7)`, `attachDoubleClick(f3)`: `_maxClicks` ends at 100. -/
theorem maxClicks_never_decreased_witness :
    (∃ r ∈ [Registration.plain EventKind.doubleClick (some 1),
        Registration.param EventKind.multiClick (some 2) 7,
        Registration.plain EventKind.doubleClick (some 3)], r.isMultiClick = true) ∧
    100 ≤ (sample.registerAll [Registration.plain EventKind.doubleClick (some 1),
        Registration.param EventKind.multiClick (some 2) 7,
        Registration.plain EventKind.doubleClick (some 3)])._maxClicks ∧
    (sample.registerAll [Registration.plain EventKind.doubleClick (some 1),
        Registration.param EventKind.multiClick (some 2) 7,
        Registration.plain EventKind.doubleClick (some 3)])._maxClicks = 100 :=
  ⟨by decide,
    (maxClicks_never_decreased sample (Registration.plain EventKind.click none)
      [Registration.plain EventKind.doubleClick (some 1),
        Registration.param EventKind.multiClick (some 2) 7,
        Registration.plain EventKind.doubleClick (some 3)] none 0 0 3 50 25 ButtonPull.PullUp
      0 0 0).2.2.2.2.2 (by decide),
    by decide⟩

/-- The Down to Up transition of `fsm`: `_startTime` is overwritten with `_now`
first, and the hold time computed from the overwritten value and `waitTime`
is the old difference `_now - _startTime`. -/
theorem fsm_down_release (b : Button) (hs : b._state = StateMachine.OCS_DOWN) :
    (b.fsm false).1._state = StateMachine.OCS_UP ∧
    (b.fsm false).1._startTime = b._now ∧
    (b.fsm false).1.getHoldTime = subU b._now b._startTime := by
  have h : (b.fsm false).1._holdTimeMs =
      subU b._now (subU b._now (subU b._now b._startTime)) := by
    unfold Button.fsm
    rw [hs]
    rfl
  refine ⟨?_, ?_, ?_⟩
  · unfold Button.fsm; rw [hs]; rfl
  · unfold Button.fsm; rw [hs]; rfl
  · show (b.fsm false).1._holdTimeMs = _
    rw [h]
    simp only [subU, WORD]
    omega

theorem tick_down_release (b : Button) (x : Bool) (hs : b._state = StateMachine.OCS_DOWN) :
    ((b.tick x).1._state = StateMachine.OCS_UP ↔ debLevel b x = false) ∧
    ((b.tick x).1._state = StateMachine.OCS_UP →
      (b.tick x).1.getHoldTime = subU (b.tick x).1._now b._startTime ∧
      (b.tick x).1._startTime = (b.tick x).1._now) := by
  have hs' : (prep b x)._state = StateMachine.OCS_DOWN := hs
  have hnow : (b.tick x).1._now = (prep b x)._now := by rw [tick_eq, (fsm_frame _ _).1]
  have hst : (prep b x)._startTime = b._startTime := rfl
  cases hd : debLevel b x with
  | false =>
    obtain ⟨h1, h2, h3⟩ := fsm_down_release (prep b x) hs'
    rw [hnow, tick_eq, hd, h1, h2, h3, hst]
    simp
  | true =>
    have hne : ((prep b x).fsm true).1._state ≠ StateMachine.OCS_UP := by
      unfold Button.fsm
      rw [hs']
      simp only [Button.newState]
      split_ifs <;> simp_all
    rw [tick_eq, hd]
    simp [hne]

/-- Claim C30. For a button in Down, `fsm` with an inactive level moves to Up,
overwrites `_startTime` with `_now`, and leaves in `getHoldTime()` the value
`_now - _startTime` of the members before the call, modulo `2^32`. The same
holds for a whole tick: on a tick that takes the machine from Down to Up,
`getHoldTime()` afterwards is the software time of that tick minus the
`_startTime` from before the tick, modulo `2^32`. A tick from Down goes to Up
when the debounced level is inactive. -/
theorem hold_time_on_release (b : Button) (x : Bool) (hs : b._state = StateMachine.OCS_DOWN) :
    ((b.fsm false).1._state = StateMachine.OCS_UP ∧ (b.fsm false).1._startTime = b._now ∧
      (b.fsm false).1.getHoldTime = subU b._now b._startTime) ∧
    ((b.tick x).1._state = StateMachine.OCS_UP →
      (b.tick x).1.getHoldTime = subU (b.tick x).1._now b._startTime ∧
      (b.tick x).1._startTime = (b.tick x).1._now) ∧
    (debLevel b x = false → (b.tick x).1._state = StateMachine.OCS_UP) :=
  ⟨fsm_down_release b hs, (tick_down_release b x hs).2, (tick_down_release b x hs).1.mpr⟩

/-- Claim C30, on the default button held for 8 ticks: Down was entered at
software time 80, the release is debounced on the tick at time 240, and the
hold time is 160. -/
theorem hold_time_on_release_witness :
    (heldButton._state = StateMachine.OCS_DOWN ∧ heldButton._startTime = 80 ∧
      (heldButton.tick false).1._state = StateMachine.OCS_UP ∧
      (heldButton.tick false).1._now = 240) ∧
    (heldButton.tick false).1.getHoldTime = 160 :=
  ⟨by decide,
    ((hold_time_on_release heldButton false (by decide)).2.1 (by decide)).1.trans (by decide)⟩

/-! ### Long-press pairing and click count (C34, C35) -/

theorem step_longPressPaired (c : Core) (l : Bool) (rest : List EventKind)
    (h : longPressPaired (c.step l).1.state.inLongPress rest = true) :
    longPressPaired c.state.inLongPress ((c.step l).2 ++ rest) = true := by
  revert h
  unfold Core.step
  cases hs : c.state <;> cases l <;> simp only <;> (try split_ifs) <;>
    simp_all [longPressPaired, StateMachine.inLongPress]

theorem core_run_longPressPaired (ls : List Bool) (c : Core) :
    longPressPaired c.state.inLongPress (c.run ls).2 = true := by
  induction ls generalizing c with
  | nil => rfl
  | cons l ls ih =>
    rw [core_run_cons]
    exact step_longPressPaired c l _ (ih (c.step l).1)

theorem longPressPaired_counts (ks : List EventKind) (o : Bool)
    (h : longPressPaired o ks = true) :
    ks.count EventKind.longPressStop ≤ ks.count EventKind.longPressStart + (if o then 1 else 0) ∧
    ks.count EventKind.longPressStart + (if o then 1 else 0) ≤
      ks.count EventKind.longPressStop + 1 := by
  induction ks generalizing o with
  | nil => cases o <;> simp
  | cons k ks ih =>
    cases k <;> cases o <;> simp [longPressPaired] at h <;>
      (specialize ih _ h
       simp [List.count_cons] at ih ⊢
       omega)

/-- Claim C35. For a button that is not in a long-press state (a constructed
button is not), the event kinds of every run of `tick(bool)` calls satisfy
`longPressPaired false`: `longPressStart` and `longPressStop` alternate,
beginning with `longPressStart`, and every `duringLongPress` lies between a
start and its stop. Hence the stops number at most the starts, and the starts
at most one more than the stops. -/
theorem longPress_events_paired (b : Button) (xs : List Bool)
    (pin debounceTicks longPressTicks doubleClickTicks : Nat) (pull : ButtonPull)
    (portBase bitMask periph : Nat)
    (h : b._state.inLongPress = false) :
    longPressPaired false (b.kinds xs) = true ∧
    (b.kinds xs).count EventKind.longPressStop ≤ (b.kinds xs).count EventKind.longPressStart ∧
    (b.kinds xs).count EventKind.longPressStart ≤
      (b.kinds xs).count EventKind.longPressStop + 1 ∧
    (Button.ctor pin debounceTicks longPressTicks doubleClickTicks pull portBase bitMask
      periph)._state.inLongPress = false := by
  have hp : longPressPaired false (b.kinds xs) = true := by
    rw [kinds_eq]
    have := core_run_longPressPaired (b.levels xs) b.core
    have hc : b.core.state = b._state := rfl
    rw [hc, h] at this
    exact this
  obtain ⟨c1, c2⟩ := longPressPaired_counts _ _ hp
  simp only [Bool.false_eq_true, if_false, Nat.add_zero] at c1 c2
  exact ⟨hp, c1, c2, rfl⟩

/-- Claim C35, at the default button held for 57 ticks and released for 5: the
trace is press, longPressStart, five duringLongPress, longPressStop. -/
theorem longPress_events_paired_witness :
    sample._state.inLongPress = false ∧
    longPressPaired false (sample.kinds (List.replicate 57 true ++ List.replicate 5 false)) = true ∧
    nonIdle (sample.kinds (List.replicate 57 true ++ List.replicate 5 false)) =
      [EventKind.press, EventKind.longPressStart, EventKind.duringLongPress,
        EventKind.duringLongPress, EventKind.duringLongPress, EventKind.duringLongPress,
        EventKind.duringLongPress, EventKind.longPressStop] :=
  ⟨by decide,
    (longPress_events_paired sample (List.replicate 57 true ++ List.replicate 5 false) 0 3 50 25
      ButtonPull.PullUp 0 0 0 (by decide)).1,
    by decide⟩

theorem debLevel_inactive_of_active (b : Button) (x : Bool) (h1 : b._debouncedLevel = true)
    (h2 : debLevel b x = false) : x = false := by
  rcases debLevel_cases b x with h | ⟨h, _⟩
  · rw [h2, h1] at h; exact absurd h (by decide)
  · rw [h2] at h; exact h.symm

theorem debLevel_stays_inactive (b : Button) (x : Bool) (hd : 0 ≤ b._debounceMs)
    (ht : b._tickIntervalMs < debAbs b) (h1 : b._debouncedLevel = false)
    (h2 : b._lastDebounceLevel = true → b._lastDebounceTime = b._now) :
    debLevel b x = false := by
  rcases debLevel_cases b x with h | ⟨h, h3 | ⟨h3, h4⟩⟩
  · rw [h, h1]
  · exact absurd h3.2 (not_lt.mpr hd)
  · cases x with
    | false => exact h
    | true =>
      rw [h2 h3] at h4
      have : subU (addU b._now b._tickIntervalMs) b._now = b._tickIntervalMs % WORD := by
        simp only [subU, addU, WORD]; omega
      rw [this] at h4
      have := Nat.mod_le b._tickIntervalMs WORD
      omega

/-- The next state and click count of the interaction machine, by state and
debounced level, and where `multiClick` can fire. -/
theorem step_clicks (c : Core) (l : Bool) :
    (c.state = StateMachine.OCS_INIT → l = true →
      (c.step l).1.state = StateMachine.OCS_DOWN ∧ (c.step l).1.nClicks = 0) ∧
    (c.state = StateMachine.OCS_INIT → l = false →
      (c.step l).1.state = StateMachine.OCS_INIT ∧ (c.step l).1.nClicks = c.nClicks) ∧
    (c.state = StateMachine.OCS_DOWN → l = false →
      (c.step l).1.state = StateMachine.OCS_UP ∧ (c.step l).1.nClicks = c.nClicks) ∧
    (c.state = StateMachine.OCS_DOWN → l = true →
      ((c.step l).1.state = StateMachine.OCS_DOWN ∨ (c.step l).1.state = StateMachine.OCS_PRESS) ∧
      (c.step l).1.nClicks = c.nClicks) ∧
    (c.state = StateMachine.OCS_UP →
      (c.step l).1.state = StateMachine.OCS_COUNT ∧
      (c.step l).1.nClicks = toInt32 (c.nClicks + 1)) ∧
    (c.state = StateMachine.OCS_COUNT → l = true →
      (c.step l).1.state = StateMachine.OCS_DOWN ∧ (c.step l).1.nClicks = c.nClicks) ∧
    (c.state = StateMachine.OCS_COUNT → l = false →
      ((c.step l).1.state = StateMachine.OCS_INIT ∧ (c.step l).1.nClicks = 0) ∨
      ((c.step l).1.state = StateMachine.OCS_COUNT ∧ (c.step l).1.nClicks = c.nClicks ∧
        c.nClicks ≠ c.maxClicks)) ∧
    (c.state = StateMachine.OCS_PRESS →
      ((c.step l).1.state = StateMachine.OCS_PRESS ∨
        (c.step l).1.state = StateMachine.OCS_PRESSEND) ∧
      (c.step l).1.nClicks = c.nClicks) ∧
    (c.state = StateMachine.OCS_PRESSEND →
      (c.step l).1.state = StateMachine.OCS_INIT ∧ (c.step l).1.nClicks = 0) ∧
    (EventKind.multiClick ∈ (c.step l).2 →
      c.state = StateMachine.OCS_COUNT ∧ c.nClicks ≠ 1 ∧ c.nClicks ≠ 2) := by
  unfold Core.step
  cases hs : c.state <;> cases l <;> simp only <;> (try split_ifs) <;> simp_all

theorem clickInv_tick (b : Button) (x : Bool) (hd : 0 ≤ b._debounceMs)
    (ht : b._tickIntervalMs < debAbs b) (hm1 : 1 ≤ b._maxClicks)
    (hm2 : b._maxClicks < 2147483648) (hinv : b.clickInv) :
    (b.tick x).1.clickInv ∧
    (b._maxClicks = 2 → EventKind.multiClick ∉ (b.tick x).2.map Firing.kind) := by
  obtain ⟨⟨i0, i1⟩, iD, iU, iC⟩ := hinv
  have hc := (tick_core b x).1
  have hk := tick_kinds b x
  have e1 : (b.tick x).1._state = (b.core.step (debLevel b x)).1.state := by rw [← hc]; rfl
  have e2 : (b.tick x).1._nClicks = (b.core.step (debLevel b x)).1.nClicks := by rw [← hc]; rfl
  have e3 : (b.tick x).1._maxClicks = b._maxClicks := by
    have := (step_cfg b.core (debLevel b x)).2.2.2.2.1
    rw [← hc] at this
    exact this
  have e4 := tick_debouncedLevel b x
  have e5 := tick_lastDebounceLevel b x
  have e6 := tick_lastDebounceTime b x
  have e7 := tick_now b x
  obtain ⟨s1, s2, s3, s4, s5, s6, s7, s8, s9, s10⟩ := step_clicks b.core (debLevel b x)
  have cs : b.core.state = b._state := rfl
  have cn : b.core.nClicks = b._nClicks := rfl
  have cm : b.core.maxClicks = b._maxClicks := rfl
  rw [cs] at s1 s2 s3 s4 s5 s6 s7 s8 s9 s10
  rw [cn] at s2 s3 s4 s5 s6 s7 s8 s10
  rw [cm] at s7
  constructor
  · unfold Button.clickInv
    rw [e1, e2, e3, e4, e5, e6, e7]
    cases hs : b._state with
    | OCS_INIT =>
      cases hl : debLevel b x with
      | true =>
        obtain ⟨a1, a2⟩ := s1 hs hl
        rw [hl] at a1 a2
        rw [a1, a2]
        refine ⟨⟨le_refl _, by omega⟩, fun _ => ⟨by omega, rfl⟩, fun h => absurd h (by decide),
          fun h => absurd h (by decide)⟩
      | false =>
        obtain ⟨a1, a2⟩ := s2 hs hl
        rw [hl] at a1 a2
        rw [a1, a2]
        exact ⟨⟨i0, i1⟩, fun h => absurd h (by decide), fun h => absurd h (by decide),
          fun h => absurd h (by decide)⟩
    | OCS_DOWN =>
      obtain ⟨d1, d2⟩ := iD hs
      cases hl : debLevel b x with
      | false =>
        obtain ⟨a1, a2⟩ := s3 hs hl
        rw [hl] at a1 a2
        rw [a1, a2]
        exact ⟨⟨i0, i1⟩, fun h => absurd h (by decide),
          fun _ => ⟨d1, rfl, debLevel_inactive_of_active b x d2 hl⟩, fun h => absurd h (by decide)⟩
      | true =>
        obtain ⟨a1, a2⟩ := s4 hs hl
        rw [hl] at a1 a2
        rw [a2]
        refine ⟨⟨i0, i1⟩, fun _ => ⟨d1, rfl⟩, ?_, ?_⟩
        · intro h; rcases a1 with a | a <;> rw [a] at h <;> exact absurd h (by decide)
        · intro h; rcases a1 with a | a <;> rw [a] at h <;> exact absurd h (by decide)
    | OCS_UP =>
      obtain ⟨u1, u2, u3⟩ := iU hs
      obtain ⟨a1, a2⟩ := s5 hs
      have hl : debLevel b x = false :=
        debLevel_stays_inactive b x hd ht u2 (fun h => by rw [u3] at h; exact absurd h (by decide))
      have hw : toInt32 (b._nClicks + 1) = b._nClicks + 1 := by
        unfold toInt32
        omega
      rw [a1, a2, hw, hl]
      refine ⟨⟨by omega, by omega⟩, fun h => absurd h (by decide), fun h => absurd h (by decide),
        fun _ => ⟨by omega, fun _ => ⟨rfl, ?_⟩⟩⟩
      intro hx
      unfold debTime
      rw [if_neg (by rw [u3, hx]; decide)]
    | OCS_COUNT =>
      obtain ⟨c1, c2⟩ := iC hs
      cases hl : debLevel b x with
      | true =>
        obtain ⟨a1, a2⟩ := s6 hs hl
        have hlt : b._nClicks < b._maxClicks := by
          rcases lt_or_eq_of_le i1 with h | h
          · exact h
          · obtain ⟨q1, q2⟩ := c2 h
            have := debLevel_stays_inactive b x hd ht q1 q2
            rw [hl] at this
            exact absurd this (by decide)
        rw [hl] at a1 a2
        rw [a1, a2]
        exact ⟨⟨i0, i1⟩, fun _ => ⟨hlt, rfl⟩, fun h => absurd h (by decide),
          fun h => absurd h (by decide)⟩
      | false =>
        rcases s7 hs hl with ⟨a1, a2⟩ | ⟨a1, a2, a3⟩
        · rw [hl] at a1 a2
          rw [a1, a2]
          exact ⟨⟨le_refl _, by omega⟩, fun h => absurd h (by decide),
            fun h => absurd h (by decide), fun h => absurd h (by decide)⟩
        · rw [hl] at a1 a2
          rw [a1, a2]
          exact ⟨⟨i0, i1⟩, fun h => absurd h (by decide), fun h => absurd h (by decide),
            fun _ => ⟨c1, fun h => absurd h a3⟩⟩
    | OCS_PRESS =>
      obtain ⟨a1, a2⟩ := s8 hs
      rw [a2]
      refine ⟨⟨i0, i1⟩, ?_, ?_, ?_⟩ <;>
        (intro h; rcases a1 with a | a <;> rw [a] at h <;> exact absurd h (by decide))
    | OCS_PRESSEND =>
      obtain ⟨a1, a2⟩ := s9 hs
      rw [a1, a2]
      exact ⟨⟨le_refl _, by omega⟩, fun h => absurd h (by decide), fun h => absurd h (by decide),
        fun h => absurd h (by decide)⟩
  · intro hm hmem
    rw [hk] at hmem
    obtain ⟨q1, q2, q3⟩ := s10 hmem
    obtain ⟨c1, _⟩ := iC q1
    omega

theorem tick_maxClicks (b : Button) (x : Bool) : (b.tick x).1._maxClicks = b._maxClicks := by
  have h := (step_cfg b.core (debLevel b x)).2.2.2.2.1
  rw [← (tick_core b x).1] at h
  exact h

theorem tick_debAbs (b : Button) (x : Bool) : debAbs (b.tick x).1 = debAbs b := by
  unfold debAbs
  rw [tick_debounceMs]

/-- The invariant `clickInv` holds after every run of ticks, and with
`_maxClicks = 2` no tick of the run fires `multiClick`. -/
theorem clickInv_run (xs : List Bool) (b : Button) (hd : 0 ≤ b._debounceMs)
    (ht : b._tickIntervalMs < debAbs b) (hm1 : 1 ≤ b._maxClicks)
    (hm2 : b._maxClicks < 2147483648) (hinv : b.clickInv) :
    (b.run xs).1.clickInv ∧ (b.run xs).1._maxClicks = b._maxClicks ∧
    (b._maxClicks = 2 → EventKind.multiClick ∉ b.kinds xs) := by
  induction xs generalizing b with
  | nil => exact ⟨hinv, rfl, fun _ h => absurd h (List.not_mem_nil _)⟩
  | cons x xs ih =>
    obtain ⟨t1, t2⟩ := clickInv_tick b x hd ht hm1 hm2 hinv
    have hM := tick_maxClicks b x
    obtain ⟨r1, r2, r3⟩ := ih (b.tick x).1 (by rw [tick_debounceMs]; exact hd)
      (by rw [tick_tickIntervalMs, tick_debAbs]; exact ht) (by rw [hM]; exact hm1)
      (by rw [hM]; exact hm2) t1
    refine ⟨r1, by rw [← hM]; exact r2, ?_⟩
    intro h2 hmem
    unfold Button.kinds at hmem r3
    rw [run_cons] at hmem
    simp only [List.map_append, List.mem_append] at hmem
    rcases hmem with h | h
    · exact t2 h2 h
    · exact r3 (by rw [hM]; exact h2) h

/-- Claim C34, counterexample. On the button `Button(0, 0, 50, 25)` (debounce
time 0, `_maxClicks` 2) three presses of two ticks each, two ticks apart, leave
`getNumberClicks()` at 3 at the end of the thirteenth tick, and once the click
window has run out the multi-click branch is taken. -/
theorem click_count_exceeds_maxClicks :
    zeroDebounce._maxClicks = 2 ∧
    (zeroDebounce.run threePresses).1.getNumberClicks = 3 ∧
    ¬ ((zeroDebounce.run threePresses).1.getNumberClicks ≤ zeroDebounce._maxClicks) ∧
    EventKind.multiClick ∈ zeroDebounce.kinds (threePresses ++ List.replicate 25 false) := by
  decide

/-- Claim C34, amended. For a button whose debounce time is not negative and
longer than its tick interval, with `_maxClicks` between 1 and `2^31 - 1`, in a
state satisfying `clickInv` (a freshly constructed button is one): after every
run of `tick(bool)` calls `getNumberClicks()` is at most `_maxClicks`, and with
`_maxClicks = 2` no tick of the run fires `multiClick`. -/
theorem click_count_bound (b : Button) (xs : List Bool)
    (pin debounceTicks longPressTicks doubleClickTicks : Nat) (pull : ButtonPull)
    (portBase bitMask periph : Nat)
    (hd : 0 ≤ b._debounceMs) (ht : b._tickIntervalMs < debAbs b)
    (hm1 : 1 ≤ b._maxClicks) (hm2 : b._maxClicks < 2147483648) (hinv : b.clickInv) :
    (b.run xs).1.getNumberClicks ≤ b._maxClicks ∧
    (b._maxClicks = 2 → EventKind.multiClick ∉ b.kinds xs) ∧
    (Button.ctor pin debounceTicks longPressTicks doubleClickTicks pull
      portBase bitMask periph).clickInv := by
  obtain ⟨r1, r2, r3⟩ := clickInv_run xs b hd ht hm1 hm2 hinv
  refine ⟨?_, r3, ?_⟩
  · have := r1.1.2
    rw [r2] at this
    exact this
  · exact ⟨⟨le_refl _, show (0 : Int) ≤ 2 by decide⟩,
      fun h => absurd (show StateMachine.OCS_INIT = StateMachine.OCS_DOWN from h) (by decide),
      fun h => absurd (show StateMachine.OCS_INIT = StateMachine.OCS_UP from h) (by decide),
      fun h => absurd (show StateMachine.OCS_INIT = StateMachine.OCS_COUNT from h) (by decide)⟩

/-- Claim C34, amended, at the default button (debounce 60 ms, tick 20 ms) and
two short presses. -/
theorem click_count_bound_witness :
    (sample.run (twoPresses 30)).1.getNumberClicks ≤ sample._maxClicks ∧
    (sample._maxClicks = 2 → EventKind.multiClick ∉ sample.kinds (twoPresses 30)) ∧
    (Button.ctor 0 3 50 25 ButtonPull.PullUp 0 0 0).clickInv :=
  click_count_bound sample (twoPresses 30) 0 3 50 25 ButtonPull.PullUp 0 0 0
    (by decide) (by decide) (by decide) (by decide)
    ⟨⟨by decide, by decide⟩, fun h => absurd h (by decide), fun h => absurd h (by decide),
      fun h => absurd h (by decide)⟩

end Btn

namespace Tmr

/-! ### Elapsed time (C14, C15, C16) -/

theorem sub64_sub64_self (m d : Nat) (hd : d < W64) : sub64 m (sub64 m d) = d := by
  simp only [sub64, W64] at *
  omega

/-- Claim C14. Elapsed-timer round trip, for every `Timer` state, every counter
value `hw` and every 64-bit `d`. Assigning `d` to an `elapsedMicros` or an
`elapsedMillis` (`operator=(uint64_t)`) and converting at the same counter
value returns `d`, and so does an object constructed with `(timer, d)`. The
objects have a non-null backend pointer, as every constructor leaves it. -/
theorem elapsed_round_trip (t : Timer) (hw d p : Nat) (eu : elapsedMicros) (em : elapsedMillis)
    (hd : d < W64) (hu : eu.m_timer ≠ none) (hm : em.m_timer ≠ none) :
    (eu.assign t hw d).toU64 t hw = d ∧ (em.assign t hw d).toU64 t hw = d ∧
    (elapsedMicros.ctorVal p t hw d).toU64 t hw = d ∧
    (elapsedMillis.ctorVal p t hw d).toU64 t hw = d := by
  have hu' : eu.m_timer.isSome = true := Option.isSome_iff_ne_none.mpr hu
  have hm' : em.m_timer.isSome = true := Option.isSome_iff_ne_none.mpr hm
  refine ⟨?_, ?_, ?_, ?_⟩
  · simp only [elapsedMicros.assign, elapsedMicros.toU64, hu', if_true]
    exact sub64_sub64_self _ _ hd
  · simp only [elapsedMillis.assign, elapsedMillis.toU64, hm', if_true]
    exact sub64_sub64_self _ _ hd
  · simp only [elapsedMicros.ctorVal, elapsedMicros.toU64, Option.isSome_some, if_true]
    exact sub64_sub64_self _ _ hd
  · simp only [elapsedMillis.ctorVal, elapsedMillis.toU64, Option.isSome_some, if_true]
    exact sub64_sub64_self _ _ hd

/-- Claim C14, at a concrete timer: the 32-bit timer of `main`, objects built
at counter value 4000000000, assigned 12345 and read at 3000000000. -/
theorem elapsed_round_trip_witness :
    ((12345 : Nat) < W64 ∧ (elapsedMicros.ctor 1 sampleTimer32 4000000000).m_timer ≠ none ∧
      (elapsedMillis.ctor 1 sampleTimer32 4000000000).m_timer ≠ none) ∧
    (((elapsedMicros.ctor 1 sampleTimer32 4000000000).assign sampleTimer32 3000000000
        12345).toU64 sampleTimer32 3000000000 = 12345 ∧
      ((elapsedMillis.ctor 1 sampleTimer32 4000000000).assign sampleTimer32 3000000000
        12345).toU64 sampleTimer32 3000000000 = 12345 ∧
      (elapsedMicros.ctorVal 1 sampleTimer32 3000000000 12345).toU64 sampleTimer32 3000000000
        = 12345 ∧
      (elapsedMillis.ctorVal 1 sampleTimer32 3000000000 12345).toU64 sampleTimer32 3000000000
        = 12345) :=
  ⟨by decide,
    elapsed_round_trip sampleTimer32 3000000000 12345 1
      (elapsedMicros.ctor 1 sampleTimer32 4000000000)
      (elapsedMillis.ctor 1 sampleTimer32 4000000000) (by decide) (by decide) (by decide)⟩

/-- Claim C16. For a `Timer` whose base is 0 (no `begin()`), `micros()` and
`millis()` return 0 whatever the counter value, and an `elapsedMicros`,
`elapsedMillis` or `elapsedSeconds` constructed on it converts to 0, at the
counter value of its construction and at any other. -/
theorem uninitialized_reads_zero (t : Timer) (hw hw2 p : Nat) (h : t.m_base = 0) :
    t.micros hw = 0 ∧ t.millis hw = 0 ∧
    (elapsedMicros.ctor p t hw).toU64 t hw2 = 0 ∧
    (elapsedMillis.ctor p t hw).toU64 t hw2 = 0 ∧
    (elapsedSeconds.ctor p t hw).toU64 t hw2 = 0 := by
  have h1 : ∀ x, t.micros x = 0 := fun x => by simp [Timer.micros, h]
  have h2 : ∀ x, t.millis x = 0 := fun x => by simp [Timer.millis, h1]
  simp [elapsedMicros.ctor, elapsedMicros.toU64, elapsedMillis.ctor, elapsedMillis.toU64,
    elapsedSeconds.ctor, elapsedSeconds.toU64, h1, h2, sub64, W64]

/-- Claim C16, at the default-constructed `Timer` with counter values 123456
and 99. -/
theorem uninitialized_reads_zero_witness :
    Timer.ctor.m_base = 0 ∧
    (Timer.ctor.micros 123456 = 0 ∧ Timer.ctor.millis 123456 = 0 ∧
      (elapsedMicros.ctor 1 Timer.ctor 123456).toU64 Timer.ctor 99 = 0 ∧
      (elapsedMillis.ctor 1 Timer.ctor 123456).toU64 Timer.ctor 99 = 0 ∧
      (elapsedSeconds.ctor 1 Timer.ctor 123456).toU64 Timer.ctor 99 = 0) :=
  ⟨rfl, uninitialized_reads_zero Timer.ctor 123456 99 1 rfl⟩

/-- Claim C15, evaluated on the code. The 32-bit timer of `main` (start value
`0xFFFFFFFF`, 120 ticks per microsecond). An `elapsedMicros` is constructed
when the down-counter reads 5 and converted when it reads `0xFFFFFFF0`, 21
ticks later, the counter having passed 0 and reloaded in between. `micros()`
has dropped from 35791394 to 0, and the 64-bit difference is
`2^64 - 35791394`, far above `2^32 / 120`. An `elapsedMillis` gives
`2^64 - 35791` in the same way. -/
theorem elapsed_across_counter_wrap :
    (sampleTimer32.m_base ≠ 0 ∧ sampleTimer32.m_isWide = false ∧
      sampleTimer32.m_start32 = 4294967295 ∧ sampleTimer32.m_ticksPerUs = 120) ∧
    sub32 5 4294967280 = 21 ∧
    sampleTimer32.micros 5 = 35791394 ∧ sampleTimer32.micros 4294967280 = 0 ∧
    (elapsedMicros.ctor 1 sampleTimer32 5).toU64 sampleTimer32 4294967280
      = 18446744073673760222 ∧
    W32 / 120 < (elapsedMicros.ctor 1 sampleTimer32 5).toU64 sampleTimer32 4294967280 ∧
    (elapsedMillis.ctor 1 sampleTimer32 5).toU64 sampleTimer32 4294967280
      = 18446744073709515825 := by
  decide

/-! ### Microseconds on a 32-bit timer (C33) -/

theorem sub32_sub32 (s e : Nat) (he : e < W32) : sub32 s (sub32 s e) = e := by
  simp only [sub32, W32] at *
  omega

/-- Claim C33. On a 32-bit timer with start snapshot `m_start32` and
`m_ticksPerUs` ticks per microsecond, at down-counter value `c`: `micros()` is
`((m_start32 - c) mod 2^32) / m_ticksPerUs` when the base is set and
`m_ticksPerUs ≥ 1`; it is 0 when the base is 0 or `m_ticksPerUs` is 0;
`millis()` is `micros() / 1000`. A `begin()` that fails on a fresh timer
returns false and leaves `m_ticksPerUs` at 0 and `micros()` at 0. For elapsed
tick counts `e1 ≤ e2 < 2^32` since the snapshot, `micros()` after `e1` ticks is
at most `micros()` after `e2` ticks. -/
theorem micros_32bit (t : Timer) (c e1 e2 sysclkHz timerBase hw : Nat)
    (hw32 : t.m_isWide = false) :
    (t.m_base ≠ 0 → 1 ≤ t.m_ticksPerUs →
      t.micros c = sub32 t.m_start32 c / t.m_ticksPerUs) ∧
    (t.m_base = 0 ∨ t.m_ticksPerUs = 0 → t.micros c = 0) ∧
    t.millis c = t.micros c / 1000 ∧
    ((Timer.ctor.begin sysclkHz timerBase false false hw).2 = false ∧
      (Timer.ctor.begin sysclkHz timerBase false false hw).1.m_ticksPerUs = 0 ∧
      (Timer.ctor.begin sysclkHz timerBase false false hw).1.micros c = 0) ∧
    (e1 ≤ e2 → e2 < W32 →
      t.micros (sub32 t.m_start32 e1) ≤ t.micros (sub32 t.m_start32 e2)) := by
  have hm : ∀ x, t.micros x =
      if t.m_base = 0 then 0
      else if t.m_ticksPerUs ≠ 0 then sub32 t.m_start32 x / t.m_ticksPerUs else 0 := by
    intro x
    unfold Timer.micros
    rw [hw32]
    have : sub32 t.m_start32 (x % W32) = sub32 t.m_start32 x := by
      simp only [sub32, W32]; omega
    simp [this]
  refine ⟨?_, ?_, rfl, ?_, ?_⟩
  · intro hb hk
    rw [hm, if_neg hb, if_pos (by omega)]
  · intro h
    rw [hm]
    rcases h with h | h
    · rw [if_pos h]
    · split_ifs <;> first | rfl | omega
  · refine ⟨rfl, rfl, ?_⟩
    unfold Timer.begin Timer.micros
    simp [Timer.ctor]
  · intro h12 h2
    rw [hm, hm]
    by_cases hb : t.m_base = 0
    · simp [hb]
    · rw [if_neg hb, if_neg hb]
      by_cases hk : t.m_ticksPerUs ≠ 0
      · rw [if_pos hk, if_pos hk, sub32_sub32 _ _ h2, sub32_sub32 _ _ (by omega)]
        exact Nat.div_le_div_right h12
      · rw [if_neg hk, if_neg hk]

/-- Claim C33, at the 32-bit timer `sampleTimer32` (120 ticks per microsecond,
start snapshot `2^32 - 1`): with the counter 240 ticks below the snapshot
`micros()` is 2, and it does not decrease from 100 to 500 elapsed ticks. -/
theorem micros_32bit_witness :
    sampleTimer32.m_isWide = false ∧
    sampleTimer32.micros 4294967055 =
      sub32 sampleTimer32.m_start32 4294967055 / sampleTimer32.m_ticksPerUs ∧
    sub32 sampleTimer32.m_start32 4294967055 / sampleTimer32.m_ticksPerUs = 2 ∧
    sampleTimer32.micros (sub32 sampleTimer32.m_start32 100) ≤
      sampleTimer32.micros (sub32 sampleTimer32.m_start32 500) :=
  ⟨by decide,
    (micros_32bit sampleTimer32 4294967055 100 500 120000000 1073938432 0 (by decide)).1
      (by decide) (by decide),
    by decide,
    (micros_32bit sampleTimer32 4294967055 100 500 120000000 1073938432 0 (by decide)).2.2.2.2
      (by decide) (by decide)⟩

end Tmr

namespace Joy
open Btn

/-! ### Dual dispatch (C13) -/

theorem emit_eq (j : Joystick) (k : JEvent) :
    j.emit k = match j.structured k with
      | some fn => [JCall.events fn]
      | none => jcallPlain (j.legacyPlain k) ++ jcallParam (j.legacyParam k).1 (j.legacyParam k).2 := by
  cases k <;> rfl

/-- Claim C13. Joystick dual dispatch, for every joystick state and each of the
six event kinds. With a handler in the `Events` slot the emit helper invokes
that handler and nothing else. With the slot empty it invokes the legacy
handlers, no-argument then context-argument. A registered legacy handler is
invoked if and only if the `Events` slot is empty, and one emit never invokes
both an `Events` handler and a legacy one. -/
theorem dual_dispatch (j : Joystick) (k : JEvent) :
    (∀ fn, j.structured k = some fn → j.emit k = [JCall.events fn]) ∧
    (j.structured k = none →
      j.emit k = jcallPlain (j.legacyPlain k) ++
        jcallParam (j.legacyParam k).1 (j.legacyParam k).2) ∧
    (∀ fn, j.legacyPlain k = some fn →
      (JCall.plain fn ∈ j.emit k ↔ j.structured k = none)) ∧
    (∀ fn, (j.legacyParam k).1 = some fn →
      (JCall.param fn (j.legacyParam k).2 ∈ j.emit k ↔ j.structured k = none)) ∧
    ¬ (∃ c1 ∈ j.emit k, ∃ c2 ∈ j.emit k, c1.isLegacy = false ∧ c2.isLegacy = true) := by
  rw [emit_eq]
  cases hs : j.structured k with
  | some f =>
    refine ⟨by simp, by simp, by simp, by simp, ?_⟩
    simp [JCall.isLegacy]
  | none =>
    refine ⟨by simp, by simp, ?_, ?_, ?_⟩
    · intro fn h; simp [h, jcallPlain]
    · intro fn h; simp [h, jcallParam]
    · cases j.legacyPlain k <;> cases (j.legacyParam k).1 <;>
        simp [jcallPlain, jcallParam, JCall.isLegacy]

/-- Claim C13, at a concrete registration: the default joystick with
`attachMove(f6)` and then `onMove(f5)`. The move event invokes `f5(*this)`
only; the legacy handler `f6` is not invoked. -/
theorem dual_dispatch_witness :
    ((sampleStick.attachMove (some 6)).onMove (some 5)).structured JEvent.move = some 5 ∧
    ((sampleStick.attachMove (some 6)).onMove (some 5)).legacyPlain JEvent.move = some 6 ∧
    ((sampleStick.attachMove (some 6)).onMove (some 5)).emit JEvent.move = [JCall.events 5] ∧
    (sampleStick.attachMove (some 6)).emit JEvent.move = [JCall.plain 6] :=
  ⟨by decide, by decide,
    (dual_dispatch ((sampleStick.attachMove (some 6)).onMove (some 5)) JEvent.move).1 5
      (by decide),
    by decide⟩

/-! ### Calibration (C17, C18) -/

theorem sanitizeRanges_eq (j : Joystick) :
    j.sanitizeRanges = j.orderX.orderY.recenterX.recenterY := rfl

theorem orderX_fields (j : Joystick) :
    j.orderX._minX = min j._minX j._maxX ∧ j.orderX._maxX = max j._minX j._maxX ∧
    j.orderX._centerX = j._centerX ∧ j.orderX._minY = j._minY ∧
    j.orderX._centerY = j._centerY ∧ j.orderX._maxY = j._maxY := by
  unfold Joystick.orderX
  split_ifs with h
  · refine ⟨?_, ?_, rfl, rfl, rfl, rfl⟩
    · show j._maxX = min j._minX j._maxX
      omega
    · show j._minX = max j._minX j._maxX
      omega
  · refine ⟨?_, ?_, rfl, rfl, rfl, rfl⟩
    · omega
    · omega

theorem orderY_fields (j : Joystick) :
    j.orderY._minY = min j._minY j._maxY ∧ j.orderY._maxY = max j._minY j._maxY ∧
    j.orderY._centerY = j._centerY ∧ j.orderY._minX = j._minX ∧
    j.orderY._centerX = j._centerX ∧ j.orderY._maxX = j._maxX := by
  unfold Joystick.orderY
  split_ifs with h
  · refine ⟨?_, ?_, rfl, rfl, rfl, rfl⟩
    · show j._maxY = min j._minY j._maxY
      omega
    · show j._minY = max j._minY j._maxY
      omega
  · refine ⟨?_, ?_, rfl, rfl, rfl, rfl⟩
    · omega
    · omega

theorem recenterX_fields (j : Joystick) :
    j.recenterX._minX = j._minX ∧ j.recenterX._maxX = j._maxX ∧
    j.recenterX._centerX =
      (if j._minX ≤ j._centerX ∧ j._centerX ≤ j._maxX then j._centerX
       else ((j._minX + j._maxX) / 2) % W16) ∧
    j.recenterX._minY = j._minY ∧ j.recenterX._centerY = j._centerY ∧
    j.recenterX._maxY = j._maxY := by
  unfold Joystick.recenterX
  split_ifs with h
  · exact ⟨rfl, rfl, rfl, rfl, rfl, rfl⟩
  · exact ⟨rfl, rfl, rfl, rfl, rfl, rfl⟩

theorem recenterY_fields (j : Joystick) :
    j.recenterY._minY = j._minY ∧ j.recenterY._maxY = j._maxY ∧
    j.recenterY._centerY =
      (if j._minY ≤ j._centerY ∧ j._centerY ≤ j._maxY then j._centerY
       else ((j._minY + j._maxY) / 2) % W16) ∧
    j.recenterY._minX = j._minX ∧ j.recenterY._centerX = j._centerX ∧
    j.recenterY._maxX = j._maxX := by
  unfold Joystick.recenterY
  split_ifs with h
  · exact ⟨rfl, rfl, rfl, rfl, rfl, rfl⟩
  · exact ⟨rfl, rfl, rfl, rfl, rfl, rfl⟩

/-- What `sanitizeRanges` leaves in the six calibration members. -/
theorem sanitizeRanges_fields (j : Joystick) :
    (j.sanitizeRanges._minX = min j._minX j._maxX ∧
      j.sanitizeRanges._maxX = max j._minX j._maxX ∧
      j.sanitizeRanges._centerX =
        if min j._minX j._maxX ≤ j._centerX ∧ j._centerX ≤ max j._minX j._maxX
        then j._centerX else ((min j._minX j._maxX + max j._minX j._maxX) / 2) % W16) ∧
    (j.sanitizeRanges._minY = min j._minY j._maxY ∧
      j.sanitizeRanges._maxY = max j._minY j._maxY ∧
      j.sanitizeRanges._centerY =
        if min j._minY j._maxY ≤ j._centerY ∧ j._centerY ≤ max j._minY j._maxY
        then j._centerY else ((min j._minY j._maxY + max j._minY j._maxY) / 2) % W16) := by
  rw [sanitizeRanges_eq]
  obtain ⟨a1, a2, a3, a4, a5, a6⟩ := orderX_fields j
  obtain ⟨b1, b2, b3, b4, b5, b6⟩ := orderY_fields j.orderX
  obtain ⟨c1, c2, c3, c4, c5, c6⟩ := recenterX_fields j.orderX.orderY
  obtain ⟨d1, d2, d3, d4, d5, d6⟩ := recenterY_fields j.orderX.orderY.recenterX
  refine ⟨⟨?_, ?_, ?_⟩, ⟨?_, ?_, ?_⟩⟩
  · rw [d4, c1, b4, a1]
  · rw [d6, c2, b6, a2]
  · rw [d5, c3, b4, b5, b6, a1, a2, a3]
  · rw [d1, c4, b1, a4, a6]
  · rw [d2, c6, b2, a4, a6]
  · rw [d3, c4, c5, c6, b1, b2, b3, a4, a5, a6]

/-- Claim C17. For 16-bit `min` and `max` and any `center`, `setRangeX` stores
the smaller of `min`, `max` as `_minX` and the larger as `_maxX`; it stores
`center` if it lies between them and otherwise `floor((min' + max') / 2)`,
which needs no reduction modulo `2^16`. A triple with `min ≤ center ≤ max` is
stored unchanged. The same holds for `setRangeY`. -/
theorem setRange_sanitizes (j : Joystick) (mn center mx : Nat)
    (h1 : mn < W16) (h3 : mx < W16) :
    ((j.setRangeX mn center mx)._minX = min mn mx ∧
      (j.setRangeX mn center mx)._maxX = max mn mx ∧
      (j.setRangeX mn center mx)._centerX =
        (if min mn mx ≤ center ∧ center ≤ max mn mx then center
         else (min mn mx + max mn mx) / 2) ∧
      (mn ≤ center → center ≤ mx →
        (j.setRangeX mn center mx)._minX = mn ∧ (j.setRangeX mn center mx)._centerX = center ∧
        (j.setRangeX mn center mx)._maxX = mx)) ∧
    ((j.setRangeY mn center mx)._minY = min mn mx ∧
      (j.setRangeY mn center mx)._maxY = max mn mx ∧
      (j.setRangeY mn center mx)._centerY =
        (if min mn mx ≤ center ∧ center ≤ max mn mx then center
         else (min mn mx + max mn mx) / 2) ∧
      (mn ≤ center → center ≤ mx →
        (j.setRangeY mn center mx)._minY = mn ∧ (j.setRangeY mn center mx)._centerY = center ∧
        (j.setRangeY mn center mx)._maxY = mx)) := by
  have hmod : ((min mn mx + max mn mx) / 2) % W16 = (min mn mx + max mn mx) / 2 := by
    apply Nat.mod_eq_of_lt
    simp only [W16] at *
    omega
  constructor
  · obtain ⟨⟨a1, a2, a3⟩, _⟩ :=
      sanitizeRanges_fields { j with _minX := mn, _centerX := center, _maxX := mx }
    simp only at a1 a2 a3
    rw [hmod] at a3
    have e1 : (j.setRangeX mn center mx)._minX = min mn mx := a1
    have e2 : (j.setRangeX mn center mx)._maxX = max mn mx := a2
    have e3 : (j.setRangeX mn center mx)._centerX = _ := a3
    refine ⟨e1, e2, e3, ?_⟩
    intro hl hr
    rw [e1, e2, e3, if_pos (by omega)]
    omega
  · obtain ⟨_, ⟨a1, a2, a3⟩⟩ :=
      sanitizeRanges_fields { j with _minY := mn, _centerY := center, _maxY := mx }
    simp only at a1 a2 a3
    rw [hmod] at a3
    have e1 : (j.setRangeY mn center mx)._minY = min mn mx := a1
    have e2 : (j.setRangeY mn center mx)._maxY = max mn mx := a2
    have e3 : (j.setRangeY mn center mx)._centerY = _ := a3
    refine ⟨e1, e2, e3, ?_⟩
    intro hl hr
    rw [e1, e2, e3, if_pos (by omega)]
    omega

/-- Claim C17, at the triple `min = 100`, `center = 70`, `max = 50` of the
specification's scenario: stored as 50, 70, 100. -/
theorem setRange_sanitizes_witness :
    ((100 : Nat) < W16 ∧ (50 : Nat) < W16) ∧
    (sampleStick.setRangeX 100 70 50)._minX = 50 ∧
    (sampleStick.setRangeX 100 70 50)._centerX = 70 ∧
    (sampleStick.setRangeX 100 70 50)._maxX = 100 ∧
    (sampleStick.setRangeX 100 70 50)._minX = min 100 50 :=
  ⟨by decide, by decide, by decide, by decide,
    (setRange_sanitizes sampleStick 100 70 50 (by decide) (by decide)).1.1⟩

/-- The method `sanitizeRanges` establishes the calibration invariant on both axes, for
16-bit members. -/
theorem sanitizeRanges_calibrated (j : Joystick)
    (h1 : j._minX < W16) (h2 : j._maxX < W16) (h3 : j._minY < W16) (h4 : j._maxY < W16) :
    j.sanitizeRanges.calibrated := by
  obtain ⟨⟨a1, a2, a3⟩, ⟨b1, b2, b3⟩⟩ := sanitizeRanges_fields j
  unfold Joystick.calibrated
  rw [a1, a2, a3, b1, b2, b3]
  simp only [W16] at *
  constructor
  · split_ifs with h
    · exact h
    · rw [Nat.mod_eq_of_lt (by omega)]; omega
  · split_ifs with h
    · exact h
    · rw [Nat.mod_eq_of_lt (by omega)]; omega

/-- Claim C18, evaluated on the code. The joystick of the constructor defaults
satisfies the invariant, and so does it after `setRangeX(0, 100, 200)`. Then
`calibrateCenter(1)` with the sampled pair `(4095, 2048)` stores
`_centerX = 4095` next to `_maxX = 200`: it assigns the centers without
calling `sanitizeRanges`. -/
theorem calibrateCenter_breaks_invariant :
    sampleStick.calibrated ∧
    (sampleStick.setRangeX 0 100 200).calibrated ∧
    ((sampleStick.setRangeX 0 100 200).calibrateCenter 1 (fun _ => (4095, 2048))).map
      (fun j => (j._minX, j._centerX, j._maxX)) = some (0, 4095, 200) ∧
    ((sampleStick.setRangeX 0 100 200).calibrateCenter 1 (fun _ => (4095, 2048))).map
      (fun j => decide j.calibrated) = some false := by
  refine ⟨by decide, by decide, by decide, by decide⟩

/-! ### Binary32 rounding -/

theorem log2Aux_spec (fuel n : Nat) (h0 : n ≠ 0) (hf : n ≤ fuel) :
    2 ^ log2Aux fuel n ≤ n ∧ n < 2 ^ (log2Aux fuel n + 1) := by
  induction fuel generalizing n with
  | zero => omega
  | succ f ih =>
    unfold log2Aux
    by_cases h : n < 2
    · rw [if_pos h]
      have : n = 1 := by omega
      subst this
      simp
    · rw [if_neg h]
      obtain ⟨a, b⟩ := ih (n / 2) (by omega) (by omega)
      constructor
      · rw [pow_succ]
        omega
      · rw [pow_succ]
        omega

theorem ilog2_spec (n : Nat) (h0 : n ≠ 0) : 2 ^ ilog2 n ≤ n ∧ n < 2 ^ (ilog2 n + 1) :=
  log2Aux_spec n n h0 (le_refl n)

theorem expo_spec (q : ℚ) (hq : q ≠ 0) :
    (2 : ℚ) ^ expo q ≤ |q| ∧ |q| < (2 : ℚ) ^ (expo q + 1) := by
  have hn : q.num.natAbs ≠ 0 := by
    rw [Ne, Int.natAbs_eq_zero, Rat.num_eq_zero]
    exact hq
  have hd : q.den ≠ 0 := q.den_nz
  obtain ⟨a1, a2⟩ := ilog2_spec _ hn
  obtain ⟨b1, b2⟩ := ilog2_spec _ hd
  have habs : |q| = (q.num.natAbs : ℚ) / (q.den : ℚ) := by
    have h1 : ((q.num.natAbs : ℕ) : ℚ) = |(q.num : ℚ)| := by
      rw [Nat.cast_natAbs, Int.cast_abs]
    rw [h1]
    nth_rewrite 1 [← Rat.num_div_den q]
    rw [abs_div, Nat.abs_cast]
  have a1' : ((2 : ℚ) ^ ilog2 q.num.natAbs) ≤ (q.num.natAbs : ℚ) := by exact_mod_cast a1
  have a2' : (q.num.natAbs : ℚ) < (2 : ℚ) ^ (ilog2 q.num.natAbs + 1) := by exact_mod_cast a2
  have b1' : ((2 : ℚ) ^ ilog2 q.den) ≤ (q.den : ℚ) := by exact_mod_cast b1
  have b2' : (q.den : ℚ) < (2 : ℚ) ^ (ilog2 q.den + 1) := by exact_mod_cast b2
  have hdpos : (0 : ℚ) < q.den := by exact_mod_cast Nat.pos_of_ne_zero hd
  have two : (2 : ℚ) ≠ 0 := two_ne_zero
  have hpa : (0 : ℚ) < 2 ^ ilog2 q.num.natAbs := by positivity
  have hpb : (0 : ℚ) < 2 ^ ilog2 q.den := by positivity
  -- bounds of the quotient by the two leading-bit positions
  have hlo : (2 : ℚ) ^ ((ilog2 q.num.natAbs : Int) - (ilog2 q.den : Int) - 1) < |q| := by
    rw [habs, lt_div_iff₀ hdpos, sub_sub, zpow_sub₀ two, zpow_natCast]
    have : (2 : ℚ) ^ ((ilog2 q.den : Int) + 1) = 2 ^ (ilog2 q.den + 1) := by
      rw [← zpow_natCast]
      norm_cast
    rw [this, div_mul_eq_mul_div, div_lt_iff₀ (by positivity)]
    calc (2 : ℚ) ^ ilog2 q.num.natAbs * q.den < 2 ^ ilog2 q.num.natAbs * 2 ^ (ilog2 q.den + 1) :=
          mul_lt_mul_of_pos_left b2' hpa
      _ ≤ q.num.natAbs * 2 ^ (ilog2 q.den + 1) :=
          mul_le_mul_of_nonneg_right a1' (by positivity)
  have hhi : |q| < (2 : ℚ) ^ ((ilog2 q.num.natAbs : Int) - (ilog2 q.den : Int) + 1) := by
    rw [habs, div_lt_iff₀ hdpos, sub_add_eq_add_sub, zpow_sub₀ two, zpow_natCast]
    have : (2 : ℚ) ^ ((ilog2 q.num.natAbs : Int) + 1) = 2 ^ (ilog2 q.num.natAbs + 1) := by
      rw [← zpow_natCast]
      norm_cast
    rw [this, div_mul_eq_mul_div, lt_div_iff₀ hpb]
    calc (q.num.natAbs : ℚ) * 2 ^ ilog2 q.den < 2 ^ (ilog2 q.num.natAbs + 1) * 2 ^ ilog2 q.den :=
          mul_lt_mul_of_pos_right a2' hpb
      _ ≤ 2 ^ (ilog2 q.num.natAbs + 1) * q.den :=
          mul_le_mul_of_nonneg_left b1' (by positivity)
  unfold expo
  simp only
  split_ifs with h
  · exact ⟨h, hhi⟩
  · refine ⟨le_of_lt hlo, ?_⟩
    rw [sub_add_cancel]
    exact not_le.mp h

theorem roundEven_err (m : ℚ) : |(roundEven m : ℚ) - m| ≤ 1 / 2 := by
  have h1 := Int.floor_le m
  have h2 := Int.lt_floor_add_one m
  unfold roundEven
  simp only
  rw [abs_le]
  split_ifs <;> push_cast <;> constructor <;> linarith

theorem roundEven_intCast (n : Int) : roundEven (n : ℚ) = n := by
  unfold roundEven
  simp

theorem roundEven_mono_le (m : ℚ) (n : Int) (h : m ≤ n) : roundEven m ≤ n := by
  have h1 := Int.floor_le m
  have hf : Int.floor m ≤ n := by
    have := Int.floor_mono h
    rwa [Int.floor_intCast] at this
  unfold roundEven
  simp only
  rcases eq_or_lt_of_le hf with he | hl
  · have : m - (Int.floor m : ℚ) = 0 := by
      have : (n : ℚ) ≤ m := by rw [← he]; exact h1
      rw [he]
      linarith
    rw [this]
    norm_num
    exact hf
  · split_ifs <;> omega

theorem roundEven_mono_ge (m : ℚ) (n : Int) (h : (n : ℚ) ≤ m) : n ≤ roundEven m := by
  have hf : n ≤ Int.floor m := Int.le_floor.mpr h
  unfold roundEven
  simp only
  split_ifs <;> omega

theorem f32_zero : f32 0 = 0 := by
  unfold f32
  rw [if_pos rfl]

/-- The rounding error is at most half a unit in the last place, and so at
most `2 ^ (-24)` of the magnitude. -/
theorem f32_err (q : ℚ) : |f32 q - q| ≤ |q| / 2 ^ 24 := by
  by_cases hq : q = 0
  · rw [hq, f32_zero]
    norm_num
  · obtain ⟨h1, _⟩ := expo_spec q hq
    unfold f32
    rw [if_neg hq]
    simp only
    have hu : (0 : ℚ) < 2 ^ (expo q - 23) := by positivity
    have hr := roundEven_err (q / 2 ^ (expo q - 23))
    have e1 : (roundEven (q / 2 ^ (expo q - 23)) : ℚ) * 2 ^ (expo q - 23) - q =
        ((roundEven (q / 2 ^ (expo q - 23)) : ℚ) - q / 2 ^ (expo q - 23)) * 2 ^ (expo q - 23) := by
      field_simp
    rw [e1, abs_mul, abs_of_pos hu]
    have e2 : (2 : ℚ) ^ (expo q - 23) = 2 ^ expo q / 2 ^ 23 := by
      rw [zpow_sub₀ two_ne_zero]
      norm_cast
    calc |(roundEven (q / 2 ^ (expo q - 23)) : ℚ) - q / 2 ^ (expo q - 23)| * 2 ^ (expo q - 23)
        ≤ 1 / 2 * 2 ^ (expo q - 23) := mul_le_mul_of_nonneg_right hr (le_of_lt hu)
      _ = 2 ^ expo q / 2 ^ 24 := by rw [e2]; ring
      _ ≤ |q| / 2 ^ 24 := div_le_div_of_nonneg_right h1 (by positivity)

theorem f32_nonneg (q : ℚ) (h : 0 ≤ q) : 0 ≤ f32 q := by
  unfold f32
  split_ifs with hq
  · exact le_refl _
  · simp only
    have hu : (0 : ℚ) < 2 ^ (expo q - 23) := by positivity
    have : (0 : Int) ≤ roundEven (q / 2 ^ (expo q - 23)) :=
      roundEven_mono_ge _ 0 (by push_cast; exact div_nonneg h (le_of_lt hu))
    have : (0 : ℚ) ≤ (roundEven (q / 2 ^ (expo q - 23)) : ℚ) := by exact_mod_cast this
    exact mul_nonneg this (le_of_lt hu)

/-- Rounding does not cross a power of two. -/
theorem f32_le_two_zpow (q : ℚ) (k : Int) (h0 : 0 ≤ q) (h : q ≤ 2 ^ k) : f32 q ≤ 2 ^ k := by
  by_cases hq : q = 0
  · rw [hq, f32_zero]
    positivity
  · obtain ⟨h1, _⟩ := expo_spec q hq
    rw [abs_of_nonneg h0] at h1
    have hek : expo q ≤ k := by
      have := le_trans h1 h
      exact (zpow_le_zpow_iff_right₀ (by norm_num : (1 : ℚ) < 2)).mp this
    unfold f32
    rw [if_neg hq]
    simp only
    have hu : (0 : ℚ) < 2 ^ (expo q - 23) := by positivity
    obtain ⟨n, hn⟩ : ∃ n : Nat, k - (expo q - 23) = n := ⟨(k - (expo q - 23)).toNat, by omega⟩
    have hk : (2 : ℚ) ^ k = ((2 ^ n : Int) : ℚ) * 2 ^ (expo q - 23) := by
      have : k = (n : Int) + (expo q - 23) := by omega
      rw [this, zpow_add₀ two_ne_zero]
      norm_cast
    have hm : q / 2 ^ (expo q - 23) ≤ ((2 ^ n : Int) : ℚ) := by
      rw [div_le_iff₀ hu, ← hk]
      exact h
    have := roundEven_mono_le _ _ hm
    have : (roundEven (q / 2 ^ (expo q - 23)) : ℚ) ≤ ((2 ^ n : Int) : ℚ) := by exact_mod_cast this
    rw [hk]
    exact mul_le_mul_of_nonneg_right this (le_of_lt hu)

theorem expo_eq_of (q : ℚ) (e : Int) (h1 : (2 : ℚ) ^ e ≤ |q|) (h2 : |q| < (2 : ℚ) ^ (e + 1)) :
    expo q = e := by
  have hq : q ≠ 0 := by
    intro h
    rw [h, abs_zero] at h1
    have : (0 : ℚ) < 2 ^ e := by positivity
    linarith
  obtain ⟨a1, a2⟩ := expo_spec q hq
  have l1 : e < expo q + 1 :=
    (zpow_lt_zpow_iff_right₀ (by norm_num : (1 : ℚ) < 2)).mp (lt_of_le_of_lt h1 a2)
  have l2 : expo q < e + 1 :=
    (zpow_lt_zpow_iff_right₀ (by norm_num : (1 : ℚ) < 2)).mp (lt_of_le_of_lt a1 h2)
  omega

theorem roundEven_eq_of (m : ℚ) (n : Int) (h : |m - n| < 1 / 2) : roundEven m = n := by
  rw [abs_lt] at h
  obtain ⟨h1, h2⟩ := h
  by_cases hn : (n : ℚ) ≤ m
  · have hf : Int.floor m = n := by
      rw [Int.floor_eq_iff]
      constructor <;> linarith
    unfold roundEven
    simp only
    rw [hf, if_pos (by linarith)]
  · have hf : Int.floor m = n - 1 := by
      rw [Int.floor_eq_iff]
      push_cast
      constructor <;> linarith
    unfold roundEven
    simp only
    rw [hf, if_neg (by push_cast; linarith), if_pos (by push_cast; linarith)]
    ring

/-- The value of `f32`, from the binade of the argument and the nearest
multiple of the unit in the last place. -/
theorem f32_eq_of (q : ℚ) (e n : Int) (h1 : (2 : ℚ) ^ e ≤ |q|) (h2 : |q| < (2 : ℚ) ^ (e + 1))
    (h3 : |q / 2 ^ (e - 23) - n| < 1 / 2) : f32 q = n * 2 ^ (e - 23) := by
  have hq : q ≠ 0 := by
    intro h
    rw [h, abs_zero] at h1
    have : (0 : ℚ) < 2 ^ e := by positivity
    linarith
  unfold f32
  rw [if_neg hq]
  simp only
  rw [expo_eq_of q e h1 h2, roundEven_eq_of _ n h3]

theorem expo_neg (q : ℚ) : expo (-q) = expo q := by
  unfold expo
  simp only [Rat.neg_num, Rat.neg_den, Int.natAbs_neg, abs_neg]

theorem roundEven_neg (m : ℚ) : roundEven (-m) = -roundEven m := by
  have h1 := Int.floor_le m
  have h2 := Int.lt_floor_add_one m
  by_cases hd : m - (Int.floor m : ℚ) = 1 / 2
  · have hf : Int.floor (-m) = -Int.floor m - 1 := by
      rw [Int.floor_eq_iff]
      push_cast
      constructor <;> linarith
    have hd2 : -m - ((-Int.floor m - 1 : Int) : ℚ) = 1 / 2 := by
      push_cast
      linarith
    unfold roundEven
    simp only
    rw [hf, hd2, hd]
    simp only [lt_irrefl, if_false]
    split_ifs <;> omega
  · have hlt : |m - (roundEven m : ℚ)| < 1 / 2 := by
      unfold roundEven
      simp only
      rw [abs_lt]
      split_ifs with a b
      · constructor <;> linarith
      · push_cast
        constructor <;> linarith
      · exact absurd (le_antisymm (not_lt.mp b) (not_lt.mp a)) hd
      · exact absurd (le_antisymm (not_lt.mp b) (not_lt.mp a)) hd
    apply roundEven_eq_of
    push_cast
    rw [abs_lt] at hlt ⊢
    constructor <;> linarith

/-- Rounding is symmetric about 0. -/
theorem f32_neg (q : ℚ) : f32 (-q) = -f32 q := by
  unfold f32
  by_cases hq : q = 0
  · simp [hq]
  · rw [if_neg hq, if_neg (neg_ne_zero.mpr hq)]
    simp only
    rw [expo_neg, neg_div, roundEven_neg]
    push_cast
    ring

/-- The value of `f32` at a positive argument, without absolute values. -/
theorem f32_eq_of_pos (q : ℚ) (e n : Int) (h1 : (2 : ℚ) ^ e ≤ q) (h2 : q < (2 : ℚ) ^ (e + 1))
    (h3 : (n : ℚ) - 1 / 2 < q / 2 ^ (e - 23)) (h4 : q / 2 ^ (e - 23) < (n : ℚ) + 1 / 2) :
    f32 q = n * 2 ^ (e - 23) := by
  have hq : 0 < q := lt_of_lt_of_le (by positivity) h1
  apply f32_eq_of
  · rw [abs_of_pos hq]; exact h1
  · rw [abs_of_pos hq]; exact h2
  · rw [abs_lt]; constructor <;> linarith

/-- Rounding keeps a value of `[-1, 1]` in `[-1, 1]`. -/
theorem f32_unit_interval (q : ℚ) (h1 : -1 ≤ q) (h2 : q ≤ 1) : -1 ≤ f32 q ∧ f32 q ≤ 1 := by
  rcases le_total 0 q with h | h
  · have a := f32_nonneg q h
    have b := f32_le_two_zpow q 0 h (by simpa using h2)
    rw [zpow_zero] at b
    exact ⟨by linarith, b⟩
  · have a := f32_nonneg (-q) (by linarith)
    have b := f32_le_two_zpow (-q) 0 (by linarith) (by rw [zpow_zero]; linarith)
    rw [zpow_zero] at b
    rw [f32_neg] at a b
    exact ⟨by linarith, by linarith⟩

/-! ### Axis normalization (C19, C20) -/

theorem f32_scenario :
    f32 (1024 / 2047) = 4196353 / 8388608 ∧ f32 (1 / 2) = 1 / 2 ∧
    f32 (619 / 200) = 12981371 / 4194304 ∧ f32 2 = 2 ∧ f32 2047 = 2047 := by
  refine ⟨?_, ?_, ?_, ?_, ?_⟩
  · rw [f32_eq_of_pos (1024 / 2047) (-1) 8392706 (by norm_num) (by norm_num) (by norm_num)
      (by norm_num)]
    norm_num
  · rw [f32_eq_of_pos (1 / 2) (-1) 8388608 (by norm_num) (by norm_num) (by norm_num)
      (by norm_num)]
    norm_num
  · rw [f32_eq_of_pos (619 / 200) 1 12981371 (by norm_num) (by norm_num) (by norm_num)
      (by norm_num)]
    norm_num
  · rw [f32_eq_of_pos 2 1 8388608 (by norm_num) (by norm_num) (by norm_num) (by norm_num)]
    norm_num
  · rw [f32_eq_of_pos 2047 10 16769024 (by norm_num) (by norm_num) (by norm_num) (by norm_num)]
    norm_num

theorem normAxis_values :
    normAxis 3072 0 2048 4095 = 4196353 / 8388608 ∧ normAxis 1024 0 2048 4095 = -1 / 2 ∧
    normAxis 4095 0 1000 2000 = 12981371 / 4194304 ∧ normAxis 0 1000 2000 3000 = -2 ∧
    normAxis 4095 2048 2048 2048 = 2047 := by
  obtain ⟨a, b, c, d, e⟩ := f32_scenario
  refine ⟨?_, ?_, ?_, ?_, ?_⟩
  · norm_num [normAxis, W16, a]
  · norm_num [normAxis, W16, b]
  · norm_num [normAxis, W16, c]
  · norm_num [normAxis, W16, d]
  · norm_num [normAxis, W16, e]

/-- The result of `normAxis` is the binary32 rounding of the quotient. -/
theorem normAxis_eq_f32 (raw minV centerV maxV : Nat) :
    normAxis raw minV centerV maxV = f32 (normAxisExact raw minV centerV maxV) := by
  unfold normAxis normAxisExact
  by_cases hr : raw ≥ centerV
  · rw [if_pos hr, if_pos hr]
  · rw [if_neg hr, if_neg hr]
    exact (f32_neg _).symm

/-- The quotient before rounding is the value of the specification. -/
theorem normAxisExact_eq_spec (raw minV centerV maxV : Nat)
    (h2 : minV < W16) (h3 : centerV < W16) (h4 : maxV < W16) :
    normAxisExact raw minV centerV maxV = normAxisSpec raw minV centerV maxV := by
  unfold normAxisExact normAxisSpec
  by_cases hr : raw ≥ centerV
  · have hr' : (raw : ℚ) ≥ centerV := by exact_mod_cast hr
    rw [if_pos hr, if_pos hr']
    by_cases hm : maxV > centerV
    · have hm' : (maxV : ℚ) - centerV > 0 := by
        have : (centerV : ℚ) < maxV := by exact_mod_cast hm
        linarith
      simp only [if_pos hm, if_pos hm']
      rw [Nat.mod_eq_of_lt (by simp only [W16] at *; omega), Nat.cast_sub hr,
        Nat.cast_sub (le_of_lt hm)]
    · have hm' : ¬ ((maxV : ℚ) - centerV > 0) := by
        have : (maxV : ℚ) ≤ centerV := by exact_mod_cast (not_lt.mp hm)
        linarith
      simp only [if_neg hm, if_neg hm']
      rw [Nat.cast_sub hr]
      simp
  · have hr' : ¬ ((raw : ℚ) ≥ centerV) := by
      intro h; exact hr (by exact_mod_cast h)
    rw [if_neg hr, if_neg hr']
    have hle : raw ≤ centerV := le_of_lt (not_le.mp hr)
    by_cases hm : centerV > minV
    · have hm' : (centerV : ℚ) - minV > 0 := by
        have : (minV : ℚ) < centerV := by exact_mod_cast hm
        linarith
      simp only [if_pos hm, if_pos hm']
      rw [Nat.mod_eq_of_lt (by simp only [W16] at *; omega), Nat.cast_sub hle,
        Nat.cast_sub (le_of_lt hm)]
    · have hm' : ¬ ((centerV : ℚ) - minV > 0) := by
        have : (centerV : ℚ) ≤ minV := by exact_mod_cast (not_lt.mp hm)
        linarith
      simp only [if_neg hm, if_neg hm']
      rw [Nat.cast_sub hle]
      simp

/-- Claim C19 as stated fails: the quotient is rounded to binary32. With
`center = 2048`, `min = 0`, `max = 4095` and raw 3072 the specified value is
`1024/2047`, which is not a binary32 number; `normAxis` returns the nearest
one, `4196353 / 2^23`. -/
theorem normAxis_not_exact :
    normAxisSpec 3072 0 2048 4095 = 1024 / 2047 ∧
    normAxis 3072 0 2048 4095 = 4196353 / 8388608 ∧
    normAxis 3072 0 2048 4095 ≠ 1024 / 2047 ∧
    normAxis 3072 0 2048 4095 ≠ normAxisSpec 3072 0 2048 4095 := by
  have hs : normAxisSpec 3072 0 2048 4095 = 1024 / 2047 := by norm_num [normAxisSpec]
  have hv := normAxis_values.1
  refine ⟨hs, hv, ?_, ?_⟩
  · rw [hv]; norm_num
  · rw [hv, hs]; norm_num

/-- Claim C19, amended. For 16-bit calibration values, `normAxis` is the
binary32 rounding (to nearest, ties to even) of the value the specification
describes: `(raw - center) / (max - center)` when `raw ≥ center`, and
`-(center - raw) / (center - min)` otherwise, a span that is not positive
being replaced by 1. It differs from that value by at most `2^-24` of its
magnitude. The span the code divides by is never 0. With `center = 2048`,
`min = 0`, `max = 4095` the result is `4196353 / 2^23` for raw 3072, within
`0.001` of `1/2`, and `-1/2` for raw 1024. -/
theorem normAxis_rounded (raw minV centerV maxV : Nat)
    (h2 : minV < W16) (h3 : centerV < W16) (h4 : maxV < W16) :
    normAxis raw minV centerV maxV = f32 (normAxisSpec raw minV centerV maxV) ∧
    |normAxis raw minV centerV maxV - normAxisSpec raw minV centerV maxV| ≤
      |normAxisSpec raw minV centerV maxV| / 2 ^ 24 ∧
    (if maxV > centerV then (maxV - centerV) % W16 else 1) ≠ 0 ∧
    (if centerV > minV then (centerV - minV) % W16 else 1) ≠ 0 ∧
    normAxis 3072 0 2048 4095 = 4196353 / 8388608 ∧
    |(4196353 / 8388608 : ℚ) - 1 / 2| < 1 / 1000 ∧
    normAxis 1024 0 2048 4095 = -1 / 2 := by
  have e : normAxis raw minV centerV maxV = f32 (normAxisSpec raw minV centerV maxV) := by
    rw [normAxis_eq_f32, normAxisExact_eq_spec raw minV centerV maxV h2 h3 h4]
  refine ⟨e, ?_, ?_, ?_, normAxis_values.1, ?_, normAxis_values.2.1⟩
  · rw [e]
    exact f32_err _
  · split_ifs with h
    · rw [Nat.mod_eq_of_lt (by simp only [W16] at *; omega)]; omega
    · exact one_ne_zero
  · split_ifs with h
    · rw [Nat.mod_eq_of_lt (by simp only [W16] at *; omega)]; omega
    · exact one_ne_zero
  · rw [abs_lt]; constructor <;> norm_num

/-- Claim C19, amended, at the default calibration and raw 3072. -/
theorem normAxis_rounded_witness :
    ((0 : Nat) < W16 ∧ (2048 : Nat) < W16 ∧ (4095 : Nat) < W16) ∧
    normAxis 3072 0 2048 4095 = f32 (normAxisSpec 3072 0 2048 4095) ∧
    normAxisSpec 3072 0 2048 4095 = 1024 / 2047 ∧
    |normAxis 3072 0 2048 4095 - normAxisSpec 3072 0 2048 4095| ≤
      |normAxisSpec 3072 0 2048 4095| / 2 ^ 24 :=
  ⟨by decide,
    by exact_mod_cast (normAxis_rounded 3072 0 2048 4095 (by decide) (by decide) (by decide)).1,
    by norm_num [normAxisSpec],
    by exact_mod_cast (normAxis_rounded 3072 0 2048 4095 (by decide) (by decide) (by decide)).2.1⟩

theorem normAxisExact_bounded_in_range (raw minV centerV maxV : Nat)
    (h1 : minV ≤ centerV) (h2 : centerV ≤ maxV) (h3 : minV ≤ raw) (h4 : raw ≤ maxV)
    (h5 : maxV < W16) :
    -1 ≤ normAxisExact raw minV centerV maxV ∧ normAxisExact raw minV centerV maxV ≤ 1 := by
  unfold normAxisExact
  by_cases hr : raw ≥ centerV
  · rw [if_pos hr]
    by_cases hm : maxV > centerV
    · simp only [if_pos hm]
      rw [Nat.mod_eq_of_lt (by simp only [W16] at *; omega)]
      have hpos : (0 : ℚ) < ((maxV - centerV : Nat) : ℚ) := by
        exact_mod_cast Nat.sub_pos_of_lt hm
      have hle : ((raw - centerV : Nat) : ℚ) ≤ ((maxV - centerV : Nat) : ℚ) := by
        exact_mod_cast Nat.sub_le_sub_right h4 centerV
      have h0 : (0 : ℚ) ≤ ((raw - centerV : Nat) : ℚ) := Nat.cast_nonneg _
      constructor
      · have := div_nonneg h0 (le_of_lt hpos)
        linarith
      · exact (div_le_one hpos).mpr hle
    · simp only [if_neg hm]
      have : raw - centerV = 0 := by omega
      rw [this]
      norm_num
  · rw [if_neg hr]
    have hle' : raw ≤ centerV := le_of_lt (not_le.mp hr)
    have hm : centerV > minV := by omega
    simp only [if_pos hm]
    rw [Nat.mod_eq_of_lt (by simp only [W16] at *; omega)]
    have hpos : (0 : ℚ) < ((centerV - minV : Nat) : ℚ) := by
      exact_mod_cast Nat.sub_pos_of_lt hm
    have hle : ((centerV - raw : Nat) : ℚ) ≤ ((centerV - minV : Nat) : ℚ) := by
      exact_mod_cast Nat.sub_le_sub_left h3 centerV
    have h0 : (0 : ℚ) ≤ ((centerV - raw : Nat) : ℚ) := Nat.cast_nonneg _
    constructor
    · have := (div_le_one hpos).mpr hle
      linarith
    · have := div_nonneg h0 (le_of_lt hpos)
      linarith

/-- Within the calibrated range the normalized sample is in `[-1, 1]`. -/
theorem normAxis_bounded_in_range (raw minV centerV maxV : Nat)
    (h1 : minV ≤ centerV) (h2 : centerV ≤ maxV) (h3 : minV ≤ raw) (h4 : raw ≤ maxV)
    (h5 : maxV < W16) :
    -1 ≤ normAxis raw minV centerV maxV ∧ normAxis raw minV centerV maxV ≤ 1 := by
  obtain ⟨a, b⟩ := normAxisExact_bounded_in_range raw minV centerV maxV h1 h2 h3 h4 h5
  rw [normAxis_eq_f32]
  exact f32_unit_interval _ a b

/-- Claim C20, evaluated on the code. `setRangeX(0, 1000, 2000)` stores the
triple unchanged. For the 12-bit raw sample 4095 `normAxis` gives the binary32
number nearest to `3095/1000`, which is `12981371 / 2^22`, above 1. In the same
way raw 0 with the triple `(1000, 2000, 3000)` gives `-2`, and raw 4095 with
the zero-span triple `(2048, 2048, 2048)` gives 2047. -/
theorem normAxis_exceeds_one :
    ((sampleStick.setRangeX 0 1000 2000)._minX = 0 ∧
      (sampleStick.setRangeX 0 1000 2000)._centerX = 1000 ∧
      (sampleStick.setRangeX 0 1000 2000)._maxX = 2000) ∧
    normAxis 4095 0 1000 2000 = 12981371 / 4194304 ∧ (1 : ℚ) < normAxis 4095 0 1000 2000 ∧
    normAxis 0 1000 2000 3000 = -2 ∧ normAxis 4095 2048 2048 2048 = 2047 := by
  obtain ⟨_, _, c, d, e⟩ := normAxis_values
  refine ⟨by decide, c, ?_, d, e⟩
  rw [c]
  norm_num

/-! ### Radial deadzone (C21) -/

/-- The normalized vector that `filterAndNormalize` stores is `radialDeadzone`
of the filtered vector it stores, the stored deadzone and the value of `sqrtf`
at the squared length of the filtered vector. -/
theorem filterAndNormalize_deadzone (j : Joystick) (sqrtf : ℚ → ℚ) :
    ((j.filterAndNormalize sqrtf)._nx, (j.filterAndNormalize sqrtf)._ny) =
      radialDeadzone (j.filterAndNormalize sqrtf)._fx (j.filterAndNormalize sqrtf)._fy
        (j.filterAndNormalize sqrtf)._deadzone
        (sqrtf ((j.filterAndNormalize sqrtf)._fx * (j.filterAndNormalize sqrtf)._fx +
          (j.filterAndNormalize sqrtf)._fy * (j.filterAndNormalize sqrtf)._fy)) := rfl

theorem radialDeadzone_outside {α : Type*} [LinearOrderedField α] (fx fy d r : α)
    (hd0 : 0 ≤ d) (hd1 : d < 1) (h : d < r) :
    radialDeadzone fx fy d r =
      (fx * (min 1 ((r - d) / (1 - d)) / r), fy * (min 1 ((r - d) / (1 - d)) / r)) ∧
    0 < min 1 ((r - d) / (1 - d)) ∧ min 1 ((r - d) / (1 - d)) ≤ 1 ∧ 0 < r := by
  have hr : 0 < r := lt_of_le_of_lt hd0 h
  have h1 : 0 < 1 - d := by linarith
  have hk : 0 < (r - d) / (1 - d) := div_pos (by linarith) h1
  refine ⟨?_, lt_min one_pos hk, min_le_left _ _, hr⟩
  unfold radialDeadzone
  rw [if_neg (not_le.mpr h)]
  simp only [if_neg (not_lt.mpr (le_of_lt hk)), if_pos hr]
  by_cases h2 : (r - d) / (1 - d) > 1
  · rw [if_pos h2, min_eq_left (le_of_lt h2)]
  · rw [if_neg h2, min_eq_right (not_lt.mp h2)]

/-- The deadzone block over any ordered field, and so over the reals: for
`0 ≤ d < 1` and `r * r = fx * fx + fy * fy` the output is the zero vector if
`r ≤ d`, and otherwise `v * (k / r)` with `k = min 1 ((r - d) / (1 - d))`, of
squared magnitude `k * k`. -/
theorem radialDeadzone_field {α : Type*} [LinearOrderedField α] (fx fy d r : α)
    (hd0 : 0 ≤ d) (hd1 : d < 1) (hr : r * r = fx * fx + fy * fy) :
    (r ≤ d → radialDeadzone fx fy d r = (0, 0)) ∧
    (d < r →
      radialDeadzone fx fy d r =
        (fx * (min 1 ((r - d) / (1 - d)) / r), fy * (min 1 ((r - d) / (1 - d)) / r)) ∧
      0 ≤ min 1 ((r - d) / (1 - d)) / r ∧ 0 ≤ min 1 ((r - d) / (1 - d)) ∧
      (radialDeadzone fx fy d r).1 * (radialDeadzone fx fy d r).1 +
        (radialDeadzone fx fy d r).2 * (radialDeadzone fx fy d r).2 =
        min 1 ((r - d) / (1 - d)) * min 1 ((r - d) / (1 - d))) ∧
    (∃ c : α, 0 ≤ c ∧ radialDeadzone fx fy d r = (c * fx, c * fy)) ∧
    (radialDeadzone fx fy d r).1 * (radialDeadzone fx fy d r).1 +
      (radialDeadzone fx fy d r).2 * (radialDeadzone fx fy d r).2 ≤ 1 := by
  have hzero : r ≤ d → radialDeadzone fx fy d r = (0, 0) := by
    intro h
    unfold radialDeadzone
    rw [if_pos h]
  have hout : d < r →
      radialDeadzone fx fy d r =
        (fx * (min 1 ((r - d) / (1 - d)) / r), fy * (min 1 ((r - d) / (1 - d)) / r)) ∧
      0 ≤ min 1 ((r - d) / (1 - d)) / r ∧ 0 ≤ min 1 ((r - d) / (1 - d)) ∧
      (radialDeadzone fx fy d r).1 * (radialDeadzone fx fy d r).1 +
        (radialDeadzone fx fy d r).2 * (radialDeadzone fx fy d r).2 =
        min 1 ((r - d) / (1 - d)) * min 1 ((r - d) / (1 - d)) := by
    intro h
    obtain ⟨e, k0, _, r0⟩ := radialDeadzone_outside fx fy d r hd0 hd1 h
    refine ⟨e, div_nonneg (le_of_lt k0) (le_of_lt r0), le_of_lt k0, ?_⟩
    rw [e]
    have hne : r ≠ 0 := ne_of_gt r0
    show fx * (min 1 ((r - d) / (1 - d)) / r) * (fx * (min 1 ((r - d) / (1 - d)) / r)) +
      fy * (min 1 ((r - d) / (1 - d)) / r) * (fy * (min 1 ((r - d) / (1 - d)) / r)) = _
    generalize min 1 ((r - d) / (1 - d)) = k
    have : fx * (k / r) * (fx * (k / r)) + fy * (k / r) * (fy * (k / r)) =
        (fx * fx + fy * fy) * (k * k) / (r * r) := by
      field_simp
      ring
    rw [this, ← hr]
    field_simp
  refine ⟨hzero, hout, ?_, ?_⟩
  · rcases le_or_lt r d with h | h
    · exact ⟨0, le_refl _, by rw [hzero h]; simp⟩
    · obtain ⟨e, c0, _, _⟩ := hout h
      exact ⟨_, c0, by rw [e]; simp [mul_comm]⟩
  · rcases le_or_lt r d with h | h
    · rw [hzero h]; simp
    · obtain ⟨_, _, k0, e⟩ := hout h
      rw [e]
      have k1 : min 1 ((r - d) / (1 - d)) ≤ 1 := min_le_left _ _
      nlinarith

/-- Claim C21. Radial deadzone of `filterAndNormalize`, in exact arithmetic. Let
`v = (fx, fy)` be the filtered vector the call stores, `d` the deadzone with
`0 ≤ d < 1`, `r` the value `sqrtf` returns for `fx * fx + fy * fy`, and
`k = min 1 ((r - d) / (1 - d))`; the components of `v` are not bounded. If
`r ≤ d` the stored output is the zero vector. If `d < r` it is `v * (k / r)`,
with `0 ≤ k / r` and `0 ≤ k ≤ 1`. In both cases the output is a non-negative
multiple of `v`. When `r` is the magnitude of `v` (`r * r = fx * fx + fy * fy`)
the squared magnitude of the output is `k * k` for `d < r`, so its magnitude is
`k`, and it is at most 1 in both cases. With smoothing factor 0 the filtered
vector is the one stored before the call, so every vector occurs. -/
theorem radial_deadzone (j : Joystick) (sqrtf : ℚ → ℚ) (fx fy d r k : ℚ)
    (hfx : fx = (j.filterAndNormalize sqrtf)._fx) (hfy : fy = (j.filterAndNormalize sqrtf)._fy)
    (hd : d = j._deadzone) (hr : r = sqrtf (fx * fx + fy * fy))
    (hk : k = min 1 ((r - d) / (1 - d))) (hd0 : 0 ≤ d) (hd1 : d < 1) :
    (r ≤ d → (j.filterAndNormalize sqrtf)._nx = 0 ∧ (j.filterAndNormalize sqrtf)._ny = 0) ∧
    (d < r →
      (j.filterAndNormalize sqrtf)._nx = fx * (k / r) ∧
      (j.filterAndNormalize sqrtf)._ny = fy * (k / r) ∧
      0 ≤ k / r ∧ 0 ≤ k ∧ k ≤ 1 ∧
      (r * r = fx * fx + fy * fy →
        (j.filterAndNormalize sqrtf)._nx * (j.filterAndNormalize sqrtf)._nx +
          (j.filterAndNormalize sqrtf)._ny * (j.filterAndNormalize sqrtf)._ny = k * k)) ∧
    (∃ c : ℚ, 0 ≤ c ∧ (j.filterAndNormalize sqrtf)._nx = c * fx ∧
      (j.filterAndNormalize sqrtf)._ny = c * fy) ∧
    (r * r = fx * fx + fy * fy →
      (j.filterAndNormalize sqrtf)._nx * (j.filterAndNormalize sqrtf)._nx +
        (j.filterAndNormalize sqrtf)._ny * (j.filterAndNormalize sqrtf)._ny ≤ 1) ∧
    (j._alpha = 0 → fx = j._fx ∧ fy = j._fy) := by
  have hdz : (j.filterAndNormalize sqrtf)._deadzone = j._deadzone := rfl
  have link := filterAndNormalize_deadzone j sqrtf
  rw [hdz, ← hfx, ← hfy, ← hd, ← hr] at link
  have l1 : (j.filterAndNormalize sqrtf)._nx = (radialDeadzone fx fy d r).1 :=
    congrArg Prod.fst link
  have l2 : (j.filterAndNormalize sqrtf)._ny = (radialDeadzone fx fy d r).2 :=
    congrArg Prod.snd link
  rw [l1, l2]
  have hzero : r ≤ d → radialDeadzone fx fy d r = (0, 0) := by
    intro h
    unfold radialDeadzone
    rw [if_pos h]
  refine ⟨?_, ?_, ?_, ?_, ?_⟩
  · intro h
    rw [hzero h]
    exact ⟨rfl, rfl⟩
  · intro h
    obtain ⟨e, k0, k1, r0⟩ := radialDeadzone_outside fx fy d r hd0 hd1 h
    rw [← hk] at e k0 k1
    rw [e]
    refine ⟨rfl, rfl, div_nonneg (le_of_lt k0) (le_of_lt r0), le_of_lt k0, k1, ?_⟩
    intro hrr
    have := ((radialDeadzone_field fx fy d r hd0 hd1 hrr).2.1 h).2.2.2
    rw [← hk, e] at this
    exact this
  · rcases le_or_lt r d with h | h
    · rw [hzero h]
      exact ⟨0, le_refl _, by simp, by simp⟩
    · obtain ⟨e, k0, _, r0⟩ := radialDeadzone_outside fx fy d r hd0 hd1 h
      rw [← hk] at e k0
      rw [e]
      exact ⟨k / r, div_nonneg (le_of_lt k0) (le_of_lt r0), mul_comm _ _, mul_comm _ _⟩
  · intro hrr
    exact (radialDeadzone_field fx fy d r hd0 hd1 hrr).2.2.2
  · intro ha
    rw [hfx, hfy]
    unfold Joystick.filterAndNormalize
    simp only [ha]
    constructor <;> ring

/-- Claim C21, at the scenario of the specification: deadzone `0.1` and the
filtered vector `(0.33, 0.44)` of magnitude `0.55`. The output of
`filterAndNormalize` is `(0.3, 0.4)`, of magnitude `0.5`. For the vector
`(0.06, 0.08)` of magnitude `0.1` the output is `(0, 0)`. -/
theorem radial_deadzone_witness :
    ((scenarioStick.filterAndNormalize sqrtfScenario)._fx = 33 / 100 ∧
      (scenarioStick.filterAndNormalize sqrtfScenario)._fy = 11 / 25 ∧
      scenarioStick._deadzone = 1 / 10 ∧
      sqrtfScenario (33 / 100 * (33 / 100) + 11 / 25 * (11 / 25)) = 11 / 20 ∧
      min 1 (((11 / 20 : ℚ) - 1 / 10) / (1 - 1 / 10)) = 1 / 2) ∧
    ((scenarioStick.filterAndNormalize sqrtfScenario)._nx = 33 / 100 * (1 / 2 / (11 / 20)) ∧
      (scenarioStick.filterAndNormalize sqrtfScenario)._ny = 11 / 25 * (1 / 2 / (11 / 20)) ∧
      (scenarioStick.filterAndNormalize sqrtfScenario)._nx *
          (scenarioStick.filterAndNormalize sqrtfScenario)._nx +
        (scenarioStick.filterAndNormalize sqrtfScenario)._ny *
          (scenarioStick.filterAndNormalize sqrtfScenario)._ny = 1 / 2 * (1 / 2)) ∧
    ((33 / 100 : ℚ) * (1 / 2 / (11 / 20)) = 3 / 10 ∧ (11 / 25 : ℚ) * (1 / 2 / (11 / 20)) = 2 / 5) ∧
    ((scenarioStickRim.filterAndNormalize sqrtfScenario)._nx = 0 ∧
      (scenarioStickRim.filterAndNormalize sqrtfScenario)._ny = 0) := by
  have h : (scenarioStick.filterAndNormalize sqrtfScenario)._fx = 33 / 100 ∧
      (scenarioStick.filterAndNormalize sqrtfScenario)._fy = 11 / 25 ∧
      scenarioStick._deadzone = 1 / 10 ∧
      sqrtfScenario (33 / 100 * (33 / 100) + 11 / 25 * (11 / 25)) = 11 / 20 ∧
      min 1 (((11 / 20 : ℚ) - 1 / 10) / (1 - 1 / 10)) = 1 / 2 := by
    with_unfolding_all decide
  have g : (scenarioStickRim.filterAndNormalize sqrtfScenario)._fx = 3 / 50 ∧
      (scenarioStickRim.filterAndNormalize sqrtfScenario)._fy = 2 / 25 ∧
      scenarioStickRim._deadzone = 1 / 10 ∧
      sqrtfScenario (3 / 50 * (3 / 50) + 2 / 25 * (2 / 25)) = 1 / 10 := by
    with_unfolding_all decide
  have t := (radial_deadzone scenarioStick sqrtfScenario (33 / 100) (11 / 25) (1 / 10) (11 / 20)
    (1 / 2) h.1.symm h.2.1.symm h.2.2.1.symm h.2.2.2.1.symm h.2.2.2.2.symm (by norm_num)
    (by norm_num)).2.1 (by norm_num)
  have u := (radial_deadzone scenarioStickRim sqrtfScenario (3 / 50) (2 / 25) (1 / 10) (1 / 10)
    (min 1 (((1 / 10 : ℚ) - 1 / 10) / (1 - 1 / 10))) g.1.symm g.2.1.symm g.2.2.1.symm
    g.2.2.2.symm rfl (by norm_num) (by norm_num)).1 (le_refl _)
  exact ⟨h, ⟨t.1, t.2.1, t.2.2.2.2.2 (by norm_num)⟩, by norm_num, u⟩

/-! ### Octant quantization (C22) -/

theorem octantOf_nat (k : Nat) (hk : k < 8) : octantOf (k : Int) = octants.getD k JoystickDir.Center := by
  interval_cases k <;> rfl

theorem octantOf_ne_center (s : Int) : octantOf (s % 8) ≠ JoystickDir.Center := by
  have h0 : 0 ≤ s % 8 := Int.emod_nonneg _ (by norm_num)
  have h8 : s % 8 < 8 := Int.emod_lt_of_pos _ (by norm_num)
  generalize s % 8 = t at h0 h8
  unfold octantOf
  split_ifs <;> first | omega | simp

/-- The constants of `quantize8` in binary32: `PI` is `PI_F`, and the divisions
by 4 and by 2 are exact. -/
theorem quantize8_constants :
    f32 3.14159265358979323846 = PI_F ∧ f32 (PI_F / 4) = PI_F / 4 ∧
    f32 (PI_F / 4 / 2) = PI_F / 8 := by
  unfold PI_F
  refine ⟨?_, ?_, ?_⟩
  · rw [f32_eq_of_pos 3.14159265358979323846 1 13176795 (by norm_num) (by norm_num)
      (by norm_num) (by norm_num)]
    norm_num
  · rw [f32_eq_of_pos (13176795 / 4194304 / 4) (-1) 13176795 (by norm_num) (by norm_num)
      (by norm_num) (by norm_num)]
    norm_num
  · rw [f32_eq_of_pos (13176795 / 4194304 / 4 / 2) (-2) 13176795 (by norm_num) (by norm_num)
      (by norm_num) (by norm_num)]
    norm_num

/-- The method `quantize8` with its constants evaluated. -/
theorem quantize8_eq (ang : ℚ) :
    quantize8 ang = octantOf (Int.floor (f32 (f32 (ang + PI_F / 8) / (PI_F / 4))) % 8) := by
  obtain ⟨h1, h2, h3⟩ := quantize8_constants
  unfold quantize8 octantOf
  simp only [h1, h2, h3]

theorem quantize8_ne_center (ang : ℚ) : quantize8 ang ≠ JoystickDir.Center := by
  rw [quantize8_eq]
  exact octantOf_ne_center _

/-- The floor that `quantize8` converts to `int`, for an angle whose exact
quotient keeps `6 * 10^-7` away from the integers `j` and `j + 1`. -/
theorem quantize8_floor (θ : ℚ) (j : Int) (hθ : |θ| ≤ 32 / 10)
    (hlo : ((j : ℚ) + 6 / 10 ^ 7) * (PI_F / 4) ≤ θ + PI_F / 8)
    (hhi : θ + PI_F / 8 ≤ ((j : ℚ) + 1 - 6 / 10 ^ 7) * (PI_F / 4)) :
    Int.floor (f32 (f32 (θ + PI_F / 8) / (PI_F / 4))) = j := by
  have e1 := f32_err (θ + PI_F / 8)
  have e2 := f32_err (f32 (θ + PI_F / 8) / (PI_F / 4))
  have hc : f32 (θ + PI_F / 8) / (PI_F / 4) = f32 (θ + PI_F / 8) * (16777216 / 13176795) := by
    unfold PI_F
    rw [div_eq_mul_inv]
    congr 1
    norm_num
  rw [hc] at e2 ⊢
  obtain ⟨t1, t2⟩ := abs_le.mp hθ
  unfold PI_F at e1 e2 hlo hhi ⊢
  generalize f32 (θ + 13176795 / 4194304 / 8) = s at e1 e2 ⊢
  generalize f32 (s * (16777216 / 13176795)) = q at e2 ⊢
  have ha : |θ + 13176795 / 4194304 / 8| ≤ 36 / 10 := by
    rw [abs_le]
    constructor <;> linarith
  have e1' : |s - (θ + 13176795 / 4194304 / 8)| ≤ 36 / 10 / 2 ^ 24 :=
    le_trans e1 (div_le_div_of_nonneg_right ha (by positivity))
  obtain ⟨s1, s2⟩ := abs_le.mp e1'
  have ht : |s * (16777216 / 13176795)| ≤ 46 / 10 := by
    rw [abs_le]
    constructor <;> linarith
  have e2' : |q - s * (16777216 / 13176795)| ≤ 46 / 10 / 2 ^ 24 :=
    le_trans e2 (div_le_div_of_nonneg_right ht (by positivity))
  obtain ⟨q1, q2⟩ := abs_le.mp e2'
  rw [Int.floor_eq_iff]
  constructor <;> linarith

/-- Quantization away from the sector boundaries. For an angle `θ` of magnitude
at most `PI_F`, `k < 8` and a whole number `n` of turns such that `θ + n * 2π`
lies in the `k`-th sector and at least `10^-6` inside it, `quantize8` returns
the `k`-th direction. -/
theorem quantize8_sector (θ : ℚ) (k : Nat) (n : Int) (hk : k < 8) (hθ : |θ| ≤ PI_F)
    (hlo : (k : ℝ) * (Real.pi / 4) - Real.pi / 8 + 1 / 10 ^ 6 ≤ (θ : ℝ) + n * (2 * Real.pi))
    (hhi : (θ : ℝ) + n * (2 * Real.pi) ≤ (k : ℝ) * (Real.pi / 4) + Real.pi / 8 - 1 / 10 ^ 6) :
    quantize8 θ = octants.getD k JoystickDir.Center := by
  have p1 := Real.pi_gt_d20
  have p2 := Real.pi_lt_d20
  obtain ⟨t1, t2⟩ := abs_le.mp hθ
  unfold PI_F at t1 t2
  have t1' : ((-(13176795 / 4194304) : ℚ) : ℝ) ≤ (θ : ℝ) := Rat.cast_le.mpr t1
  have t2' : (θ : ℝ) ≤ ((13176795 / 4194304 : ℚ) : ℝ) := Rat.cast_le.mpr t2
  push_cast at t1' t2'
  obtain ⟨j, hj⟩ : ∃ j : Int, j = (k : Int) - 8 * n := ⟨_, rfl⟩
  have hjr : (j : ℝ) = (k : ℝ) - 8 * (n : ℝ) := by
    rw [hj]
    push_cast
    ring
  have hkr : (k : ℝ) = (j : ℝ) + 8 * (n : ℝ) := by linarith
  rw [hkr] at hlo hhi
  have hlo' : ((j : ℝ) - 1 / 2) * (Real.pi / 4) + 1 / 10 ^ 6 ≤ (θ : ℝ) := by linarith
  have hhi' : (θ : ℝ) ≤ ((j : ℝ) + 1 / 2) * (Real.pi / 4) - 1 / 10 ^ 6 := by linarith
  have hpi : (0 : ℝ) ≤ Real.pi / 4 := by linarith
  have hj4 : j ≤ 4 := by
    by_contra hc
    have h5 : (5 : ℝ) ≤ (j : ℝ) := by exact_mod_cast (by omega : (5 : Int) ≤ j)
    have := mul_le_mul_of_nonneg_right (by linarith : (9 / 2 : ℝ) ≤ (j : ℝ) - 1 / 2) hpi
    linarith
  have hj4' : -4 ≤ j := by
    by_contra hc
    have h5 : (j : ℝ) ≤ -5 := by exact_mod_cast (by omega : j ≤ (-5 : Int))
    have := mul_le_mul_of_nonneg_right (by linarith : (j : ℝ) + 1 / 2 ≤ (-9 / 2 : ℝ)) hpi
    linarith
  have hjlo : (-4 : ℝ) ≤ (j : ℝ) := by exact_mod_cast hj4'
  have hjhi : (j : ℝ) ≤ 4 := by exact_mod_cast hj4
  -- the rounded constant exceeds π by less than 9 * 10^-8
  have hd0 : (0 : ℝ) ≤ 13176795 / 4194304 - Real.pi := by linarith
  have hd1 : (13176795 / 4194304 : ℝ) - Real.pi ≤ 9 / 10 ^ 8 := by linarith
  have m1 := mul_le_mul_of_nonneg_right (by linarith : (j : ℝ) - 1 / 2 ≤ 7 / 2) hd0
  have m2 := mul_le_mul_of_nonneg_right (by linarith : -((j : ℝ) + 1 / 2) ≤ 7 / 2) hd0
  have hfl : Int.floor (f32 (f32 (θ + PI_F / 8) / (PI_F / 4))) = j := by
    apply quantize8_floor
    · rw [abs_le]
      constructor <;> linarith
    · unfold PI_F
      have : ((((j : ℚ) + 6 / 10 ^ 7) * (13176795 / 4194304 / 4) : ℚ) : ℝ) ≤
          ((θ + 13176795 / 4194304 / 8 : ℚ) : ℝ) := by
        push_cast
        linarith
      exact Rat.cast_le.mp this
    · unfold PI_F
      have : ((θ + 13176795 / 4194304 / 8 : ℚ) : ℝ) ≤
          ((((j : ℚ) + 1 - 6 / 10 ^ 7) * (13176795 / 4194304 / 4) : ℚ) : ℝ) := by
        push_cast
        linarith
      exact Rat.cast_le.mp this
  rw [quantize8_eq, hfl, ← octantOf_nat k hk]
  congr 1
  omega

/-- Claim C22 as stated fails next to the sector boundaries, where the binary32
rounding of the constant and of the two operations decides. The angle
`-13176795 / 2^25` is the negative of the code's `step / 2`; it lies in
`[-π, π]` and, one turn up, in the sector `[7 * 45° - 22.5°, 7 * 45° + 22.5°)`
of SE, but the sum `ang + step / 2` is 0 and `quantize8` returns E. The angle
`16470993 / 2^23` lies in the sector of N, below `5π/8`, but the rounded
quotient is 3 and `quantize8` returns NW. -/
theorem quantize8_boundary_counterexample :
    ((-Real.pi ≤ ((-13176795 / 33554432 : ℚ) : ℝ) ∧ ((-13176795 / 33554432 : ℚ) : ℝ) ≤ Real.pi ∧
        ((7 : Nat) : ℝ) * (Real.pi / 4) - Real.pi / 8 ≤
          ((-13176795 / 33554432 : ℚ) : ℝ) + ((1 : Int) : ℝ) * (2 * Real.pi) ∧
        ((-13176795 / 33554432 : ℚ) : ℝ) + ((1 : Int) : ℝ) * (2 * Real.pi) <
          ((7 : Nat) : ℝ) * (Real.pi / 4) + Real.pi / 8) ∧
      octants.getD 7 JoystickDir.Center = JoystickDir.SE ∧
      quantize8 (-13176795 / 33554432) = JoystickDir.E ∧
      quantize8 (-13176795 / 33554432) ≠ octants.getD 7 JoystickDir.Center) ∧
    ((-Real.pi ≤ ((16470993 / 8388608 : ℚ) : ℝ) ∧ ((16470993 / 8388608 : ℚ) : ℝ) ≤ Real.pi ∧
        ((2 : Nat) : ℝ) * (Real.pi / 4) - Real.pi / 8 ≤
          ((16470993 / 8388608 : ℚ) : ℝ) + ((0 : Int) : ℝ) * (2 * Real.pi) ∧
        ((16470993 / 8388608 : ℚ) : ℝ) + ((0 : Int) : ℝ) * (2 * Real.pi) <
          ((2 : Nat) : ℝ) * (Real.pi / 4) + Real.pi / 8) ∧
      octants.getD 2 JoystickDir.Center = JoystickDir.N ∧
      quantize8 (16470993 / 8388608) = JoystickDir.NW ∧
      quantize8 (16470993 / 8388608) ≠ octants.getD 2 JoystickDir.Center) := by
  have p1 := Real.pi_gt_d20
  have p2 := Real.pi_lt_d20
  have q1 : quantize8 (-13176795 / 33554432) = JoystickDir.E := by
    rw [quantize8_eq]
    have : (-13176795 / 33554432 : ℚ) + PI_F / 8 = 0 := by
      unfold PI_F
      norm_num
    rw [this, f32_zero, zero_div, f32_zero]
    rfl
  have q2 : quantize8 (16470993 / 8388608) = JoystickDir.NW := by
    rw [quantize8_eq]
    have a1 : f32 ((16470993 / 8388608 : ℚ) + PI_F / 8) = 2470649 / 1048576 := by
      have : (16470993 / 8388608 : ℚ) + PI_F / 8 = 79060767 / 33554432 := by
        unfold PI_F
        norm_num
      rw [this, f32_eq_of_pos (79060767 / 33554432) 1 9882596 (by norm_num) (by norm_num)
        (by norm_num) (by norm_num)]
      norm_num
    have a2 : f32 ((2470649 / 1048576 : ℚ) / (PI_F / 4)) = 3 := by
      have : (2470649 / 1048576 : ℚ) / (PI_F / 4) = 39530384 / 13176795 := by
        unfold PI_F
        norm_num
      rw [this, f32_eq_of_pos (39530384 / 13176795) 1 12582912 (by norm_num) (by norm_num)
        (by norm_num) (by norm_num)]
      norm_num
    rw [a1, a2]
    have : Int.floor (3 : ℚ) = 3 := by
      rw [Int.floor_eq_iff]
      constructor <;> norm_num
    rw [this]
    rfl
  refine ⟨⟨⟨?_, ?_, ?_, ?_⟩, rfl, q1, ?_⟩, ⟨⟨?_, ?_, ?_, ?_⟩, rfl, q2, ?_⟩⟩
  · push_cast; linarith
  · push_cast; linarith
  · push_cast; linarith
  · push_cast; linarith
  · rw [q1]; decide
  · push_cast; linarith
  · push_cast; linarith
  · push_cast; linarith
  · push_cast; linarith
  · rw [q2]; decide

/-- Claim C22, amended. Octant quantization in binary32, at least `10^-6` rad
inside a sector. Let `θ` be an angle of magnitude at most `PI_F`, the largest
value of `atan2f`, let `k < 8`, and let `θ` plus a whole number `n` of turns
lie in `[k * 45° - 22.5° + 10^-6, k * 45° + 22.5° - 10^-6]`, in radians with the
real number `π`. Then `quantize8` returns the `k`-th element of E, NE, N, NW,
W, SW, S, SE. In particular the binary32 angles `0`, `PI_F / 4`, `PI_F / 2`,
`2470649 / 2^20`, `PI_F`, `-PI_F`, `-2470649 / 2^20`, `-PI_F / 2`, `-PI_F / 4`
give E, NE, N, NW, W, W, SW, S, SE; they are the angles 0°, 45°, 90°, 135°,
180°, -180°, -135°, -90°, -45° to within `10^-7` rad, since `PI_F` is within
`10^-7` of `π` and `2470649 / 2^20` of `3π/4`. No angle gives Center. -/
theorem quantize8_octants (θ : ℚ) (k : Nat) (n : Int) (hk : k < 8) (hθ : |θ| ≤ PI_F)
    (hlo : (k : ℝ) * (Real.pi / 4) - Real.pi / 8 + 1 / 10 ^ 6 ≤ (θ : ℝ) + n * (2 * Real.pi))
    (hhi : (θ : ℝ) + n * (2 * Real.pi) ≤ (k : ℝ) * (Real.pi / 4) + Real.pi / 8 - 1 / 10 ^ 6) :
    quantize8 θ = octants.getD k JoystickDir.Center ∧
    (quantize8 0 = JoystickDir.E ∧ quantize8 (PI_F / 4) = JoystickDir.NE ∧
      quantize8 (PI_F / 2) = JoystickDir.N ∧ quantize8 (2470649 / 1048576) = JoystickDir.NW ∧
      quantize8 PI_F = JoystickDir.W ∧ quantize8 (-PI_F) = JoystickDir.W ∧
      quantize8 (-(2470649 / 1048576)) = JoystickDir.SW ∧
      quantize8 (-(PI_F / 2)) = JoystickDir.S ∧
      quantize8 (-(PI_F / 4)) = JoystickDir.SE) ∧
    (|(PI_F : ℝ) - Real.pi| ≤ 1 / 10 ^ 7 ∧
      |((2470649 / 1048576 : ℚ) : ℝ) - 3 * Real.pi / 4| ≤ 1 / 10 ^ 7) ∧
    (∀ ang : ℚ, quantize8 ang ≠ JoystickDir.Center) := by
  have p1 := Real.pi_gt_d20
  have p2 := Real.pi_lt_d20
  have hP : (PI_F : ℝ) = 13176795 / 4194304 := by
    unfold PI_F
    push_cast
    rfl
  have hPq : (0 : ℚ) ≤ PI_F := by
    unfold PI_F
    norm_num
  have hb : ∀ c : ℚ, -PI_F ≤ c → c ≤ PI_F → |c| ≤ PI_F := fun c h1 h2 => abs_le.mpr ⟨h1, h2⟩
  refine ⟨quantize8_sector θ k n hk hθ hlo hhi, ⟨?_, ?_, ?_, ?_, ?_, ?_, ?_, ?_, ?_⟩, ⟨?_, ?_⟩,
    fun ang => quantize8_ne_center ang⟩
  · exact quantize8_sector 0 0 0 (by norm_num) (hb _ (by linarith) hPq)
      (by push_cast; linarith) (by push_cast; linarith)
  · exact quantize8_sector (PI_F / 4) 1 0 (by norm_num) (hb _ (by linarith) (by linarith))
      (by push_cast; rw [hP]; linarith) (by push_cast; rw [hP]; linarith)
  · exact quantize8_sector (PI_F / 2) 2 0 (by norm_num) (hb _ (by linarith) (by linarith))
      (by push_cast; rw [hP]; linarith) (by push_cast; rw [hP]; linarith)
  · exact quantize8_sector (2470649 / 1048576) 3 0 (by norm_num)
      (hb _ (by unfold PI_F; norm_num) (by unfold PI_F; norm_num))
      (by push_cast; linarith) (by push_cast; linarith)
  · exact quantize8_sector PI_F 4 0 (by norm_num) (hb _ (by linarith) (le_refl _))
      (by push_cast; rw [hP]; linarith) (by push_cast; rw [hP]; linarith)
  · exact quantize8_sector (-PI_F) 4 1 (by norm_num) (hb _ (le_refl _) (by linarith))
      (by push_cast; rw [hP]; linarith) (by push_cast; rw [hP]; linarith)
  · exact quantize8_sector (-(2470649 / 1048576)) 5 1 (by norm_num)
      (hb _ (by unfold PI_F; norm_num) (by unfold PI_F; norm_num))
      (by push_cast; linarith) (by push_cast; linarith)
  · exact quantize8_sector (-(PI_F / 2)) 6 1 (by norm_num) (hb _ (by linarith) (by linarith))
      (by push_cast; rw [hP]; linarith) (by push_cast; rw [hP]; linarith)
  · exact quantize8_sector (-(PI_F / 4)) 7 1 (by norm_num) (hb _ (by linarith) (by linarith))
      (by push_cast; rw [hP]; linarith) (by push_cast; rw [hP]; linarith)
  · rw [hP, abs_le]
    constructor <;> linarith
  · rw [abs_le]
    push_cast
    constructor <;> linarith

/-- Claim C22, amended, at the angle of 1 rad (about 57.3°), in the sector of
NE: `quantize8` returns NE. -/
theorem quantize8_octants_witness :
    (|(1 : ℚ)| ≤ PI_F ∧
      ((1 : Nat) : ℝ) * (Real.pi / 4) - Real.pi / 8 + 1 / 10 ^ 6 ≤
        ((1 : ℚ) : ℝ) + ((0 : Int) : ℝ) * (2 * Real.pi) ∧
      ((1 : ℚ) : ℝ) + ((0 : Int) : ℝ) * (2 * Real.pi) ≤
        ((1 : Nat) : ℝ) * (Real.pi / 4) + Real.pi / 8 - 1 / 10 ^ 6) ∧
    quantize8 1 = octants.getD 1 JoystickDir.Center ∧
    octants.getD 1 JoystickDir.Center = JoystickDir.NE := by
  have p1 := Real.pi_gt_d20
  have p2 := Real.pi_lt_d20
  have h0 : |(1 : ℚ)| ≤ PI_F := by
    unfold PI_F
    rw [abs_le]
    constructor <;> norm_num
  have h1 : ((1 : Nat) : ℝ) * (Real.pi / 4) - Real.pi / 8 + 1 / 10 ^ 6 ≤
      ((1 : ℚ) : ℝ) + ((0 : Int) : ℝ) * (2 * Real.pi) := by
    push_cast
    linarith
  have h2 : ((1 : ℚ) : ℝ) + ((0 : Int) : ℝ) * (2 * Real.pi) ≤
      ((1 : Nat) : ℝ) * (Real.pi / 4) + Real.pi / 8 - 1 / 10 ^ 6 := by
    push_cast
    linarith
  exact ⟨⟨h0, h1, h2⟩, (quantize8_octants 1 1 0 (by norm_num) h0 h1 h2).1, rfl⟩

/-! ### Direction and tilt events (C23, C24, C25, C26) -/

theorem computePolarAndEvents_eq (j : Joystick) (sqrtf : ℚ → ℚ) (atan2f : ℚ → ℚ → ℚ) :
    j.computePolarAndEvents sqrtf atan2f =
      (((((j.polar sqrtf atan2f).tiltStep.1.dirStep (j.polar sqrtf atan2f).newDir).1.moveStep).1.repeatStep).1,
        (j.polar sqrtf atan2f).tiltStep.2 ++
        ((j.polar sqrtf atan2f).tiltStep.1.dirStep (j.polar sqrtf atan2f).newDir).2 ++
        (((j.polar sqrtf atan2f).tiltStep.1.dirStep (j.polar sqrtf atan2f).newDir).1.moveStep).2 ++
        ((((j.polar sqrtf atan2f).tiltStep.1.dirStep (j.polar sqrtf atan2f).newDir).1.moveStep).1.repeatStep).2) :=
  rfl

theorem tiltStep_fields (j : Joystick) :
    (j.tiltStep.1._tiltActive = j.tiltNow ∧
      j.tiltStep.2.map JFiring.kind =
        (if j.tiltNow && !j._tiltActive then [JEvent.tiltStart]
         else if !j.tiltNow && j._tiltActive then [JEvent.tiltStop, JEvent.center] else [])) ∧
    (j.tiltStep.1._mag = j._mag ∧ j.tiltStep.1._angle = j._angle ∧
      j.tiltStep.1._dirMagMinUp = j._dirMagMinUp ∧
      j.tiltStep.1._dirMagMinDown = j._dirMagMinDown) ∧
    (j.tiltStep.1._dir = j._dir ∧ j.tiltStep.1._lastDir = j._lastDir ∧
      j.tiltStep.1._nowMs = j._nowMs ∧ j.tiltStep.1._lastRepeatMs = j._lastRepeatMs ∧
      j.tiltStep.1._repeatMs = j._repeatMs) ∧
    (j.tiltStep.1._nx = j._nx ∧ j.tiltStep.1._ny = j._ny ∧ j.tiltStep.1._lastNx = j._lastNx ∧
      j.tiltStep.1._lastNy = j._lastNy ∧ j.tiltStep.1._moveEps = j._moveEps) := by
  unfold Joystick.tiltStep
  cases h1 : j.tiltNow <;> cases h2 : j._tiltActive <;> simp [h2]

theorem dirStep_fields (j : Joystick) (d : JoystickDir) :
    ((j.dirStep d).1._dir = d ∧
      (j.dirStep d).2.map JFiring.kind = (if d ≠ j._dir then [JEvent.directionChanged] else []) ∧
      (j.dirStep d).1._lastRepeatMs = (if d ≠ j._dir then j._nowMs else j._lastRepeatMs) ∧
      (j.dirStep d).1._lastDir = (if d ≠ j._dir then j._dir else j._lastDir)) ∧
    ((j.dirStep d).1._mag = j._mag ∧ (j.dirStep d).1._angle = j._angle ∧
      (j.dirStep d).1._dirMagMinUp = j._dirMagMinUp ∧
      (j.dirStep d).1._dirMagMinDown = j._dirMagMinDown) ∧
    ((j.dirStep d).1._tiltActive = j._tiltActive ∧ (j.dirStep d).1._nowMs = j._nowMs ∧
      (j.dirStep d).1._repeatMs = j._repeatMs) ∧
    ((j.dirStep d).1._nx = j._nx ∧ (j.dirStep d).1._ny = j._ny ∧
      (j.dirStep d).1._lastNx = j._lastNx ∧ (j.dirStep d).1._lastNy = j._lastNy ∧
      (j.dirStep d).1._moveEps = j._moveEps) := by
  unfold Joystick.dirStep
  by_cases h : d = j._dir <;> simp [h]

theorem moveStep_fields (j : Joystick) :
    (j.moveStep.2.map JFiring.kind =
        (if fabsf_fast (j._nx - j._lastNx) ≥ j._moveEps ∨
            fabsf_fast (j._ny - j._lastNy) ≥ j._moveEps then [JEvent.move] else [])) ∧
    (j.moveStep.1._mag = j._mag ∧ j.moveStep.1._angle = j._angle ∧
      j.moveStep.1._dirMagMinUp = j._dirMagMinUp ∧
      j.moveStep.1._dirMagMinDown = j._dirMagMinDown) ∧
    (j.moveStep.1._dir = j._dir ∧ j.moveStep.1._lastDir = j._lastDir ∧
      j.moveStep.1._tiltActive = j._tiltActive ∧ j.moveStep.1._nowMs = j._nowMs ∧
      j.moveStep.1._lastRepeatMs = j._lastRepeatMs ∧ j.moveStep.1._repeatMs = j._repeatMs) := by
  unfold Joystick.moveStep
  split_ifs <;> simp

theorem repeatStep_fields (j : Joystick) :
    (j.repeatStep.2.map JFiring.kind =
        (if j._dir ≠ JoystickDir.Center ∧ subU j._nowMs j._lastRepeatMs ≥ j._repeatMs
         then [JEvent.repeat_] else []) ∧
      j.repeatStep.1._lastRepeatMs =
        (if j._dir ≠ JoystickDir.Center ∧ subU j._nowMs j._lastRepeatMs ≥ j._repeatMs
         then j._nowMs else j._lastRepeatMs)) ∧
    (j.repeatStep.1._mag = j._mag ∧ j.repeatStep.1._angle = j._angle ∧
      j.repeatStep.1._dirMagMinUp = j._dirMagMinUp ∧
      j.repeatStep.1._dirMagMinDown = j._dirMagMinDown) ∧
    (j.repeatStep.1._dir = j._dir ∧ j.repeatStep.1._lastDir = j._lastDir ∧
      j.repeatStep.1._tiltActive = j._tiltActive ∧ j.repeatStep.1._nowMs = j._nowMs ∧
      j.repeatStep.1._repeatMs = j._repeatMs) := by
  unfold Joystick.repeatStep
  split_ifs <;> simp

/-- What one `computePolarAndEvents` call leaves in the members of the
direction logic, and the kinds it emits, in terms of the state on entry. -/
theorem computePolarAndEvents_fields (j : Joystick) (sqrtf : ℚ → ℚ) (atan2f : ℚ → ℚ → ℚ) :
    ((j.computePolarAndEvents sqrtf atan2f).1._mag = sqrtf (j._nx * j._nx + j._ny * j._ny) ∧
      (j.computePolarAndEvents sqrtf atan2f).1._angle = atan2f j._ny j._nx ∧
      (j.computePolarAndEvents sqrtf atan2f).1._dirMagMinUp = j._dirMagMinUp ∧
      (j.computePolarAndEvents sqrtf atan2f).1._dirMagMinDown = j._dirMagMinDown) ∧
    ((j.computePolarAndEvents sqrtf atan2f).1._dir = (j.polar sqrtf atan2f).newDir ∧
      (j.computePolarAndEvents sqrtf atan2f).1._tiltActive = (j.polar sqrtf atan2f).tiltNow ∧
      (j.polar sqrtf atan2f).tiltStep.1._tiltActive = (j.polar sqrtf atan2f).tiltNow ∧
      (j.computePolarAndEvents sqrtf atan2f).1._nowMs = j._nowMs ∧
      (j.computePolarAndEvents sqrtf atan2f).1._repeatMs = j._repeatMs) ∧
    j.eventKinds sqrtf atan2f =
      (if (j.polar sqrtf atan2f).tiltNow && !j._tiltActive then [JEvent.tiltStart]
       else if !(j.polar sqrtf atan2f).tiltNow && j._tiltActive then
         [JEvent.tiltStop, JEvent.center] else []) ++
      (if (j.polar sqrtf atan2f).newDir ≠ j._dir then [JEvent.directionChanged] else []) ++
      (if fabsf_fast (j._nx - j._lastNx) ≥ j._moveEps ∨
          fabsf_fast (j._ny - j._lastNy) ≥ j._moveEps then [JEvent.move] else []) ++
      (if (j.polar sqrtf atan2f).newDir ≠ JoystickDir.Center ∧
          subU j._nowMs (if (j.polar sqrtf atan2f).newDir ≠ j._dir then j._nowMs
            else j._lastRepeatMs) ≥ j._repeatMs then [JEvent.repeat_] else []) := by
  obtain ⟨⟨a1, a2⟩, ⟨a3, a4, a5, a6⟩, ⟨a7, a8, a9, a10, a11⟩, ⟨a12, a13, a14, a15, a16⟩⟩ :=
    tiltStep_fields (j.polar sqrtf atan2f)
  obtain ⟨⟨b1, b2, b3, b4⟩, ⟨b5, b6, b7, b8⟩, ⟨b9, b10, b11⟩, ⟨b12, b13, b14, b15, b16⟩⟩ :=
    dirStep_fields (j.polar sqrtf atan2f).tiltStep.1 (j.polar sqrtf atan2f).newDir
  obtain ⟨c1, ⟨c2, c3, c4, c5⟩, ⟨c6, c7, c8, c9, c10, c11⟩⟩ :=
    moveStep_fields ((j.polar sqrtf atan2f).tiltStep.1.dirStep (j.polar sqrtf atan2f).newDir).1
  obtain ⟨⟨d1, d2⟩, ⟨d3, d4, d5, d6⟩, ⟨d7, d8, d9, d10, d11⟩⟩ :=
    repeatStep_fields
      (((j.polar sqrtf atan2f).tiltStep.1.dirStep (j.polar sqrtf atan2f).newDir).1.moveStep).1
  have p1 : (j.polar sqrtf atan2f)._mag = sqrtf (j._nx * j._nx + j._ny * j._ny) := rfl
  have p2 : (j.polar sqrtf atan2f)._angle = atan2f j._ny j._nx := rfl
  have p3 : (j.polar sqrtf atan2f)._dirMagMinUp = j._dirMagMinUp := rfl
  have p4 : (j.polar sqrtf atan2f)._dirMagMinDown = j._dirMagMinDown := rfl
  have p5 : (j.polar sqrtf atan2f)._dir = j._dir := rfl
  have p6 : (j.polar sqrtf atan2f)._tiltActive = j._tiltActive := rfl
  have p7 : (j.polar sqrtf atan2f)._nowMs = j._nowMs := rfl
  have p8 : (j.polar sqrtf atan2f)._lastRepeatMs = j._lastRepeatMs := rfl
  have p9 : (j.polar sqrtf atan2f)._repeatMs = j._repeatMs := rfl
  have p10 : (j.polar sqrtf atan2f)._nx = j._nx := rfl
  have p11 : (j.polar sqrtf atan2f)._ny = j._ny := rfl
  have p12 : (j.polar sqrtf atan2f)._lastNx = j._lastNx := rfl
  have p13 : (j.polar sqrtf atan2f)._lastNy = j._lastNy := rfl
  have p14 : (j.polar sqrtf atan2f)._moveEps = j._moveEps := rfl
  unfold Joystick.eventKinds
  rw [computePolarAndEvents_eq]
  refine ⟨⟨?_, ?_, ?_, ?_⟩, ⟨?_, ?_, a1, ?_, ?_⟩, ?_⟩
  · show (Joystick.repeatStep _).1._mag = _
    rw [d3, c2, b5, a3, p1]
  · show (Joystick.repeatStep _).1._angle = _
    rw [d4, c3, b6, a4, p2]
  · show (Joystick.repeatStep _).1._dirMagMinUp = _
    rw [d5, c4, b7, a5, p3]
  · show (Joystick.repeatStep _).1._dirMagMinDown = _
    rw [d6, c5, b8, a6, p4]
  · show (Joystick.repeatStep _).1._dir = _
    rw [d7, c6, b1]
  · show (Joystick.repeatStep _).1._tiltActive = _
    rw [d9, c8, b9, a1]
  · show (Joystick.repeatStep _).1._nowMs = _
    rw [d10, c9, b10, a9, p7]
  · show (Joystick.repeatStep _).1._repeatMs = _
    rw [d11, c11, b11, a11, p9]
  · simp only [List.map_append]
    rw [a2, b2, c1, d1, c6, c9, c10, c11, b1, b3, b10, b11, b12, b13, b14, b15, b16, a7, a9, a10,
      a11, a12, a13, a14, a15, a16, p5, p6, p7, p8, p9, p10, p11, p12, p13, p14]

theorem newDir_cases (j : Joystick) :
    (j._mag ≥ j._dirMagMinUp → j.newDir = quantize8 j._angle) ∧
    (j._mag < j._dirMagMinUp → j._mag ≤ j._dirMagMinDown → j.newDir = JoystickDir.Center) ∧
    (j._mag < j._dirMagMinUp → j._dirMagMinDown < j._mag → j.newDir = j._dir) := by
  unfold Joystick.newDir
  refine ⟨?_, ?_, ?_⟩
  · intro h; rw [if_pos h]
  · intro h1 h2; rw [if_neg (not_le.mpr h1), if_pos h2]
  · intro h1 h2; rw [if_neg (not_le.mpr h1), if_neg (not_le.mpr h2)]

/-- Claim C23. Direction hysteresis, for every joystick state and every value
of `sqrtf` and `atan2f`. After `computePolarAndEvents` the members `_mag` and
`_angle` hold the polar values. The direction is `quantize8(_angle)` if
`_mag ≥ _dirMagMinUp`, Center if `_mag < _dirMagMinUp` and
`_mag ≤ _dirMagMinDown`, and the direction before the call otherwise. So a
Center direction becomes non-center exactly when `_mag ≥ _dirMagMinUp`,
equality included, and a non-center direction becomes Center exactly when
`_mag ≤ _dirMagMinDown`, equality included, and `_mag < _dirMagMinUp`. No
relation between the two thresholds is needed. -/
theorem direction_hysteresis (j : Joystick) (sqrtf : ℚ → ℚ) (atan2f : ℚ → ℚ → ℚ) :
    ((j.computePolarAndEvents sqrtf atan2f).1._mag = sqrtf (j._nx * j._nx + j._ny * j._ny) ∧
      (j.computePolarAndEvents sqrtf atan2f).1._angle = atan2f j._ny j._nx) ∧
    ((j.computePolarAndEvents sqrtf atan2f).1._mag ≥ j._dirMagMinUp →
      (j.computePolarAndEvents sqrtf atan2f).1._dir =
        quantize8 (j.computePolarAndEvents sqrtf atan2f).1._angle) ∧
    ((j.computePolarAndEvents sqrtf atan2f).1._mag < j._dirMagMinUp →
      (j.computePolarAndEvents sqrtf atan2f).1._mag ≤ j._dirMagMinDown →
      (j.computePolarAndEvents sqrtf atan2f).1._dir = JoystickDir.Center) ∧
    ((j.computePolarAndEvents sqrtf atan2f).1._mag < j._dirMagMinUp →
      j._dirMagMinDown < (j.computePolarAndEvents sqrtf atan2f).1._mag →
      (j.computePolarAndEvents sqrtf atan2f).1._dir = j._dir) ∧
    (j._dir = JoystickDir.Center →
      ((j.computePolarAndEvents sqrtf atan2f).1._dir ≠ JoystickDir.Center ↔
        (j.computePolarAndEvents sqrtf atan2f).1._mag ≥ j._dirMagMinUp)) ∧
    (j._dir ≠ JoystickDir.Center →
      ((j.computePolarAndEvents sqrtf atan2f).1._dir = JoystickDir.Center ↔
        (j.computePolarAndEvents sqrtf atan2f).1._mag < j._dirMagMinUp ∧
        (j.computePolarAndEvents sqrtf atan2f).1._mag ≤ j._dirMagMinDown)) := by
  obtain ⟨⟨e1, e2, _, _⟩, ⟨e3, _⟩, _⟩ := computePolarAndEvents_fields j sqrtf atan2f
  obtain ⟨n1, n2, n3⟩ := newDir_cases (j.polar sqrtf atan2f)
  have p1 : (j.polar sqrtf atan2f)._mag = sqrtf (j._nx * j._nx + j._ny * j._ny) := rfl
  have p2 : (j.polar sqrtf atan2f)._angle = atan2f j._ny j._nx := rfl
  have p3 : (j.polar sqrtf atan2f)._dirMagMinUp = j._dirMagMinUp := rfl
  have p4 : (j.polar sqrtf atan2f)._dirMagMinDown = j._dirMagMinDown := rfl
  have p5 : (j.polar sqrtf atan2f)._dir = j._dir := rfl
  rw [p1, p2, p3] at n1
  rw [p1, p3, p4] at n2
  rw [p1, p3, p4, p5] at n3
  rw [e1, e2, e3]
  refine ⟨⟨rfl, rfl⟩, n1, n2, n3, ?_, ?_⟩
  · intro hc
    constructor
    · intro hne
      by_contra hlt
      rw [not_le] at hlt
      rcases le_or_lt (sqrtf (j._nx * j._nx + j._ny * j._ny)) j._dirMagMinDown with h | h
      · exact hne (n2 hlt h)
      · exact hne ((n3 hlt h).trans hc)
    · intro hge
      rw [n1 hge]
      exact quantize8_ne_center _
  · intro hc
    constructor
    · intro he
      have hlt : sqrtf (j._nx * j._nx + j._ny * j._ny) < j._dirMagMinUp := by
        by_contra hge
        rw [not_lt] at hge
        rw [n1 hge] at he
        exact quantize8_ne_center _ he
      refine ⟨hlt, ?_⟩
      by_contra hgt
      rw [not_le] at hgt
      rw [n3 hlt hgt] at he
      exact hc he
    · intro h
      exact n2 h.1 h.2

/-- Claim C23, on the stick tilted east and then eased to magnitude 1/4, between
the thresholds 0.22 and 0.30: the direction stays east. -/
theorem direction_hysteresis_witness :
    ((((tiltedEast.sampled 2500 2048 sqrtfTable).computePolarAndEvents sqrtfTable
          atan2fTable).1._mag < (tiltedEast.sampled 2500 2048 sqrtfTable)._dirMagMinUp ∧
      (tiltedEast.sampled 2500 2048 sqrtfTable)._dirMagMinDown <
        ((tiltedEast.sampled 2500 2048 sqrtfTable).computePolarAndEvents sqrtfTable
          atan2fTable).1._mag) ∧
      (tiltedEast.sampled 2500 2048 sqrtfTable)._dir = JoystickDir.E) ∧
    ((tiltedEast.sampled 2500 2048 sqrtfTable).computePolarAndEvents sqrtfTable
      atan2fTable).1._dir = JoystickDir.E :=
  ⟨by with_unfolding_all decide,
    ((direction_hysteresis (tiltedEast.sampled 2500 2048 sqrtfTable) sqrtfTable
      atan2fTable).2.2.2.1 (by with_unfolding_all decide) (by with_unfolding_all decide)).trans
      (by with_unfolding_all decide)⟩

/-- With the ADC initialised, the emits of a tick are those of
`computePolarAndEvents` on the sampled state. -/
theorem tick_events (j : Joystick) (tmp0 tmp1 : Nat) (levelHigh : Bool) (sqrtf : ℚ → ℚ)
    (atan2f : ℚ → ℚ → ℚ) (h : j._adcInit = true) :
    (j.tick tmp0 tmp1 levelHigh sqrtf atan2f).2.1 =
      ((j.sampled tmp0 tmp1 sqrtf).computePolarAndEvents sqrtf atan2f).2 := by
  unfold Joystick.tick
  dsimp only
  rw [if_pos h]
  rfl

/-- The tilt flag after a call is the comparison with the enter threshold alone. -/
theorem tiltActive_follows_enter_threshold (j : Joystick) (sqrtf : ℚ → ℚ) (atan2f : ℚ → ℚ → ℚ) :
    ((j.computePolarAndEvents sqrtf atan2f).1._tiltActive = true ↔
      (j.computePolarAndEvents sqrtf atan2f).1._mag ≥ j._dirMagMinUp) := by
  obtain ⟨⟨e1, _, _, _⟩, ⟨_, e4, _⟩, _⟩ := computePolarAndEvents_fields j sqrtf atan2f
  rw [e4, e1]
  unfold Joystick.tiltNow
  simp
  rfl

theorem tilt_kinds_mem (j : Joystick) (sqrtf : ℚ → ℚ) (atan2f : ℚ → ℚ → ℚ) :
    (JEvent.tiltStart ∈ j.eventKinds sqrtf atan2f ↔
      (j.polar sqrtf atan2f).tiltNow = true ∧ j._tiltActive = false) ∧
    (JEvent.tiltStop ∈ j.eventKinds sqrtf atan2f ↔
      (j.polar sqrtf atan2f).tiltNow = false ∧ j._tiltActive = true) ∧
    (JEvent.center ∈ j.eventKinds sqrtf atan2f ↔
      (j.polar sqrtf atan2f).tiltNow = false ∧ j._tiltActive = true) := by
  obtain ⟨_, _, e⟩ := computePolarAndEvents_fields j sqrtf atan2f
  rw [e]
  simp only [List.mem_append]
  cases (j.polar sqrtf atan2f).tiltNow <;> cases j._tiltActive <;>
    simp only [Bool.not_false, Bool.not_true, Bool.and_true, Bool.and_false, Bool.false_and,
      Bool.true_and, Bool.false_eq_true, if_true, if_false] <;>
    (refine ⟨?_, ?_, ?_⟩ <;> split_ifs <;> simp)

theorem direction_band (j : Joystick) (sqrtf : ℚ → ℚ) (atan2f : ℚ → ℚ → ℚ) :
    (j.computePolarAndEvents sqrtf atan2f).1._mag < j._dirMagMinUp →
    j._dirMagMinDown < (j.computePolarAndEvents sqrtf atan2f).1._mag →
    (j.computePolarAndEvents sqrtf atan2f).1._dir = j._dir := by
  obtain ⟨⟨e1, _, _, _⟩, ⟨e3, _⟩, _⟩ := computePolarAndEvents_fields j sqrtf atan2f
  rw [e1, e3]
  exact (newDir_cases (j.polar sqrtf atan2f)).2.2

/-- Claim C24 as stated fails. `directStick` has the default thresholds 0.22 and
0.30. After one tick fully east the magnitude is 1, the tilt flag is set and
the direction is east. The next tick has raw pair (2500, 2048) and magnitude
1/4, strictly between the thresholds: the flag is cleared and the tick emits
tiltStop and center (and move), while the direction stays east. -/
theorem tilt_toggles_inside_band :
    (directStick._dirMagMinDown = 22 / 100 ∧ directStick._dirMagMinUp = 30 / 100) ∧
    (tiltedEast._mag = 1 ∧ tiltedEast._tiltActive = true ∧ tiltedEast._dir = JoystickDir.E) ∧
    ((tiltedEast.tick 2500 2048 true sqrtfTable atan2fTable).1._mag = 1 / 4 ∧
      (tiltedEast.tick 2500 2048 true sqrtfTable atan2fTable).1._tiltActive = false ∧
      (tiltedEast.tick 2500 2048 true sqrtfTable atan2fTable).2.1.map JFiring.kind =
        [JEvent.tiltStop, JEvent.center, JEvent.move] ∧
      (tiltedEast.tick 2500 2048 true sqrtfTable atan2fTable).1._dir = JoystickDir.E) := by
  refine ⟨by with_unfolding_all decide, by with_unfolding_all decide, by with_unfolding_all decide⟩

/-- Claim C24, amended. On a call whose magnitude lies strictly between
`_dirMagMinDown` and `_dirMagMinUp`, the tilt flag is false afterwards,
tiltStart is not emitted and the direction is unchanged. If the flag was false
before the call it is unchanged and neither tiltStop nor center is emitted. If
it was true, tiltStop is emitted: the tilt state compares the magnitude with
`_dirMagMinUp` alone. -/
theorem tilt_state_in_band (j : Joystick) (sqrtf : ℚ → ℚ) (atan2f : ℚ → ℚ → ℚ)
    (hlo : j._dirMagMinDown < (j.computePolarAndEvents sqrtf atan2f).1._mag)
    (hhi : (j.computePolarAndEvents sqrtf atan2f).1._mag < j._dirMagMinUp) :
    ((j.computePolarAndEvents sqrtf atan2f).1._tiltActive = false ∧
      JEvent.tiltStart ∉ j.eventKinds sqrtf atan2f ∧
      (j.computePolarAndEvents sqrtf atan2f).1._dir = j._dir) ∧
    (j._tiltActive = false →
      JEvent.tiltStop ∉ j.eventKinds sqrtf atan2f ∧ JEvent.center ∉ j.eventKinds sqrtf atan2f) ∧
    (j._tiltActive = true → JEvent.tiltStop ∈ j.eventKinds sqrtf atan2f) := by
  obtain ⟨⟨e1, _, _, _⟩, ⟨_, e4, _⟩, _⟩ := computePolarAndEvents_fields j sqrtf atan2f
  obtain ⟨m1, m2, m3⟩ := tilt_kinds_mem j sqrtf atan2f
  have hd := (direction_band j sqrtf atan2f) hhi hlo
  have ht : (j.polar sqrtf atan2f).tiltNow = false := by
    unfold Joystick.tiltNow
    rw [decide_eq_false_iff_not, not_le]
    rw [e1] at hhi
    exact hhi
  rw [m1, m2, m3, e4, ht]
  refine ⟨⟨rfl, by simp, hd⟩, ?_, ?_⟩
  · intro h; simp [h]
  · intro h; simp [h]

/-- Claim C24, amended, on the stick tilted east and then eased to magnitude
1/4: the set flag is cleared with a tiltStop. -/
theorem tilt_state_in_band_witness :
    ((tiltedEast.sampled 2500 2048 sqrtfTable)._dirMagMinDown <
        ((tiltedEast.sampled 2500 2048 sqrtfTable).computePolarAndEvents sqrtfTable
          atan2fTable).1._mag ∧
      ((tiltedEast.sampled 2500 2048 sqrtfTable).computePolarAndEvents sqrtfTable
          atan2fTable).1._mag < (tiltedEast.sampled 2500 2048 sqrtfTable)._dirMagMinUp ∧
      (tiltedEast.sampled 2500 2048 sqrtfTable)._tiltActive = true) ∧
    JEvent.tiltStop ∈ (tiltedEast.sampled 2500 2048 sqrtfTable).eventKinds sqrtfTable
      atan2fTable :=
  ⟨by with_unfolding_all decide,
    (tilt_state_in_band (tiltedEast.sampled 2500 2048 sqrtfTable) sqrtfTable atan2fTable
      (by with_unfolding_all decide) (by with_unfolding_all decide)).2.2
      (by with_unfolding_all decide)⟩

theorem eventKinds_shape (j : Joystick) (sqrtf : ℚ → ℚ) (atan2f : ℚ → ℚ → ℚ) :
    ∃ t rest, j.eventKinds sqrtf atan2f = t ++ rest ∧
      (t = [] ∨ t = [JEvent.tiltStart] ∨ t = [JEvent.tiltStop, JEvent.center]) ∧
      List.Sublist rest [JEvent.directionChanged, JEvent.move, JEvent.repeat_] := by
  obtain ⟨_, _, e⟩ := computePolarAndEvents_fields j sqrtf atan2f
  rw [e, List.append_assoc, List.append_assoc]
  refine ⟨_, _, rfl, ?_, ?_⟩
  · split_ifs <;> simp
  · split_ifs <;> decide

/-- Claim C25 as stated fails. From the stick tilted east, the tick with the raw
pair (2000, 2048) of the rest position emits tiltStop, center,
directionChanged, move, in this order, which is not a subsequence of
tiltStart, directionChanged, move, repeat, tiltStop, center. -/
theorem event_order_counterexample :
    (tiltedEast.tick 2000 2048 true sqrtfTable atan2fTable).2.1.map JFiring.kind =
      [JEvent.tiltStop, JEvent.center, JEvent.directionChanged, JEvent.move] ∧
    (tiltedEast.sampled 2000 2048 sqrtfTable).eventKinds sqrtfTable atan2fTable =
      [JEvent.tiltStop, JEvent.center, JEvent.directionChanged, JEvent.move] ∧
    ¬ List.Sublist [JEvent.tiltStop, JEvent.center, JEvent.directionChanged, JEvent.move]
      [JEvent.tiltStart, JEvent.directionChanged, JEvent.move, JEvent.repeat_, JEvent.tiltStop,
        JEvent.center] := by
  refine ⟨by with_unfolding_all decide, by with_unfolding_all decide, by decide⟩

/-- Claim C25, amended. The events of one `computePolarAndEvents` call are a
tilt part followed by a sublist of directionChanged, move, repeat, where the
tilt part is empty, or tiltStart, or tiltStop followed at once by center. So
they are a subsequence of tiltStart, tiltStop, center, directionChanged, move,
repeat, each kind occurs at most once, center is emitted exactly when tiltStop
is, and tiltStart and tiltStop are never emitted by the same call. -/
theorem event_order (j : Joystick) (sqrtf : ℚ → ℚ) (atan2f : ℚ → ℚ → ℚ) :
    (∃ t rest, j.eventKinds sqrtf atan2f = t ++ rest ∧
      (t = [] ∨ t = [JEvent.tiltStart] ∨ t = [JEvent.tiltStop, JEvent.center]) ∧
      List.Sublist rest [JEvent.directionChanged, JEvent.move, JEvent.repeat_]) ∧
    List.Sublist (j.eventKinds sqrtf atan2f)
      [JEvent.tiltStart, JEvent.tiltStop, JEvent.center, JEvent.directionChanged, JEvent.move,
        JEvent.repeat_] ∧
    (j.eventKinds sqrtf atan2f).Nodup ∧
    (JEvent.tiltStop ∈ j.eventKinds sqrtf atan2f ↔ JEvent.center ∈ j.eventKinds sqrtf atan2f) ∧
    ¬ (JEvent.tiltStart ∈ j.eventKinds sqrtf atan2f ∧
        JEvent.tiltStop ∈ j.eventKinds sqrtf atan2f) := by
  obtain ⟨t, rest, e, ht, hr⟩ := eventKinds_shape j sqrtf atan2f
  have hnd : rest.Nodup := List.Nodup.sublist hr (by decide)
  have hmem : ∀ k ∈ rest, k = JEvent.directionChanged ∨ k = JEvent.move ∨ k = JEvent.repeat_ := by
    intro k hk
    have := hr.subset hk
    simpa using this
  refine ⟨⟨t, rest, e, ht, hr⟩, ?_, ?_, ?_, ?_⟩
  · rw [e]
    rcases ht with h | h | h <;> subst h
    · exact List.Sublist.trans hr (by decide)
    · exact List.Sublist.trans (List.Sublist.append (List.Sublist.refl _) hr) (by decide)
    · exact List.Sublist.trans (List.Sublist.append (List.Sublist.refl _) hr) (by decide)
  · rw [e]
    rcases ht with h | h | h <;> subst h
    · simpa using hnd
    · rw [List.nodup_append]
      refine ⟨by decide, hnd, ?_⟩
      intro a ha hb
      rcases hmem a hb with h | h | h <;> subst h <;> simp at ha
    · rw [List.nodup_append]
      refine ⟨by decide, hnd, ?_⟩
      intro a ha hb
      rcases hmem a hb with h | h | h <;> subst h <;> simp at ha
  · rw [e]
    have h1 : JEvent.tiltStop ∉ rest := fun h => by
      rcases hmem _ h with h | h | h <;> cases h
    have h2 : JEvent.center ∉ rest := fun h => by
      rcases hmem _ h with h | h | h <;> cases h
    rcases ht with h | h | h <;> subst h <;> simp [h1, h2]
  · rw [e]
    have h1 : JEvent.tiltStop ∉ rest := fun h => by
      rcases hmem _ h with h | h | h <;> cases h
    have h2 : JEvent.tiltStart ∉ rest := fun h => by
      rcases hmem _ h with h | h | h <;> cases h
    rcases ht with h | h | h <;> subst h <;> simp [h1, h2]

/-- Claim C25, amended, on the tick of the counterexample: the four events are
a subsequence of the amended order. -/
theorem event_order_witness :
    List.Sublist ((tiltedEast.sampled 2000 2048 sqrtfTable).eventKinds sqrtfTable atan2fTable)
      [JEvent.tiltStart, JEvent.tiltStop, JEvent.center, JEvent.directionChanged, JEvent.move,
        JEvent.repeat_] ∧
    (tiltedEast.sampled 2000 2048 sqrtfTable).eventKinds sqrtfTable atan2fTable =
      [JEvent.tiltStop, JEvent.center, JEvent.directionChanged, JEvent.move] :=
  ⟨(event_order (tiltedEast.sampled 2000 2048 sqrtfTable) sqrtfTable atan2fTable).2.1,
    by with_unfolding_all decide⟩

theorem directionChanged_mem (j : Joystick) (sqrtf : ℚ → ℚ) (atan2f : ℚ → ℚ → ℚ) :
    JEvent.directionChanged ∈ j.eventKinds sqrtf atan2f ↔ (j.polar sqrtf atan2f).newDir ≠ j._dir := by
  obtain ⟨_, _, e⟩ := computePolarAndEvents_fields j sqrtf atan2f
  rw [e]
  simp only [List.mem_append]
  constructor
  · intro h
    rcases h with ((h | h) | h) | h
    · split_ifs at h <;> simp at h
    · split_ifs at h with h2
      · exact h2
      · simp at h
    · split_ifs at h <;> simp at h
    · split_ifs at h <;> simp at h
  · intro h
    left; left; right
    rw [if_pos h]
    simp

theorem readAdc2_le (j : Joystick) (a b : Nat) :
    (j.readAdc2 a b).1 ≤ 4095 ∧ (j.readAdc2 a b).2 ≤ 4095 := by
  unfold Joystick.readAdc2
  simp only [W16]
  split_ifs <;> constructor <;> omega

theorem calibrateLoop_sum (j : Joystick) (adc : Nat → Nat × Nat) :
    ∀ (n i : Nat) (acc : Nat × Nat),
      acc.1 + ((List.range' i n).map (j.sampleX adc)).sum < WORD →
      acc.2 + ((List.range' i n).map (j.sampleY adc)).sum < WORD →
      j.calibrateLoop adc n i acc =
        (acc.1 + ((List.range' i n).map (j.sampleX adc)).sum,
         acc.2 + ((List.range' i n).map (j.sampleY adc)).sum) := by
  intro n
  induction n with
  | zero => intro i acc _ _; simp [Joystick.calibrateLoop]
  | succ n ih =>
    intro i acc hx hy
    simp only [List.range'_succ, List.map_cons, List.sum_cons] at hx hy ⊢
    unfold Joystick.calibrateLoop
    have ex : addU acc.1 (j.readAdc2 (adc i).1 (adc i).2).1 = acc.1 + j.sampleX adc i := by
      unfold addU Joystick.sampleX
      apply Nat.mod_eq_of_lt
      unfold Joystick.sampleX at hx
      omega
    have ey : addU acc.2 (j.readAdc2 (adc i).1 (adc i).2).2 = acc.2 + j.sampleY adc i := by
      unfold addU Joystick.sampleY
      apply Nat.mod_eq_of_lt
      unfold Joystick.sampleY at hy
      omega
    simp only [ex, ey]
    rw [ih (i + 1) _ (by simpa [Nat.add_assoc] using hx) (by simpa [Nat.add_assoc] using hy)]
    simp [Nat.add_assoc]

theorem sum_samples_le (f : Nat → Nat) (hf : ∀ i, f i ≤ 4095) (n : Nat) :
    ((List.range n).map f).sum ≤ 4095 * n := by
  induction n with
  | zero => simp
  | succ n ih =>
    rw [List.range_succ, List.map_append, List.sum_append]
    simp only [List.map_cons, List.map_nil, List.sum_cons, List.sum_nil]
    have := hf n
    omega

/-- Claim C27. For `1 ≤ N ≤ 65535` and any words delivered by the sequencer,
`calibrateCenter(N)` completes and stores in `_centerX` and `_centerY` the
floors of the sums of the `N` sampled x and y values divided by `N`. The
samples are 12-bit, so after every `n ≤ N` iterations the 32-bit accumulators
hold the exact sums, which stay below `2^32`. The limits `_minX`, `_maxX`,
`_minY`, `_maxY` are unchanged, and so is every member other than the two
centers. -/
theorem calibrateCenter_average (j : Joystick) (N : Nat) (adc : Nat → Nat × Nat)
    (h1 : 1 ≤ N) (h2 : N ≤ 65535) :
    ∃ j', j.calibrateCenter N adc = some j' ∧
      (j'._centerX = ((List.range N).map (j.sampleX adc)).sum / N ∧
        j'._centerY = ((List.range N).map (j.sampleY adc)).sum / N) ∧
      (∀ n, n ≤ N →
        j.calibrateLoop adc n 0 (0, 0) =
          (((List.range n).map (j.sampleX adc)).sum, ((List.range n).map (j.sampleY adc)).sum) ∧
        ((List.range n).map (j.sampleX adc)).sum < WORD ∧
        ((List.range n).map (j.sampleY adc)).sum < WORD) ∧
      (j'._minX = j._minX ∧ j'._maxX = j._maxX ∧ j'._minY = j._minY ∧ j'._maxY = j._maxY) ∧
      j' = { j with _centerX := j'._centerX, _centerY := j'._centerY } := by
  have hbx : ∀ n, n ≤ N → ((List.range n).map (j.sampleX adc)).sum ≤ 4095 * n := fun n _ =>
    sum_samples_le _ (fun i => (readAdc2_le j _ _).1) n
  have hby : ∀ n, n ≤ N → ((List.range n).map (j.sampleY adc)).sum ≤ 4095 * n := fun n _ =>
    sum_samples_le _ (fun i => (readAdc2_le j _ _).2) n
  have hloop : ∀ n, n ≤ N →
      j.calibrateLoop adc n 0 (0, 0) =
        (((List.range n).map (j.sampleX adc)).sum, ((List.range n).map (j.sampleY adc)).sum) ∧
      ((List.range n).map (j.sampleX adc)).sum < WORD ∧
      ((List.range n).map (j.sampleY adc)).sum < WORD := by
    intro n hn
    have bx := hbx n hn
    have by_ := hby n hn
    have wx : ((List.range n).map (j.sampleX adc)).sum < WORD := by
      simp only [WORD]; omega
    have wy : ((List.range n).map (j.sampleY adc)).sum < WORD := by
      simp only [WORD]; omega
    refine ⟨?_, wx, wy⟩
    rw [List.range_eq_range'] at wx wy ⊢
    rw [calibrateLoop_sum j adc n 0 (0, 0) (by simpa using wx) (by simpa using wy)]
    simp
  have hN : N ≠ 0 := by omega
  obtain ⟨e, wx, wy⟩ := hloop N (le_refl N)
  have bx := hbx N (le_refl N)
  have by_ := hby N (le_refl N)
  have dx : ((List.range N).map (j.sampleX adc)).sum / N < W16 := by
    have : ((List.range N).map (j.sampleX adc)).sum / N ≤ 4095 :=
      Nat.div_le_of_le_mul (by rw [Nat.mul_comm]; exact bx)
    simp only [W16]; omega
  have dy : ((List.range N).map (j.sampleY adc)).sum / N < W16 := by
    have : ((List.range N).map (j.sampleY adc)).sum / N ≤ 4095 :=
      Nat.div_le_of_le_mul (by rw [Nat.mul_comm]; exact by_)
    simp only [W16]; omega
  refine ⟨{ j with
      _centerX := ((List.range N).map (j.sampleX adc)).sum / N
      _centerY := ((List.range N).map (j.sampleY adc)).sum / N }, ?_, ⟨rfl, rfl⟩, hloop,
    ⟨rfl, rfl, rfl, rfl⟩, rfl⟩
  unfold Joystick.calibrateCenter
  simp only [if_neg hN, e, Nat.mod_eq_of_lt dx, Nat.mod_eq_of_lt dy]

/-- Claim C27, at `N = 2` with the sampled pairs (2000, 3000) and (2002, 3000):
the centers become 2001 and 3000. -/
theorem calibrateCenter_average_witness :
    ((1 : Nat) ≤ 2 ∧ (2 : Nat) ≤ 65535) ∧
    ∃ j', sampleStick.calibrateCenter 2 (fun i => (2000 + 2 * i, 3000)) = some j' ∧
      j'._centerX = 2001 ∧ j'._centerY = 3000 :=
  ⟨by decide,
    (calibrateCenter_average sampleStick 2 (fun i => (2000 + 2 * i, 3000)) (by decide)
      (by decide)).elim
      fun j' h => ⟨j', h.1, h.2.1.1.trans (by decide), h.2.1.2.trans (by decide)⟩⟩

/-- Claim C28, evaluated on the code. `calibrateCenter(0)` runs no iteration and
then evaluates `accX / samples` with `samples = 0`: the division has no
defined result, and the model returns `none`. With one sample it completes. -/
theorem calibrateCenter_zero_samples :
    (sampleStick.calibrateCenter 0 (fun _ => (2048, 2048))).isNone = true ∧
    (sampleStick.calibrateCenter 1 (fun _ => (2048, 2048))).isSome = true := by
  refine ⟨by decide, by decide⟩

/-- The method `calibrateCenter` has a defined result exactly for a sample count other
than 0. -/
theorem calibrateCenter_none_iff (j : Joystick) (samples : Nat) (adc : Nat → Nat × Nat) :
    j.calibrateCenter samples adc = none ↔ samples = 0 := by
  unfold Joystick.calibrateCenter
  by_cases h : samples = 0 <;> simp [h]

/-! ### Threshold setters, repeat, axis swap and the center event (C31, C32, C36, C37) -/

theorem clamp01_range (v : ℚ) : 0 ≤ clamp01 v ∧ clamp01 v ≤ 1 := by
  unfold clamp01
  split_ifs with h1 h2
  · exact ⟨le_refl _, zero_le_one⟩
  · exact ⟨zero_le_one, le_refl _⟩
  · exact ⟨not_lt.mp h1, not_lt.mp h2⟩

/-- `setDirectionThreshold` leaves the thresholds ordered; `setDirectionHysteresis`
stores the clamped argument whatever the enter threshold is. -/
theorem threshold_setters (j : Joystick) (v w : ℚ) :
    ((j.setDirectionThreshold v)._dirMagMinUp = clamp01 v ∧
      (j.setDirectionThreshold v)._dirMagMinDown = min j._dirMagMinDown (clamp01 v) ∧
      (j.setDirectionThreshold v)._dirMagMinDown ≤ (j.setDirectionThreshold v)._dirMagMinUp) ∧
    ((j.setDirectionHysteresis v w)._dirMagMinDown = clamp01 v ∧
      (j.setDirectionHysteresis v w)._dirMagMinUp = j._dirMagMinUp) := by
  refine ⟨?_, rfl, rfl⟩
  simp only [Joystick.setDirectionThreshold]
  split_ifs with h
  · refine ⟨rfl, ?_, le_refl _⟩
    show clamp01 v = min j._dirMagMinDown (clamp01 v)
    rw [min_eq_right (le_of_lt h)]
  · have h' : j._dirMagMinDown ≤ clamp01 v := not_lt.mp h
    refine ⟨rfl, ?_, h'⟩
    show j._dirMagMinDown = min j._dirMagMinDown (clamp01 v)
    rw [min_eq_left h']

/-- Claim C31, evaluated on the code. The joystick of the constructor defaults
has enter threshold 0.30 and exit threshold 0.22. `setDirectionHysteresis(0.9, 0)`
stores 0.9 as the exit threshold and leaves the enter threshold at 0.30: both lie
in [0, 1], but the exit threshold is above the enter threshold. The sibling
setter `setDirectionThreshold(0.1)` on the same joystick lowers the exit
threshold to 0.1 together with the enter threshold. -/
theorem hysteresis_setter_breaks_order :
    (sampleStick._dirMagMinUp = 30 / 100 ∧ sampleStick._dirMagMinDown = 22 / 100) ∧
    ((sampleStick.setDirectionHysteresis (9 / 10) 0)._dirMagMinDown = 9 / 10 ∧
      (sampleStick.setDirectionHysteresis (9 / 10) 0)._dirMagMinUp = 3 / 10 ∧
      ¬ (sampleStick.setDirectionHysteresis (9 / 10) 0)._dirMagMinDown ≤
          (sampleStick.setDirectionHysteresis (9 / 10) 0)._dirMagMinUp) ∧
    ((sampleStick.setDirectionThreshold (1 / 10))._dirMagMinUp = 1 / 10 ∧
      (sampleStick.setDirectionThreshold (1 / 10))._dirMagMinDown = 1 / 10) := by
  refine ⟨by with_unfolding_all decide, by with_unfolding_all decide,
    by with_unfolding_all decide⟩

/-- When center is emitted, the direction afterwards is Center exactly if the
magnitude is at most the exit threshold (and below the enter threshold);
otherwise it is the direction from before the call. -/
theorem center_event_direction (j : Joystick) (sqrtf : ℚ → ℚ) (atan2f : ℚ → ℚ → ℚ)
    (h : JEvent.center ∈ j.eventKinds sqrtf atan2f) :
    (j.computePolarAndEvents sqrtf atan2f).1._mag < j._dirMagMinUp ∧
    ((j.computePolarAndEvents sqrtf atan2f).1._mag ≤ j._dirMagMinDown →
      (j.computePolarAndEvents sqrtf atan2f).1.direction8 = JoystickDir.Center) ∧
    (j._dirMagMinDown < (j.computePolarAndEvents sqrtf atan2f).1._mag →
      (j.computePolarAndEvents sqrtf atan2f).1.direction8 = j._dir) := by
  obtain ⟨⟨e1, _, _, _⟩, ⟨e3, _⟩, _⟩ := computePolarAndEvents_fields j sqrtf atan2f
  obtain ⟨n1, n2, n3⟩ := newDir_cases (j.polar sqrtf atan2f)
  have ht := ((tilt_kinds_mem j sqrtf atan2f).2.2.mp h).1
  have hlt : (j.polar sqrtf atan2f)._mag < (j.polar sqrtf atan2f)._dirMagMinUp := by
    unfold Joystick.tiltNow at ht
    rw [decide_eq_false_iff_not, not_le] at ht
    exact ht
  unfold Joystick.direction8
  rw [e1, e3]
  exact ⟨hlt, n2 hlt, n3 hlt⟩

/-- Claim C37, evaluated on the code. The joystick `tiltedEast` reports direction
E, with exit threshold 0.22 and enter threshold 0.30. A tick with raw pair
(2500, 2048) has magnitude 1/4, strictly between the thresholds: the tick emits
the center event, and `direction8()` at the end of the tick is still E, not
Center. -/
theorem center_event_with_direction_east :
    (tiltedEast.direction8 = JoystickDir.E ∧ tiltedEast._dirMagMinDown = 22 / 100) ∧
    JEvent.center ∈ (tiltedEast.tick 2500 2048 true sqrtfTable atan2fTable).2.1.map JFiring.kind ∧
    (tiltedEast.tick 2500 2048 true sqrtfTable atan2fTable).1._mag = 1 / 4 ∧
    (tiltedEast.tick 2500 2048 true sqrtfTable atan2fTable).1.direction8 = JoystickDir.E ∧
    (tiltedEast.tick 2500 2048 true sqrtfTable atan2fTable).1.direction8 ≠ JoystickDir.Center := by
  refine ⟨by with_unfolding_all decide, by with_unfolding_all decide,
    by with_unfolding_all decide, by with_unfolding_all decide, by with_unfolding_all decide⟩

theorem computePolarAndEvents_raw (j : Joystick) (sqrtf : ℚ → ℚ) (atan2f : ℚ → ℚ → ℚ) :
    (j.computePolarAndEvents sqrtf atan2f).1._rawX = j._rawX ∧
    (j.computePolarAndEvents sqrtf atan2f).1._rawY = j._rawY := by
  have t : ∀ k : Joystick, k.tiltStep.1._rawX = k._rawX ∧ k.tiltStep.1._rawY = k._rawY := by
    intro k; unfold Joystick.tiltStep; split_ifs <;> exact ⟨rfl, rfl⟩
  have d : ∀ (k : Joystick) (n : JoystickDir),
      (k.dirStep n).1._rawX = k._rawX ∧ (k.dirStep n).1._rawY = k._rawY := by
    intro k n; unfold Joystick.dirStep; split_ifs <;> exact ⟨rfl, rfl⟩
  have m : ∀ k : Joystick, k.moveStep.1._rawX = k._rawX ∧ k.moveStep.1._rawY = k._rawY := by
    intro k; unfold Joystick.moveStep; split_ifs <;> exact ⟨rfl, rfl⟩
  have r : ∀ k : Joystick, k.repeatStep.1._rawX = k._rawX ∧ k.repeatStep.1._rawY = k._rawY := by
    intro k; unfold Joystick.repeatStep; split_ifs <;> exact ⟨rfl, rfl⟩
  rw [computePolarAndEvents_eq]
  constructor
  · show (Joystick.repeatStep _).1._rawX = _
    rw [(r _).1, (m _).1, (d _ _).1, (t _).1]
    rfl
  · show (Joystick.repeatStep _).1._rawY = _
    rw [(r _).2, (m _).2, (d _ _).2, (t _).2]
    rfl

/-- The raw pair that a tick of an initialised joystick stores is the pair
`readAdc2` returns for the delivered words. -/
theorem tick_raw (j : Joystick) (tmp0 tmp1 : Nat) (levelHigh : Bool) (sqrtf : ℚ → ℚ)
    (atan2f : ℚ → ℚ → ℚ) (h : j._adcInit = true) :
    (j.tick tmp0 tmp1 levelHigh sqrtf atan2f).1.rawX = (j.readAdc2 tmp0 tmp1).1 ∧
    (j.tick tmp0 tmp1 levelHigh sqrtf atan2f).1.rawY = (j.readAdc2 tmp0 tmp1).2 := by
  have e : (j.tick tmp0 tmp1 levelHigh sqrtf atan2f).1._rawX =
      ((j.sampled tmp0 tmp1 sqrtf).computePolarAndEvents sqrtf atan2f).1._rawX ∧
      (j.tick tmp0 tmp1 levelHigh sqrtf atan2f).1._rawY =
      ((j.sampled tmp0 tmp1 sqrtf).computePolarAndEvents sqrtf atan2f).1._rawY := by
    unfold Joystick.tick
    dsimp only
    rw [if_pos h]
    exact ⟨rfl, rfl⟩
  unfold Joystick.rawX Joystick.rawY
  rw [e.1, e.2, (computePolarAndEvents_raw _ _ _).1, (computePolarAndEvents_raw _ _ _).2]
  exact ⟨rfl, rfl⟩

/-- Claim C36, evaluated on the code. With `setSwapXY(en)` applied before
`begin()`, for either value of `en`, a tick fed by the sequence that `begin()`
programmed leaves in `rawX()` the 12-bit sample of the X pin's channel and in
`rawY()` that of the Y pin's channel: the exchange in `configureAdcSequencer`
and the exchange in `readAdc2` cancel, so `setSwapXY(true)` before `begin()`
reads as swap disabled. With `setSwapXY(true)` applied after a `begin()` without
swap, `rawX()` holds the Y channel's sample and `rawY()` the X channel's. -/
theorem swap_before_begin_cancels (j : Joystick) (en : Bool)
    (digital_pin_to_port port_to_base digital_pin_to_bit_mask digital_pin_to_analog_in : Nat → Nat)
    (sample : Nat → Nat) (levelHigh : Bool) (sqrtf : ℚ → ℚ) (atan2f : ℚ → ℚ → ℚ) :
    (((j.setSwapXY en).begin digital_pin_to_port port_to_base digital_pin_to_bit_mask
        digital_pin_to_analog_in).1.tick
      (((j.setSwapXY en).begin digital_pin_to_port port_to_base digital_pin_to_bit_mask
        digital_pin_to_analog_in).2.dataGet sample).1
      (((j.setSwapXY en).begin digital_pin_to_port port_to_base digital_pin_to_bit_mask
        digital_pin_to_analog_in).2.dataGet sample).2 levelHigh sqrtf atan2f).1.rawX =
      sample (digital_pin_to_analog_in j._pinX) % 4096 ∧
    (((j.setSwapXY en).begin digital_pin_to_port port_to_base digital_pin_to_bit_mask
        digital_pin_to_analog_in).1.tick
      (((j.setSwapXY en).begin digital_pin_to_port port_to_base digital_pin_to_bit_mask
        digital_pin_to_analog_in).2.dataGet sample).1
      (((j.setSwapXY en).begin digital_pin_to_port port_to_base digital_pin_to_bit_mask
        digital_pin_to_analog_in).2.dataGet sample).2 levelHigh sqrtf atan2f).1.rawY =
      sample (digital_pin_to_analog_in j._pinY) % 4096 ∧
    ((((j.setSwapXY false).begin digital_pin_to_port port_to_base digital_pin_to_bit_mask
        digital_pin_to_analog_in).1.setSwapXY true).tick
      (((j.setSwapXY false).begin digital_pin_to_port port_to_base digital_pin_to_bit_mask
        digital_pin_to_analog_in).2.dataGet sample).1
      (((j.setSwapXY false).begin digital_pin_to_port port_to_base digital_pin_to_bit_mask
        digital_pin_to_analog_in).2.dataGet sample).2 levelHigh sqrtf atan2f).1.rawX =
      sample (digital_pin_to_analog_in j._pinY) % 4096 ∧
    ((((j.setSwapXY false).begin digital_pin_to_port port_to_base digital_pin_to_bit_mask
        digital_pin_to_analog_in).1.setSwapXY true).tick
      (((j.setSwapXY false).begin digital_pin_to_port port_to_base digital_pin_to_bit_mask
        digital_pin_to_analog_in).2.dataGet sample).1
      (((j.setSwapXY false).begin digital_pin_to_port port_to_base digital_pin_to_bit_mask
        digital_pin_to_analog_in).2.dataGet sample).2 levelHigh sqrtf atan2f).1.rawY =
      sample (digital_pin_to_analog_in j._pinX) % 4096 := by
  have hinit2 : (((j.setSwapXY false).begin digital_pin_to_port port_to_base
      digital_pin_to_bit_mask digital_pin_to_analog_in).1.setSwapXY true)._adcInit = true := rfl
  obtain ⟨g1, g2⟩ := tick_raw (((j.setSwapXY false).begin digital_pin_to_port port_to_base
    digital_pin_to_bit_mask digital_pin_to_analog_in).1.setSwapXY true)
    (((j.setSwapXY false).begin digital_pin_to_port port_to_base digital_pin_to_bit_mask
      digital_pin_to_analog_in).2.dataGet sample).1
    (((j.setSwapXY false).begin digital_pin_to_port port_to_base digital_pin_to_bit_mask
      digital_pin_to_analog_in).2.dataGet sample).2 levelHigh sqrtf atan2f hinit2
  have hmod : ∀ n : Nat, (n % 4096) % W16 = n % 4096 := by
    intro n; simp only [W16]; omega
  have hinit : ((j.setSwapXY en).begin digital_pin_to_port port_to_base digital_pin_to_bit_mask
      digital_pin_to_analog_in).1._adcInit = true := rfl
  obtain ⟨h1, h2⟩ := tick_raw ((j.setSwapXY en).begin digital_pin_to_port port_to_base
    digital_pin_to_bit_mask digital_pin_to_analog_in).1
    (((j.setSwapXY en).begin digital_pin_to_port port_to_base digital_pin_to_bit_mask
      digital_pin_to_analog_in).2.dataGet sample).1
    (((j.setSwapXY en).begin digital_pin_to_port port_to_base digital_pin_to_bit_mask
      digital_pin_to_analog_in).2.dataGet sample).2 levelHigh sqrtf atan2f hinit
  rw [h1, h2, g1, g2]
  refine ⟨?_, ?_, hmod _, hmod _⟩
  · cases en <;> exact hmod _
  · cases en <;> exact hmod _

theorem subU_self (n : Nat) : subU n n = 0 := by
  simp only [subU, WORD]
  omega

theorem computePolarAndEvents_repeat (j : Joystick) (sqrtf : ℚ → ℚ) (atan2f : ℚ → ℚ → ℚ) :
    (j.computePolarAndEvents sqrtf atan2f).1._lastRepeatMs =
      (if (j.polar sqrtf atan2f).newDir ≠ JoystickDir.Center ∧
          subU j._nowMs (if (j.polar sqrtf atan2f).newDir ≠ j._dir then j._nowMs
            else j._lastRepeatMs) ≥ j._repeatMs then j._nowMs
       else if (j.polar sqrtf atan2f).newDir ≠ j._dir then j._nowMs else j._lastRepeatMs) ∧
    (j.computePolarAndEvents sqrtf atan2f).1._tickMs = j._tickMs := by
  obtain ⟨_, _, ⟨a7, _, a9, a10, a11⟩, _⟩ := tiltStep_fields (j.polar sqrtf atan2f)
  obtain ⟨⟨b1, _, b3, _⟩, _, ⟨_, b10, b11⟩, _⟩ :=
    dirStep_fields (j.polar sqrtf atan2f).tiltStep.1 (j.polar sqrtf atan2f).newDir
  obtain ⟨_, _, ⟨c6, _, _, c9, c10, c11⟩⟩ :=
    moveStep_fields ((j.polar sqrtf atan2f).tiltStep.1.dirStep (j.polar sqrtf atan2f).newDir).1
  obtain ⟨⟨_, d2⟩, _, _⟩ :=
    repeatStep_fields
      (((j.polar sqrtf atan2f).tiltStep.1.dirStep (j.polar sqrtf atan2f).newDir).1.moveStep).1
  have t : ∀ k : Joystick, k.tiltStep.1._tickMs = k._tickMs := by
    intro k; unfold Joystick.tiltStep; split_ifs <;> rfl
  have d : ∀ (k : Joystick) (n : JoystickDir), (k.dirStep n).1._tickMs = k._tickMs := by
    intro k n; unfold Joystick.dirStep; split_ifs <;> rfl
  have m : ∀ k : Joystick, k.moveStep.1._tickMs = k._tickMs := by
    intro k; unfold Joystick.moveStep; split_ifs <;> rfl
  have r : ∀ k : Joystick, k.repeatStep.1._tickMs = k._tickMs := by
    intro k; unfold Joystick.repeatStep; split_ifs <;> rfl
  have p5 : (j.polar sqrtf atan2f)._dir = j._dir := rfl
  have p7 : (j.polar sqrtf atan2f)._nowMs = j._nowMs := rfl
  have p8 : (j.polar sqrtf atan2f)._lastRepeatMs = j._lastRepeatMs := rfl
  have p9 : (j.polar sqrtf atan2f)._repeatMs = j._repeatMs := rfl
  rw [computePolarAndEvents_eq]
  constructor
  · show (Joystick.repeatStep _).1._lastRepeatMs = _
    rw [d2, c6, c9, c10, c11, b1, b3, b10, b11, a7, a9, a10, a11, p5, p7, p8, p9]
  · show (Joystick.repeatStep _).1._tickMs = _
    rw [r, m, d, t]
    rfl

theorem repeat_mem (j : Joystick) (sqrtf : ℚ → ℚ) (atan2f : ℚ → ℚ → ℚ) :
    JEvent.repeat_ ∈ j.eventKinds sqrtf atan2f ↔
      ((j.polar sqrtf atan2f).newDir ≠ JoystickDir.Center ∧
        subU j._nowMs (if (j.polar sqrtf atan2f).newDir ≠ j._dir then j._nowMs
          else j._lastRepeatMs) ≥ j._repeatMs) := by
  obtain ⟨_, _, e⟩ := computePolarAndEvents_fields j sqrtf atan2f
  rw [e]
  simp only [List.mem_append]
  constructor
  · intro h
    rcases h with ((h | h) | h) | h
    · split_ifs at h <;> simp at h
    · split_ifs at h <;> simp at h
    · split_ifs at h <;> simp at h
    · by_contra hc
      rw [if_neg hc] at h
      simp at h
  · intro h
    right
    rw [if_pos h]
    simp

theorem tick_repeat_fields (j : Joystick) (i : TickInput) (sqrtf : ℚ → ℚ) (atan2f : ℚ → ℚ → ℚ) :
    ((j.tick i.tmp0 i.tmp1 i.levelHigh sqrtf atan2f).1._tickMs = j._tickMs ∧
      (j.tick i.tmp0 i.tmp1 i.levelHigh sqrtf atan2f).1._repeatMs = j._repeatMs) ∧
    (JEvent.repeat_ ∈ j.tickKinds sqrtf atan2f i →
      j._repeatMs ≤ j.repeatAge + j._tickMs ∧
      (j.tick i.tmp0 i.tmp1 i.levelHigh sqrtf atan2f).1.repeatAge = 0) ∧
    (j.tick i.tmp0 i.tmp1 i.levelHigh sqrtf atan2f).1.repeatAge ≤ j.repeatAge + j._tickMs := by
  have hage : subU (addU j._nowMs j._tickMs) j._lastRepeatMs ≤ j.repeatAge + j._tickMs := by
    unfold Joystick.repeatAge
    simp only [subU, addU, WORD]
    omega
  by_cases h : j._adcInit = true
  · have ev : j.tickKinds sqrtf atan2f i =
        (j.sampled i.tmp0 i.tmp1 sqrtf).eventKinds sqrtf atan2f := by
      unfold Joystick.tickKinds Joystick.eventKinds
      rw [tick_events j _ _ _ _ _ h]
    have st : (j.tick i.tmp0 i.tmp1 i.levelHigh sqrtf atan2f).1._tickMs =
          ((j.sampled i.tmp0 i.tmp1 sqrtf).computePolarAndEvents sqrtf atan2f).1._tickMs ∧
        (j.tick i.tmp0 i.tmp1 i.levelHigh sqrtf atan2f).1._repeatMs =
          ((j.sampled i.tmp0 i.tmp1 sqrtf).computePolarAndEvents sqrtf atan2f).1._repeatMs ∧
        (j.tick i.tmp0 i.tmp1 i.levelHigh sqrtf atan2f).1._nowMs =
          ((j.sampled i.tmp0 i.tmp1 sqrtf).computePolarAndEvents sqrtf atan2f).1._nowMs ∧
        (j.tick i.tmp0 i.tmp1 i.levelHigh sqrtf atan2f).1._lastRepeatMs =
          ((j.sampled i.tmp0 i.tmp1 sqrtf).computePolarAndEvents sqrtf atan2f).1._lastRepeatMs := by
      unfold Joystick.tick
      dsimp only
      rw [if_pos h]
      exact ⟨rfl, rfl, rfl, rfl⟩
    obtain ⟨s1, s2, s3, s4⟩ := st
    obtain ⟨_, ⟨_, _, _, f4, f5⟩, _⟩ :=
      computePolarAndEvents_fields (j.sampled i.tmp0 i.tmp1 sqrtf) sqrtf atan2f
    obtain ⟨g1, g2⟩ := computePolarAndEvents_repeat (j.sampled i.tmp0 i.tmp1 sqrtf) sqrtf atan2f
    have q1 : (j.sampled i.tmp0 i.tmp1 sqrtf)._nowMs = addU j._nowMs j._tickMs := rfl
    have q2 : (j.sampled i.tmp0 i.tmp1 sqrtf)._lastRepeatMs = j._lastRepeatMs := rfl
    have q3 : (j.sampled i.tmp0 i.tmp1 sqrtf)._repeatMs = j._repeatMs := rfl
    have q4 : (j.sampled i.tmp0 i.tmp1 sqrtf)._tickMs = j._tickMs := rfl
    have hm := repeat_mem (j.sampled i.tmp0 i.tmp1 sqrtf) sqrtf atan2f
    rw [q1, q2, q3] at hm g1
    unfold Joystick.repeatAge at *
    rw [s1, s2, s3, s4, g1, g2, f4, f5, q1, q3, q4, ev, hm]
    refine ⟨⟨rfl, rfl⟩, ?_, ?_⟩
    · intro hr
      rw [if_pos hr]
      refine ⟨?_, subU_self _⟩
      obtain ⟨_, hr2⟩ := hr
      split_ifs at hr2 with hd
      · rw [subU_self] at hr2
        omega
      · exact le_trans hr2 hage
    · split_ifs <;> first | exact hage | (rw [subU_self]; omega)
  · have ev : j.tickKinds sqrtf atan2f i = [] := by
      unfold Joystick.tickKinds Joystick.tick
      dsimp only
      rw [if_neg h]
      rfl
    have st : (j.tick i.tmp0 i.tmp1 i.levelHigh sqrtf atan2f).1._tickMs = j._tickMs ∧
        (j.tick i.tmp0 i.tmp1 i.levelHigh sqrtf atan2f).1._repeatMs = j._repeatMs ∧
        (j.tick i.tmp0 i.tmp1 i.levelHigh sqrtf atan2f).1._nowMs = addU j._nowMs j._tickMs ∧
        (j.tick i.tmp0 i.tmp1 i.levelHigh sqrtf atan2f).1._lastRepeatMs = j._lastRepeatMs := by
      unfold Joystick.tick
      dsimp only
      rw [if_neg h]
      exact ⟨rfl, rfl, rfl, rfl⟩
    obtain ⟨s1, s2, s3, s4⟩ := st
    unfold Joystick.repeatAge at *
    rw [s1, s2, s3, s4, ev]
    exact ⟨⟨rfl, rfl⟩, fun hr => absurd hr (by simp), hage⟩

theorem run_repeatAge (mid : List TickInput) (j : Joystick) (sqrtf : ℚ → ℚ)
    (atan2f : ℚ → ℚ → ℚ) :
    ((j.run sqrtf atan2f mid).1._tickMs = j._tickMs ∧
      (j.run sqrtf atan2f mid).1._repeatMs = j._repeatMs) ∧
    (j.run sqrtf atan2f mid).1.repeatAge ≤ j.repeatAge + mid.length * j._tickMs := by
  induction mid generalizing j with
  | nil => exact ⟨⟨rfl, rfl⟩, by simp [Joystick.run]⟩
  | cons i is ih =>
    obtain ⟨⟨t1, t2⟩, _, t4⟩ := tick_repeat_fields j i sqrtf atan2f
    obtain ⟨⟨r1, r2⟩, r3⟩ := ih (j.tick i.tmp0 i.tmp1 i.levelHigh sqrtf atan2f).1
    have e : (j.run sqrtf atan2f (i :: is)).1 =
        ((j.tick i.tmp0 i.tmp1 i.levelHigh sqrtf atan2f).1.run sqrtf atan2f is).1 := rfl
    rw [e, r1, r2, t1, t2]
    refine ⟨⟨rfl, rfl⟩, ?_⟩
    rw [t1] at r3
    have : (is.length + 1) * j._tickMs = is.length * j._tickMs + j._tickMs := by ring
    rw [List.length_cons, this]
    omega

/-- Claim C32. In `computePolarAndEvents`, `repeat` is emitted exactly if the
direction after the direction update is not Center and
`_nowMs - lastRepeat ≥ _repeatMs` in 32-bit arithmetic, `lastRepeat` being
`_nowMs` when the direction changed on this tick and the stored `_lastRepeatMs`
otherwise. The stored `_lastRepeatMs` becomes `_nowMs` on a direction change and
on a repeat, and is unchanged otherwise. With `_repeatMs > 0` no repeat is
emitted on the tick of a direction change. Two ticks that both emit `repeat`,
with the ticks `mid` between them, are at least `_repeatMs` of software time
apart: `_repeatMs ≤ (mid.length + 1) * _tickMs`. -/
theorem repeat_event (j : Joystick) (sqrtf : ℚ → ℚ) (atan2f : ℚ → ℚ → ℚ) (x y : TickInput)
    (mid : List TickInput) :
    (JEvent.repeat_ ∈ j.eventKinds sqrtf atan2f ↔
      (j.computePolarAndEvents sqrtf atan2f).1.direction8 ≠ JoystickDir.Center ∧
      j._repeatMs ≤ subU j._nowMs
        (if (j.computePolarAndEvents sqrtf atan2f).1.direction8 ≠ j._dir then j._nowMs
         else j._lastRepeatMs)) ∧
    ((j.computePolarAndEvents sqrtf atan2f).1._lastRepeatMs =
      if JEvent.directionChanged ∈ j.eventKinds sqrtf atan2f ∨
          JEvent.repeat_ ∈ j.eventKinds sqrtf atan2f then j._nowMs else j._lastRepeatMs) ∧
    (0 < j._repeatMs → JEvent.directionChanged ∈ j.eventKinds sqrtf atan2f →
      JEvent.repeat_ ∉ j.eventKinds sqrtf atan2f) ∧
    (JEvent.repeat_ ∈ j.tickKinds sqrtf atan2f x →
      JEvent.repeat_ ∈
        ((j.tick x.tmp0 x.tmp1 x.levelHigh sqrtf atan2f).1.run sqrtf atan2f mid).1.tickKinds
          sqrtf atan2f y →
      j._repeatMs ≤ (mid.length + 1) * j._tickMs) := by
  obtain ⟨_, ⟨e3, _⟩, _⟩ := computePolarAndEvents_fields j sqrtf atan2f
  obtain ⟨g1, _⟩ := computePolarAndEvents_repeat j sqrtf atan2f
  have hm := repeat_mem j sqrtf atan2f
  have hd := directionChanged_mem j sqrtf atan2f
  have e3' : (j.computePolarAndEvents sqrtf atan2f).1.direction8 =
      (j.polar sqrtf atan2f).newDir := e3
  refine ⟨?_, ?_, ?_, ?_⟩
  · rw [hm, e3']
  · rw [g1]
    by_cases hc : (j.polar sqrtf atan2f).newDir ≠ j._dir
    · have h1 : JEvent.directionChanged ∈ j.eventKinds sqrtf atan2f ∨
          JEvent.repeat_ ∈ j.eventKinds sqrtf atan2f := Or.inl (hd.mpr hc)
      rw [if_pos h1, if_pos hc]
      split_ifs <;> rfl
    · rw [if_neg hc]
      by_cases hr : (j.polar sqrtf atan2f).newDir ≠ JoystickDir.Center ∧
          subU j._nowMs j._lastRepeatMs ≥ j._repeatMs
      · have hr' : JEvent.repeat_ ∈ j.eventKinds sqrtf atan2f := by
          rw [hm, if_neg hc]; exact hr
        rw [if_pos hr, if_pos (Or.inr hr')]
      · have hr' : ¬ JEvent.repeat_ ∈ j.eventKinds sqrtf atan2f := by
          rw [hm, if_neg hc]; exact hr
        have hd' : ¬ JEvent.directionChanged ∈ j.eventKinds sqrtf atan2f := by
          rw [hd]; exact hc
        rw [if_neg hr, if_neg (not_or.mpr ⟨hd', hr'⟩)]
  · intro hpos hch hr
    rw [hd] at hch
    rw [hm, if_pos hch, subU_self] at hr
    omega
  · intro hx hy
    obtain ⟨⟨t1, t2⟩, t3, _⟩ := tick_repeat_fields j x sqrtf atan2f
    obtain ⟨_, a0⟩ := t3 hx
    obtain ⟨⟨r1, r2⟩, r3⟩ :=
      run_repeatAge mid (j.tick x.tmp0 x.tmp1 x.levelHigh sqrtf atan2f).1 sqrtf atan2f
    obtain ⟨_, u3, _⟩ := tick_repeat_fields
      ((j.tick x.tmp0 x.tmp1 x.levelHigh sqrtf atan2f).1.run sqrtf atan2f mid).1 y sqrtf atan2f
    obtain ⟨b0, _⟩ := u3 hy
    rw [r1, r2, t1, t2] at b0
    rw [a0, t1] at r3
    have : (mid.length + 1) * j._tickMs = mid.length * j._tickMs + j._tickMs := by ring
    rw [this]
    omega

/-- Claim C32, at the joystick `heldEast` held east for three more ticks: the
first and the third tick emit `repeat`, two ticks of 10 ms apart, and the
repeat interval is 20 ms. -/
theorem repeat_event_witness :
    JEvent.repeat_ ∈ heldEast.tickKinds sqrtfTable atan2fTable eastInput ∧
    JEvent.repeat_ ∈
      ((heldEast.tick eastInput.tmp0 eastInput.tmp1 eastInput.levelHigh sqrtfTable
        atan2fTable).1.run sqrtfTable atan2fTable [eastInput]).1.tickKinds
          sqrtfTable atan2fTable eastInput ∧
    heldEast._repeatMs ≤ ([eastInput].length + 1) * heldEast._tickMs := by
  have h : JEvent.repeat_ ∈ heldEast.tickKinds sqrtfTable atan2fTable eastInput ∧
      JEvent.repeat_ ∈
        ((heldEast.tick eastInput.tmp0 eastInput.tmp1 eastInput.levelHigh sqrtfTable
          atan2fTable).1.run sqrtfTable atan2fTable [eastInput]).1.tickKinds
            sqrtfTable atan2fTable eastInput := by
    with_unfolding_all decide
  exact ⟨h.1, h.2,
    (repeat_event heldEast sqrtfTable atan2fTable eastInput eastInput [eastInput]).2.2.2 h.1 h.2⟩

end Joy
